import Mathlib

/-!
# STM32 multi-channel USB CDC to UART bridge

A shallow embedding of `Custom_CDC/usbd_cdc_if.c` (the application glue: line coding,
ring buffers, timer flush) and of `Custom_CDC/Class/CDC/Src/usbd_cdc.c` (the CDC class
engine) together with theorems about them.

Conventions of the embedding.
* C globals become fields of a state record that is passed explicitly.
* Unsigned machine integers are `Nat`; every store that can truncate or wrap carries an
  explicit `% 2 ^ w`.
* A C array indexed by the channel is a function `Nat → _`; statements restrict the index
  to the declared bound where it matters.
* An execution that dereferences a null pointer has no result: such functions return
  `Option` and yield `none` there. A driver call that fails on a bound handle, which the
  driver model never produces, is given no result in `Change_UART_Setting` and
  `CDC_Init_FS`; `Error_Handler` itself is an outgoing call that returns.
* Calls into the USB link layer and through the registered capability set are recorded, in
  order, in a trace carried by the state.
-/

namespace CDC

/-! ## Constants -/

/-- Modelled from the spec: `NUMBER_OF_CDC` comes from usbd_cdc.h, which is not among the
sources. The per-channel endpoint tables of usbd_cdc.c have four initialisers, the
configuration descriptor has four CDC blocks and the spec counts four channels. -/
def NUMBER_OF_CDC : Nat := 4

/-- Source: `#define APP_RX_DATA_SIZE 1024`. -/
def APP_RX_DATA_SIZE : Nat := 1024

/-- Source: `#define APP_TX_DATA_SIZE 1024`. -/
def APP_TX_DATA_SIZE : Nat := 1024

/-- Modelled from the spec: the class request codes are macros of usbd_cdc.h (absent); the
spec names the requests, the values are those of the USB CDC class definition. -/
def CDC_SEND_ENCAPSULATED_COMMAND : Nat := 0x00

/-- Modelled from the spec: request code `GET_ENCAPSULATED_RESPONSE` of usbd_cdc.h (absent). -/
def CDC_GET_ENCAPSULATED_RESPONSE : Nat := 0x01

/-- Modelled from the spec: request code `SET_COMM_FEATURE` of usbd_cdc.h (absent). -/
def CDC_SET_COMM_FEATURE : Nat := 0x02

/-- Modelled from the spec: request code `GET_COMM_FEATURE` of usbd_cdc.h (absent). -/
def CDC_GET_COMM_FEATURE : Nat := 0x03

/-- Modelled from the spec: request code `CLEAR_COMM_FEATURE` of usbd_cdc.h (absent). -/
def CDC_CLEAR_COMM_FEATURE : Nat := 0x04

/-- Modelled from the spec: request code `SET_LINE_CODING` of usbd_cdc.h (absent). -/
def CDC_SET_LINE_CODING : Nat := 0x20

/-- Modelled from the spec: request code `GET_LINE_CODING` of usbd_cdc.h (absent). -/
def CDC_GET_LINE_CODING : Nat := 0x21

/-- Modelled from the spec: request code `SET_CONTROL_LINE_STATE` of usbd_cdc.h (absent). -/
def CDC_SET_CONTROL_LINE_STATE : Nat := 0x22

/-- Modelled from the spec: request code `SEND_BREAK` of usbd_cdc.h (absent). -/
def CDC_SEND_BREAK : Nat := 0x23

/-- Status codes returned by the class engine (`USBD_StatusTypeDef`). -/
inductive USBD_StatusTypeDef where
  | USBD_OK
  | USBD_BUSY
  | USBD_FAIL
  deriving DecidableEq, Repr

/-- Status codes returned by the serial peripheral driver (`HAL_StatusTypeDef`). -/
inductive HAL_StatusTypeDef where
  | HAL_OK
  | HAL_ERROR
  | HAL_BUSY
  | HAL_TIMEOUT
  deriving DecidableEq, Repr

export USBD_StatusTypeDef (USBD_OK USBD_BUSY USBD_FAIL)
export HAL_StatusTypeDef (HAL_OK HAL_ERROR HAL_BUSY HAL_TIMEOUT)

/-! ## Memory objects -/

/-- Addresses the code passes around: a slot of one of the two global buffer tables, a
channel's control scratch buffer, the setup request record, or the locals of
`USBD_CDC_Setup`. -/
inductive Ptr where
  | null
  | RX_Buffer (ch off : Nat)
  | TX_Buffer (ch off : Nat)
  | data (ch : Nat)
  | req
  | status_info
  | ifalt
  deriving DecidableEq, Repr

/-- Source: `USBD_CDC_LineCodingTypeDef` (bitrate is 32 bits wide, the rest are bytes). -/
structure USBD_CDC_LineCodingTypeDef where
  bitrate : Nat
  format : Nat
  paritytype : Nat
  datatype : Nat
  deriving DecidableEq, Repr

/-- The stop-bit settings `Change_UART_Setting` writes. -/
inductive UART_StopBits where
  | UART_STOPBITS_1
  | UART_STOPBITS_2
  deriving DecidableEq, Repr

/-- The parity settings `Change_UART_Setting` writes. -/
inductive UART_Parity where
  | UART_PARITY_NONE
  | UART_PARITY_EVEN
  | UART_PARITY_ODD
  deriving DecidableEq, Repr

/-- The word lengths `Change_UART_Setting` writes. -/
inductive UART_WordLength where
  | UART_WORDLENGTH_8B
  | UART_WORDLENGTH_9B
  deriving DecidableEq, Repr

/-- Hardware flow control settings of the driver. -/
inductive UART_HwFlowCtl where
  | UART_HWCONTROL_NONE
  | UART_HWCONTROL_RTS
  | UART_HWCONTROL_CTS
  | UART_HWCONTROL_RTS_CTS
  deriving DecidableEq, Repr

/-- Transfer direction settings of the driver. -/
inductive UART_Mode where
  | UART_MODE_RX
  | UART_MODE_TX
  | UART_MODE_TX_RX
  deriving DecidableEq, Repr

/-- Oversampling settings of the driver. -/
inductive UART_OverSampling where
  | UART_OVERSAMPLING_16
  | UART_OVERSAMPLING_8
  deriving DecidableEq, Repr

export UART_StopBits (UART_STOPBITS_1 UART_STOPBITS_2)
export UART_Parity (UART_PARITY_NONE UART_PARITY_EVEN UART_PARITY_ODD)
export UART_WordLength (UART_WORDLENGTH_8B UART_WORDLENGTH_9B)
export UART_HwFlowCtl (UART_HWCONTROL_NONE)
export UART_Mode (UART_MODE_TX_RX)
export UART_OverSampling (UART_OVERSAMPLING_16)

/-- The `Init` member of a UART handle, with the fields `Change_UART_Setting` assigns. -/
structure UART_InitTypeDef where
  BaudRate : Nat
  WordLength : UART_WordLength
  StopBits : UART_StopBits
  Parity : UART_Parity
  Mode : UART_Mode
  HwFlowCtl : UART_HwFlowCtl
  OverSampling : UART_OverSampling
  deriving DecidableEq, Repr

/-- Modelled from the spec: the serial peripheral driver's handle (the HAL is an external
collaborator, not among the sources). `Init` is the requested configuration, `applied` the
configuration programmed into the peripheral by the last initialisation (none after a
de-initialisation), `rx` the armed interrupt reception: destination and byte count. -/
structure UART_HandleTypeDef where
  Init : UART_InitTypeDef
  applied : Option UART_InitTypeDef
  rx : Option (Ptr × Nat)
  deriving DecidableEq, Repr

/-- The three UART handles the application refers to (`huart1`, `huart2`, `huart3`). -/
inductive UartId where
  | huart1
  | huart2
  | huart3
  deriving DecidableEq, Repr

export UartId (huart1 huart2 huart3)

/-- The globals of usbd_cdc_if.c together with the UART handles of usart.h. -/
structure AppState where
  RX_Buffer : Nat → Nat → Nat
  TX_Buffer : Nat → Nat → Nat
  Line_Coding : Nat → USBD_CDC_LineCodingTypeDef
  Write_Index : Nat → Nat
  Read_Index : Nat → Nat
  huart : UartId → UART_HandleTypeDef

/-! ## Serial peripheral driver -/

/-- Modelled from the spec: `HAL_UART_DeInit` on a bound handle tears the peripheral down,
which also aborts an armed reception, and reports success. -/
def HAL_UART_DeInit (h : UART_HandleTypeDef) : HAL_StatusTypeDef × UART_HandleTypeDef :=
  (HAL_OK, { h with applied := none, rx := none })

/-- Modelled from the spec: `HAL_UART_Init` on a bound handle programs the peripheral from
the handle's `Init` member and reports success. -/
def HAL_UART_Init (h : UART_HandleTypeDef) : HAL_StatusTypeDef × UART_HandleTypeDef :=
  (HAL_OK, { h with applied := some h.Init })

/-- Modelled from the spec: `HAL_UART_Receive_IT` arms a non-blocking reception of `size`
bytes into `pData`; it is refused as busy while a reception is already armed, and as an
error for a null destination or an empty request. -/
def HAL_UART_Receive_IT (h : UART_HandleTypeDef) (pData : Ptr) (size : Nat) :
    HAL_StatusTypeDef × UART_HandleTypeDef :=
  match h.rx with
  | some _ => (HAL_BUSY, h)
  | none =>
    if pData = Ptr.null ∨ size = 0 then (HAL_ERROR, h)
    else (HAL_OK, { h with rx := some (pData, size) })

/-! ## usbd_cdc_if.c : line coding -/

/-- Source: `CDC_Index_To_UART_Handle`; `none` is the `NULL` the function starts from. -/
def CDC_Index_To_UART_Handle (cdc_index : Nat) : Option UartId :=
  if cdc_index = 0 then some huart1
  else if cdc_index = 1 then some huart2
  else if cdc_index = 2 then some huart3
  else none

/-- Source: `UART_Handle_TO_CDC_Index`. -/
def UART_Handle_TO_CDC_Index (handle : UartId) : Nat :=
  match handle with
  | huart1 => 0
  | huart2 => 1
  | huart3 => 2

/-- The stop-bit switch of `Change_UART_Setting`. -/
def stopBitsOf (format : Nat) : UART_StopBits :=
  match format with
  | 0 => UART_STOPBITS_1
  | 2 => UART_STOPBITS_2
  | _ => UART_STOPBITS_1

/-- The parity switch of `Change_UART_Setting`. -/
def parityOf (paritytype : Nat) : UART_Parity :=
  match paritytype with
  | 0 => UART_PARITY_NONE
  | 1 => UART_PARITY_ODD
  | 2 => UART_PARITY_EVEN
  | _ => UART_PARITY_NONE

/-- The data-bits switch of `Change_UART_Setting`; it reads the parity just assigned. -/
def wordLengthOf (datatype : Nat) (parity : UART_Parity) : UART_WordLength :=
  match datatype with
  | 7 => UART_WORDLENGTH_8B
  | 8 => if parity = UART_PARITY_NONE then UART_WORDLENGTH_8B else UART_WORDLENGTH_9B
  | _ => UART_WORDLENGTH_8B

/-- The rate `Change_UART_Setting` ends up with: a zero rate is replaced by 115200. -/
def effectiveRate (bitrate : Nat) : Nat :=
  if bitrate = 0 then 115200 else bitrate

/-- The `Init` member `Change_UART_Setting` assembles from a line-coding record. -/
def uartInitOf (lc : USBD_CDC_LineCodingTypeDef) : UART_InitTypeDef :=
  { BaudRate := effectiveRate lc.bitrate
    WordLength := wordLengthOf lc.datatype (parityOf lc.paritytype)
    StopBits := stopBitsOf lc.format
    Parity := parityOf lc.paritytype
    Mode := UART_MODE_TX_RX
    HwFlowCtl := UART_HWCONTROL_NONE
    OverSampling := UART_OVERSAMPLING_16 }

/-- Source: `Change_UART_Setting`. For a channel without a UART handle the function passes
`NULL` to the driver, calls `Error_Handler` and then writes through the null handle:
no result. A driver call that does not report `HAL_OK` on a bound handle, which the driver
model never produces, is given no result either. -/
def Change_UART_Setting (cdc_index : Nat) (s : AppState) : Option AppState :=
  match CDC_Index_To_UART_Handle cdc_index with
  | none => none
  | some u =>
    let r1 := HAL_UART_DeInit (s.huart u)
    if r1.1 ≠ HAL_OK then none
    else
      let lc := s.Line_Coding cdc_index
      let r2 := HAL_UART_Init { r1.2 with Init := uartInitOf lc }
      if r2.1 ≠ HAL_OK then none
      else
        let r3 := HAL_UART_Receive_IT r2.2 (Ptr.TX_Buffer cdc_index 0) 1
        if r3.1 ≠ HAL_OK then none
        else
          some { s with
            Line_Coding := Function.update s.Line_Coding cdc_index
              { lc with bitrate := effectiveRate lc.bitrate }
            huart := Function.update s.huart u r3.2 }

/-- The byte a `uint8_t *` reads at offset `k` of a buffer. -/
def rdByte (pbuf : Nat → Nat) (k : Nat) : Nat := pbuf k % 256

/-- The rate field of a line-coding payload, as `CDC_Control_FS` assembles it. -/
def rateOf (pbuf : Nat → Nat) : Nat :=
  (rdByte pbuf 0 ||| (rdByte pbuf 1 <<< 8) ||| (rdByte pbuf 2 <<< 16)
    ||| (rdByte pbuf 3 <<< 24)) % 2 ^ 32

/-- The four stores of the `CDC_SET_LINE_CODING` case. -/
def decodeLineCoding (pbuf : Nat → Nat) : USBD_CDC_LineCodingTypeDef :=
  { bitrate := rateOf pbuf
    format := rdByte pbuf 4
    paritytype := rdByte pbuf 5
    datatype := rdByte pbuf 6 }

/-- The seven stores of the `CDC_GET_LINE_CODING` case. -/
def putLineCoding (lc : USBD_CDC_LineCodingTypeDef) (pbuf : Nat → Nat) : Nat → Nat :=
  fun k =>
    if k = 0 then lc.bitrate % 256
    else if k = 1 then (lc.bitrate >>> 8) % 256
    else if k = 2 then (lc.bitrate >>> 16) % 256
    else if k = 3 then (lc.bitrate >>> 24) % 256
    else if k = 4 then lc.format
    else if k = 5 then lc.paritytype
    else if k = 6 then lc.datatype
    else pbuf k

/-- Result of a `Control` call: the status, the application state and the buffer behind
`pbuf` after the call. -/
structure ControlResult where
  ret : USBD_StatusTypeDef
  app : AppState
  pbuf : Nat → Nat

/-- Source: `CDC_Control_FS`. Only the two line-coding cases do anything; every other
command code breaks out of the switch. The length argument is not read. -/
def CDC_Control_FS (cdc_index cmd : Nat) (pbuf : Nat → Nat) (_length : Nat) (s : AppState) :
    Option ControlResult :=
  if cmd = CDC_SET_LINE_CODING then
    match Change_UART_Setting cdc_index
        { s with Line_Coding := Function.update s.Line_Coding cdc_index (decodeLineCoding pbuf) } with
    | none => none
    | some s1 => some { ret := USBD_OK, app := s1, pbuf := pbuf }
  else if cmd = CDC_GET_LINE_CODING then
    some { ret := USBD_OK, app := s, pbuf := putLineCoding (s.Line_Coding cdc_index) pbuf }
  else
    some { ret := USBD_OK, app := s, pbuf := pbuf }

/-- A state in which nothing has happened yet: zeroed globals, idle UART handles. -/
def AppState.zero : AppState :=
  { RX_Buffer := fun _ _ => 0
    TX_Buffer := fun _ _ => 0
    Line_Coding := fun _ => { bitrate := 0, format := 0, paritytype := 0, datatype := 0 }
    Write_Index := fun _ => 0
    Read_Index := fun _ => 0
    huart := fun _ =>
      { Init :=
          { BaudRate := 0
            WordLength := UART_WORDLENGTH_8B
            StopBits := UART_STOPBITS_1
            Parity := UART_PARITY_NONE
            Mode := UART_MODE_TX_RX
            HwFlowCtl := UART_HWCONTROL_NONE
            OverSampling := UART_OVERSAMPLING_16 }
        applied := none
        rx := none } }

/-! ## usbd_cdc_if.c : serial receive path -/

/-- Source: `HAL_UART_RxCpltCallback`. The status of the re-arming call is discarded. -/
def HAL_UART_RxCpltCallback (huart : UartId) (s : AppState) : AppState :=
  let cdc_index := UART_Handle_TO_CDC_Index huart
  let w1 := (s.Write_Index cdc_index + 1) % 2 ^ 32
  let w2 := if w1 = APP_RX_DATA_SIZE then 0 else w1
  let r := HAL_UART_Receive_IT (s.huart huart) (Ptr.TX_Buffer cdc_index w2) 1
  { s with
    Write_Index := Function.update s.Write_Index cdc_index w2
    huart := Function.update s.huart huart r.2 }

/-- Modelled from the spec: the driver's receive interrupt for one arriving byte (the HAL is
not among the sources). With a one-byte reception armed into a slot of `TX_Buffer` the byte
is stored there, the reception is complete and `HAL_UART_RxCpltCallback` runs; with nothing
armed the byte is lost. -/
def UART_RxByte (huart : UartId) (b : Nat) (s : AppState) : AppState :=
  match (s.huart huart).rx with
  | some (Ptr.TX_Buffer ch off, 1) =>
    HAL_UART_RxCpltCallback huart
      { s with
        TX_Buffer := Function.update s.TX_Buffer ch (Function.update (s.TX_Buffer ch) off (b % 256))
        huart := Function.update s.huart huart { s.huart huart with rx := none } }
  | _ => s

/-- The serial-receive path for a sequence of bytes arriving on one UART. -/
def UART_RxBytes (huart : UartId) (bs : List Nat) (s : AppState) : AppState :=
  bs.foldl (fun st b => UART_RxByte huart b st) s

/-! ## usbd_cdc.c : device and channel state -/

/-- The endpoint address macros of usbd_cdc.h (absent from the sources), taken as a
parameter of the class engine. -/
structure EndpointIds where
  CDC0_IN_EP : Nat
  CDC1_IN_EP : Nat
  CDC2_IN_EP : Nat
  CDC3_IN_EP : Nat
  CDC0_CMD_EP : Nat
  CDC1_CMD_EP : Nat
  CDC2_CMD_EP : Nat
  CDC3_CMD_EP : Nat
  CDC0_OUT_EP : Nat
  CDC1_OUT_EP : Nat
  CDC2_OUT_EP : Nat
  CDC3_OUT_EP : Nat
  deriving DecidableEq, Repr

/-- Source: `CDC_IN_EP[NUMBER_OF_CDC] = {CDC0_IN_EP, CDC1_IN_EP, CDC2_IN_EP, CDC3_IN_EP}`. -/
def CDC_IN_EP (E : EndpointIds) (i : Nat) : Nat :=
  match i with
  | 0 => E.CDC0_IN_EP
  | 1 => E.CDC1_IN_EP
  | 2 => E.CDC2_IN_EP
  | 3 => E.CDC3_IN_EP
  | _ => 0

/-- Source: `CDC_CMD_EP[NUMBER_OF_CDC] = {CDC0_CMD_EP, CDC1_CMD_EP, CDC2_CMD_EP, CDC3_CMD_EP}`. -/
def CDC_CMD_EP (E : EndpointIds) (i : Nat) : Nat :=
  match i with
  | 0 => E.CDC0_CMD_EP
  | 1 => E.CDC1_CMD_EP
  | 2 => E.CDC2_CMD_EP
  | 3 => E.CDC3_CMD_EP
  | _ => 0

/-- Source: `CDC_OUT_EP[NUMBER_OF_CDC] = {CDC0_OUT_EP, CDC1_OUT_EP, CDC2_OUT_EP, CDC3_OUT_EP}`. -/
def CDC_OUT_EP (E : EndpointIds) (i : Nat) : Nat :=
  match i with
  | 0 => E.CDC0_OUT_EP
  | 1 => E.CDC1_OUT_EP
  | 2 => E.CDC2_OUT_EP
  | 3 => E.CDC3_OUT_EP
  | _ => 0

/-- Source: `EP_To_Class[8] = {0, 0, 1, 1, 2, 2, 3, 3}`. -/
def EP_To_Class : List Nat := [0, 0, 1, 1, 2, 2, 3, 3]

/-- Modelled from the spec: request-type mask of usbd_def.h (absent), USB standard value. -/
def USB_REQ_TYPE_MASK : Nat := 0x60

/-- Modelled from the spec: class request type of usbd_def.h (absent), USB standard value. -/
def USB_REQ_TYPE_CLASS : Nat := 0x20

/-- Modelled from the spec: standard request type of usbd_def.h (absent). -/
def USB_REQ_TYPE_STANDARD : Nat := 0x00

/-- Modelled from the spec: `GET_STATUS` request code of usbd_def.h (absent). -/
def USB_REQ_GET_STATUS : Nat := 0x00

/-- Modelled from the spec: `GET_INTERFACE` request code of usbd_def.h (absent). -/
def USB_REQ_GET_INTERFACE : Nat := 0x0A

/-- Modelled from the spec: `SET_INTERFACE` request code of usbd_def.h (absent). -/
def USB_REQ_SET_INTERFACE : Nat := 0x0B

/-- Modelled from the spec: the "configured" device state of usbd_def.h (absent). -/
def USBD_STATE_CONFIGURED : Nat := 3

/-- The members of a device endpoint record the class engine touches. -/
structure USBD_EndpointTypeDef where
  is_used : Nat
  total_length : Nat
  deriving DecidableEq, Repr

/-- Source: the members of `USBD_CDC_HandleTypeDef` the two files use. `data` is the control
scratch buffer, read bytewise. -/
structure USBD_CDC_HandleTypeDef where
  data : Nat → Nat
  CmdOpCode : Nat
  CmdLength : Nat
  RxBuffer : Ptr
  TxBuffer : Ptr
  RxLength : Nat
  TxLength : Nat
  TxState : Nat
  RxState : Nat

/-- The negotiated bus speed. -/
inductive USBD_SpeedTypeDef where
  | USBD_SPEED_HIGH
  | USBD_SPEED_FULL
  | USBD_SPEED_LOW
  deriving DecidableEq, Repr

/-- The capability sets a device can have registered; the repository defines one. -/
inductive ItfRef where
  | USBD_Interface_fops_FS
  deriving DecidableEq, Repr

/-- Source: the members of `USBD_HandleTypeDef` the class engine uses. `IN_ep_maxpacket e`
is `((PCD_HandleTypeDef *)pdev->pData)->IN_ep[e].maxpacket`; a `none` in `pClassDataCDC` or
`pUserDataCDC` is a null pointer. -/
structure USBD_HandleTypeDef where
  dev_speed : USBD_SpeedTypeDef
  dev_state : Nat
  ep_in : Nat → USBD_EndpointTypeDef
  ep_out : Nat → USBD_EndpointTypeDef
  IN_ep_maxpacket : Nat → Nat
  pClassDataCDC : Nat → Option USBD_CDC_HandleTypeDef
  pUserDataCDC : Option ItfRef

/-- Source: `USBD_SetupReqTypedef`, the decoded setup packet. -/
structure USBD_SetupReqTypedef where
  bmRequest : Nat
  bRequest : Nat
  wValue : Nat
  wIndex : Nat
  wLength : Nat
  deriving DecidableEq, Repr

/-- The bytes behind `(uint8_t *)req`: the setup record read bytewise (two byte-sized and
three little-endian 16-bit members). -/
def reqBytes (req : USBD_SetupReqTypedef) : Nat → Nat :=
  fun k =>
    match k with
    | 0 => req.bmRequest % 256
    | 1 => req.bRequest % 256
    | 2 => req.wValue % 256
    | 3 => req.wValue / 256 % 256
    | 4 => req.wIndex % 256
    | 5 => req.wIndex / 256 % 256
    | 6 => req.wLength % 256
    | 7 => req.wLength / 256 % 256
    | _ => 0

/-- The endpoint types `USBD_CDC_Init` opens endpoints with. -/
inductive EpType where
  | USBD_EP_TYPE_BULK
  | USBD_EP_TYPE_INTR
  deriving DecidableEq, Repr

/-- The packet-size macros of usbd_cdc.h (absent from the sources), kept symbolic. -/
inductive PacketSize where
  | CDC_DATA_HS_IN_PACKET_SIZE
  | CDC_DATA_HS_OUT_PACKET_SIZE
  | CDC_DATA_FS_IN_PACKET_SIZE
  | CDC_DATA_FS_OUT_PACKET_SIZE
  | CDC_CMD_PACKET_SIZE
  deriving DecidableEq, Repr

/-- Calls that leave the two files: into the USB link layer and core, the allocator and the
timer driver, and through the registered capability set. -/
inductive Event where
  | USBD_LL_Transmit (ep_addr : Nat) (pbuf : Ptr) (size : Nat)
  | USBD_CtlSendData (pbuf : Ptr) (len : Nat)
  | USBD_CtlPrepareRx (pbuf : Ptr) (len : Nat)
  | USBD_CtlError
  | Control (cdc_index cmd : Nat) (pbuf : Ptr) (length : Nat)
  | USBD_LL_OpenEP (ep_addr : Nat) (ep_type : EpType) (ep_mps : PacketSize)
  | USBD_LL_CloseEP (ep_addr : Nat)
  | USBD_LL_PrepareReceive (ep_addr : Nat) (pbuf : Ptr) (size : PacketSize)
  | Init (cdc_index : Nat)
  | DeInit (cdc_index : Nat)
  | USBD_free (cdc_index : Nat)
  | HAL_TIM_Base_Start_IT
  | Error_Handler
  deriving DecidableEq, Repr

/-- The whole program state: application globals, the device handle `hUsbDeviceFS`, and the
trace of outgoing calls, oldest first. -/
structure World where
  app : AppState
  pdev : USBD_HandleTypeDef
  trace : List Event

/-- Store a channel record back through the pointer `pClassDataCDC[i]`. -/
def World.setHandle (w : World) (i : Nat) (h : USBD_CDC_HandleTypeDef) : World :=
  { w with pdev := { w.pdev with pClassDataCDC := Function.update w.pdev.pClassDataCDC i (some h) } }

/-- Store `pdev->ep_in[e].total_length = n`. -/
def World.setTotalLength (w : World) (e n : Nat) : World :=
  { w with pdev := { w.pdev with
      ep_in := Function.update w.pdev.ep_in e { w.pdev.ep_in e with total_length := n } } }

/-- Append outgoing calls to the trace. -/
def World.emit (w : World) (evs : List Event) : World :=
  { w with trace := w.trace ++ evs }

/-- The `Control` member of the registered capability set; `USBD_Interface_fops_FS` holds
`CDC_Control_FS`. -/
def ItfRef.Control (f : ItfRef) :
    Nat → Nat → (Nat → Nat) → Nat → AppState → Option ControlResult :=
  match f with
  | ItfRef.USBD_Interface_fops_FS => CDC_Control_FS

/-- A counted loop `for (i = 0; i < n; i++) body(i)` over a fallible body. -/
def forLoop {σ : Type} (n : Nat) (body : Nat → σ → Option σ) (s : σ) : Option σ :=
  match n with
  | 0 => some s
  | k + 1 => (forLoop k body s).bind (body k)

/-! ## usbd_cdc.c : class engine -/

/-- Source: `USBD_CDC_SetTxBuffer`. The channel record is written without a null check; the
length parameter is 16 bits wide. -/
def USBD_CDC_SetTxBuffer (cdc_index : Nat) (pbuff : Ptr) (length : Nat) (w : World) :
    Option (USBD_StatusTypeDef × World) :=
  match w.pdev.pClassDataCDC cdc_index with
  | none => none
  | some hcdc =>
    some (USBD_OK, w.setHandle cdc_index { hcdc with TxBuffer := pbuff, TxLength := length % 2 ^ 16 })

/-- Source: `USBD_CDC_TransmitPacket`. -/
def USBD_CDC_TransmitPacket (E : EndpointIds) (cdc_index : Nat) (w : World) :
    USBD_StatusTypeDef × World :=
  match w.pdev.pClassDataCDC cdc_index with
  | some hcdc =>
    if hcdc.TxState = 0 then
      let w1 := w.setHandle cdc_index { hcdc with TxState := 1 }
      let w2 := w1.setTotalLength (CDC_IN_EP E cdc_index &&& 0xF) hcdc.TxLength
      (USBD_OK,
        w2.emit [Event.USBD_LL_Transmit (CDC_IN_EP E cdc_index) hcdc.TxBuffer
          (hcdc.TxLength % 2 ^ 16)])
    else (USBD_BUSY, w)
  | none => (USBD_FAIL, w)

/-- Source: `USBD_CDC_DataIn`. An endpoint number outside `EP_To_Class` and a remainder by a
zero packet size have no defined result. -/
def USBD_CDC_DataIn (epnum : Nat) (w : World) : Option (USBD_StatusTypeDef × World) :=
  match EP_To_Class[epnum]? with
  | none => none
  | some cdc_index =>
    match w.pdev.pClassDataCDC cdc_index with
    | some hcdc =>
      if 0 < (w.pdev.ep_in epnum).total_length then
        if w.pdev.IN_ep_maxpacket epnum = 0 then none
        else if (w.pdev.ep_in epnum).total_length % w.pdev.IN_ep_maxpacket epnum = 0 then
          let w1 := w.setTotalLength epnum 0
          some (USBD_OK, w1.emit [Event.USBD_LL_Transmit epnum Ptr.null 0])
        else some (USBD_OK, w.setHandle cdc_index { hcdc with TxState := 0 })
      else some (USBD_OK, w.setHandle cdc_index { hcdc with TxState := 0 })
    | none => some (USBD_FAIL, w)

/-- The class-request branch of `USBD_CDC_Setup`. -/
def setupClass (req : USBD_SetupReqTypedef) (w : World) : Option (USBD_StatusTypeDef × World) :=
  let cdc_index := req.wIndex % 256
  if req.wLength ≠ 0 then
    if req.bmRequest &&& 0x80 ≠ 0 then
      match w.pdev.pUserDataCDC, w.pdev.pClassDataCDC cdc_index with
      | some fops, some hcdc =>
        let w1 := w.emit [Event.Control cdc_index req.bRequest (Ptr.data cdc_index) req.wLength]
        match fops.Control cdc_index req.bRequest hcdc.data req.wLength w1.app with
        | none => none
        | some r =>
          let w2 : World := { w1 with app := r.app }
          let w3 := w2.setHandle cdc_index { hcdc with data := r.pbuf }
          some (USBD_OK, w3.emit [Event.USBD_CtlSendData (Ptr.data cdc_index) req.wLength])
      | _, _ => none
    else
      match w.pdev.pClassDataCDC cdc_index with
      | none => none
      | some hcdc =>
        let w1 := w.setHandle cdc_index
          { hcdc with CmdOpCode := req.bRequest % 256, CmdLength := req.wLength % 256 }
        some (USBD_OK, w1.emit [Event.USBD_CtlPrepareRx (Ptr.data cdc_index) req.wLength])
  else
    match w.pdev.pUserDataCDC with
    | none => none
    | some fops =>
      let w1 := w.emit [Event.Control cdc_index req.bRequest Ptr.req 0]
      match fops.Control cdc_index req.bRequest (reqBytes req) 0 w1.app with
      | none => none
      | some r => some (USBD_OK, { w1 with app := r.app })

/-- The standard-request branch of `USBD_CDC_Setup`. -/
def setupStandard (req : USBD_SetupReqTypedef) (w : World) : USBD_StatusTypeDef × World :=
  if req.bRequest = USB_REQ_GET_STATUS then
    if w.pdev.dev_state = USBD_STATE_CONFIGURED then
      (USBD_OK, w.emit [Event.USBD_CtlSendData Ptr.status_info 2])
    else (USBD_FAIL, w.emit [Event.USBD_CtlError])
  else if req.bRequest = USB_REQ_GET_INTERFACE then
    if w.pdev.dev_state = USBD_STATE_CONFIGURED then
      (USBD_OK, w.emit [Event.USBD_CtlSendData Ptr.ifalt 1])
    else (USBD_FAIL, w.emit [Event.USBD_CtlError])
  else if req.bRequest = USB_REQ_SET_INTERFACE then
    if w.pdev.dev_state ≠ USBD_STATE_CONFIGURED then
      (USBD_FAIL, w.emit [Event.USBD_CtlError])
    else (USBD_OK, w)
  else (USBD_FAIL, w.emit [Event.USBD_CtlError])

/-- Source: `USBD_CDC_Setup`. The channel is the low byte of `wIndex`; bytes the capability
writes through `(uint8_t *)req` land in the caller's setup record and are not kept. -/
def USBD_CDC_Setup (req : USBD_SetupReqTypedef) (w : World) :
    Option (USBD_StatusTypeDef × World) :=
  if req.bmRequest &&& USB_REQ_TYPE_MASK = USB_REQ_TYPE_CLASS then setupClass req w
  else if req.bmRequest &&& USB_REQ_TYPE_MASK = USB_REQ_TYPE_STANDARD then
    some (setupStandard req w)
  else some (USBD_FAIL, w.emit [Event.USBD_CtlError])

/-- One iteration of the loop of `USBD_CDC_EP0_RxReady`. The opcode test is only evaluated
with a capability set registered; it reads through the channel pointer. -/
def ep0RxReadyChannel (i : Nat) (w : World) : Option World :=
  match w.pdev.pUserDataCDC with
  | none => some w
  | some fops =>
    match w.pdev.pClassDataCDC i with
    | none => none
    | some hcdc =>
      if hcdc.CmdOpCode ≠ 0xFF then
        let w1 := w.emit [Event.Control i hcdc.CmdOpCode (Ptr.data i) hcdc.CmdLength]
        match fops.Control i hcdc.CmdOpCode hcdc.data hcdc.CmdLength w1.app with
        | none => none
        | some r =>
          let w2 : World := { w1 with app := r.app }
          some (w2.setHandle i { hcdc with data := r.pbuf, CmdOpCode := 0xFF })
      else some w

/-- Source: `USBD_CDC_EP0_RxReady`. -/
def USBD_CDC_EP0_RxReady (w : World) : Option (USBD_StatusTypeDef × World) :=
  (forLoop NUMBER_OF_CDC ep0RxReadyChannel w).map (fun w1 => (USBD_OK, w1))

/-! ## Configuration and teardown -/

/-- Source: `USBD_CDC_SetRxBuffer`. The channel record is written without a null check. -/
def USBD_CDC_SetRxBuffer (cdc_index : Nat) (pbuff : Ptr) (w : World) :
    Option (USBD_StatusTypeDef × World) :=
  match w.pdev.pClassDataCDC cdc_index with
  | none => none
  | some hcdc => some (USBD_OK, w.setHandle cdc_index { hcdc with RxBuffer := pbuff })

/-- Modelled from the spec: `HAL_TIM_Base_Start_IT(&htim4)` of the timer driver (not among
the sources) starts the periodic tick and reports success. -/
def HAL_TIM_Base_Start_IT (w : World) : HAL_StatusTypeDef × World :=
  (HAL_OK, w.emit [Event.HAL_TIM_Base_Start_IT])

/-- Source: `CDC_Init_FS`. -/
def CDC_Init_FS (cdc_index : Nat) (w : World) : Option (USBD_StatusTypeDef × World) :=
  match USBD_CDC_SetRxBuffer cdc_index (Ptr.RX_Buffer cdc_index 0) w with
  | none => none
  | some r1 =>
    let r2 := HAL_TIM_Base_Start_IT r1.2
    if r2.1 ≠ HAL_OK then none else some (USBD_OK, r2.2)

/-- Modelled from the spec: `Error_Handler` of main.c, the hook the application calls when a
driver call fails, is not among the sources. It is recorded as an outgoing call and control
returns to the caller, so that the statements the source has after the call are run. -/
def Error_Handler (w : World) : World :=
  w.emit [Event.Error_Handler]

/-- Source: `CDC_DeInit_FS`. For a channel without a UART handle `NULL` goes to the driver,
which reports an error and touches no handle; the function does not dereference the handle
itself. After a failed driver call `Error_Handler` is called, and every path ends in
`return (USBD_OK)`. -/
def CDC_DeInit_FS (cdc_index : Nat) (w : World) : Option (USBD_StatusTypeDef × World) :=
  match CDC_Index_To_UART_Handle cdc_index with
  | none => some (USBD_OK, Error_Handler w)
  | some u =>
    let r := HAL_UART_DeInit (w.app.huart u)
    let w1 : World :=
      { w with app := { w.app with huart := Function.update w.app.huart u r.2 } }
    if r.1 ≠ HAL_OK then some (USBD_OK, Error_Handler w1) else some (USBD_OK, w1)

/-- The `Init` member of the registered capability set. -/
def ItfRef.Init (f : ItfRef) : Nat → World → Option (USBD_StatusTypeDef × World) :=
  match f with
  | ItfRef.USBD_Interface_fops_FS => CDC_Init_FS

/-- The `DeInit` member of the registered capability set. -/
def ItfRef.DeInit (f : ItfRef) : Nat → World → Option (USBD_StatusTypeDef × World) :=
  match f with
  | ItfRef.USBD_Interface_fops_FS => CDC_DeInit_FS

/-- Store `pdev->ep_in[e].is_used = v`. -/
def World.setUsedIn (w : World) (e v : Nat) : World :=
  { w with pdev := { w.pdev with
      ep_in := Function.update w.pdev.ep_in e { w.pdev.ep_in e with is_used := v } } }

/-- Store `pdev->ep_out[e].is_used = v`. -/
def World.setUsedOut (w : World) (e v : Nat) : World :=
  { w with pdev := { w.pdev with
      ep_out := Function.update w.pdev.ep_out e { w.pdev.ep_out e with is_used := v } } }

/-- Store a pointer, possibly `NULL`, into `pClassDataCDC[i]`. -/
def World.setClassPtr (w : World) (i : Nat) (p : Option USBD_CDC_HandleTypeDef) : World :=
  { w with pdev := { w.pdev with pClassDataCDC := Function.update w.pdev.pClassDataCDC i p } }

/-- The bulk-IN packet size `USBD_CDC_Init` picks for the negotiated speed. -/
def inPacketSize (w : World) : PacketSize :=
  if w.pdev.dev_speed = USBD_SpeedTypeDef.USBD_SPEED_HIGH then
    PacketSize.CDC_DATA_HS_IN_PACKET_SIZE
  else PacketSize.CDC_DATA_FS_IN_PACKET_SIZE

/-- The bulk-OUT packet size `USBD_CDC_Init` picks for the negotiated speed. -/
def outPacketSize (w : World) : PacketSize :=
  if w.pdev.dev_speed = USBD_SpeedTypeDef.USBD_SPEED_HIGH then
    PacketSize.CDC_DATA_HS_OUT_PACKET_SIZE
  else PacketSize.CDC_DATA_FS_OUT_PACKET_SIZE

/-- One iteration of the loop of `USBD_CDC_Init`, on the pair of `ret` and the state.
`alloc i` is the record `USBD_malloc` returns for channel `i`, `none` for `NULL`. After the
null test the code goes on to call the `Init` capability and to write `TxState` and
`RxState` through the pointer it got. -/
def initChannel (E : EndpointIds) (alloc : Nat → Option USBD_CDC_HandleTypeDef) (i : Nat)
    (st : Nat × World) : Option (Nat × World) :=
  let w := st.2
  let w1 := (w.emit [Event.USBD_LL_OpenEP (CDC_IN_EP E i) EpType.USBD_EP_TYPE_BULK
    (inPacketSize w)]).setUsedIn (CDC_IN_EP E i &&& 0xF) 1
  let w2 := (w1.emit [Event.USBD_LL_OpenEP (CDC_OUT_EP E i) EpType.USBD_EP_TYPE_BULK
    (outPacketSize w)]).setUsedOut (CDC_OUT_EP E i &&& 0xF) 1
  let w3 := (w2.emit [Event.USBD_LL_OpenEP (CDC_CMD_EP E i) EpType.USBD_EP_TYPE_INTR
    PacketSize.CDC_CMD_PACKET_SIZE]).setUsedIn (CDC_CMD_EP E i &&& 0xF) 1
  let w4 := w3.setClassPtr i (alloc i)
  let ret := if (alloc i).isNone then 1 else st.1
  match w4.pdev.pUserDataCDC with
  | none => none
  | some fops =>
    match fops.Init i (w4.emit [Event.Init i]) with
    | none => none
    | some r =>
      match r.2.pdev.pClassDataCDC i with
      | none => none
      | some hcdc =>
        let w5 := r.2.setHandle i { hcdc with TxState := 0, RxState := 0 }
        some (ret, w5.emit [Event.USBD_LL_PrepareReceive (CDC_OUT_EP E i) hcdc.RxBuffer
          (outPacketSize w)])

/-- Source: `USBD_CDC_Init`; the result is `ret` and the state. `cfgidx` is not read. -/
def USBD_CDC_Init (E : EndpointIds) (alloc : Nat → Option USBD_CDC_HandleTypeDef)
    (_cfgidx : Nat) (w : World) : Option (Nat × World) :=
  forLoop NUMBER_OF_CDC (initChannel E alloc) (0, w)

/-- One iteration of the loop of `USBD_CDC_DeInit`. -/
def deinitChannel (E : EndpointIds) (i : Nat) (w : World) : Option World :=
  let w1 := (w.emit [Event.USBD_LL_CloseEP (CDC_IN_EP E i)]).setUsedIn (CDC_IN_EP E i &&& 0xF) 0
  let w2 := (w1.emit [Event.USBD_LL_CloseEP (CDC_OUT_EP E i)]).setUsedOut
    (CDC_OUT_EP E i &&& 0xF) 0
  let w3 := (w2.emit [Event.USBD_LL_CloseEP (CDC_CMD_EP E i)]).setUsedIn
    (CDC_CMD_EP E i &&& 0xF) 0
  match w3.pdev.pClassDataCDC i with
  | none => some w3
  | some _ =>
    match w3.pdev.pUserDataCDC with
    | none => none
    | some fops =>
      match fops.DeInit i (w3.emit [Event.DeInit i]) with
      | none => none
      | some r => some ((r.2.emit [Event.USBD_free i]).setClassPtr i none)

/-- Source: `USBD_CDC_DeInit`; the result is `ret` (always 0) and the state. -/
def USBD_CDC_DeInit (E : EndpointIds) (_cfgidx : Nat) (w : World) : Option (Nat × World) :=
  (forLoop NUMBER_OF_CDC (deinitChannel E) w).map (fun w1 => (0, w1))

/-- Source: `uint8_t ifalt = 0U; uint16_t status_info = 0U;` in `USBD_CDC_Setup`: the bytes
behind the two pointers to locals the function hands to `USBD_CtlSendData`. -/
def setupLocalBytes (p : Ptr) : List Nat :=
  match p with
  | Ptr.status_info => [0, 0]
  | Ptr.ifalt => [0]
  | _ => []

/-! ## usbd_cdc_if.c : periodic flush -/

/-- The run length computed by the timer tick, in 32-bit unsigned arithmetic. -/
def runLength (r wr : Nat) : Nat :=
  if r > wr then (APP_TX_DATA_SIZE + 2 ^ 32 - r) % 2 ^ 32 else (wr + 2 ^ 32 - r) % 2 ^ 32

/-- The read cursor after an accepted transmit of `buffsize` bytes. -/
def advanceRead (r buffsize : Nat) : Nat :=
  if (r + buffsize) % 2 ^ 32 = APP_RX_DATA_SIZE then 0 else (r + buffsize) % 2 ^ 32

/-- One iteration of the loop of `HAL_TIM_PeriodElapsedCallback`. -/
def flushChannel (E : EndpointIds) (i : Nat) (w : World) : Option World :=
  if w.app.Read_Index i ≠ w.app.Write_Index i then
    let buffsize := runLength (w.app.Read_Index i) (w.app.Write_Index i)
    let buffptr := w.app.Read_Index i
    match USBD_CDC_SetTxBuffer i (Ptr.TX_Buffer i buffptr) buffsize w with
    | none => none
    | some r1 =>
      let r2 := USBD_CDC_TransmitPacket E i r1.2
      if r2.1 = USBD_OK then
        some { r2.2 with app := { r2.2.app with
          Read_Index := Function.update r2.2.app.Read_Index i
            (advanceRead (r2.2.app.Read_Index i) buffsize) } }
      else some r2.2
  else some w

/-- Source: `HAL_TIM_PeriodElapsedCallback`. -/
def HAL_TIM_PeriodElapsedCallback (E : EndpointIds) (w : World) : Option World :=
  forLoop NUMBER_OF_CDC (flushChannel E) w

/-! ## Reading the trace -/

/-- The bytes a transmit call hands to the link layer when it reads them from the ring
buffer of channel `i`; other calls contribute nothing. -/
def runBytes (s : AppState) (i : Nat) (ev : Event) : List Nat :=
  match ev with
  | Event.USBD_LL_Transmit _ (Ptr.TX_Buffer ch off) size =>
    if ch = i then (List.range size).map (fun k => s.TX_Buffer ch (off + k)) else []
  | _ => []

/-- A device handle with nothing configured. -/
def USBD_HandleTypeDef.zero : USBD_HandleTypeDef :=
  { dev_speed := USBD_SpeedTypeDef.USBD_SPEED_FULL
    dev_state := 0
    ep_in := fun _ => { is_used := 0, total_length := 0 }
    ep_out := fun _ => { is_used := 0, total_length := 0 }
    IN_ep_maxpacket := fun _ => 64
    pClassDataCDC := fun _ => none
    pUserDataCDC := none }

/-- A freshly initialised channel record: idle, no pending command. -/
def USBD_CDC_HandleTypeDef.idle : USBD_CDC_HandleTypeDef :=
  { data := fun _ => 0
    CmdOpCode := 0xFF
    CmdLength := 0
    RxBuffer := Ptr.null
    TxBuffer := Ptr.null
    RxLength := 0
    TxLength := 0
    TxState := 0
    RxState := 0 }

/-- The 7-byte line-coding payload 9600 baud, one stop bit, no parity, 8 data bits. -/
def payload9600 : Nat → Nat :=
  fun k => [0x80, 0x25, 0x00, 0x00, 0x00, 0x00, 0x08].getD k 0

/-- A 7-byte line-coding payload with a zero rate field, two stop bits, odd parity and 8
data bits. -/
def payloadZeroRate : Nat → Nat :=
  fun k => [0x00, 0x00, 0x00, 0x00, 0x02, 0x01, 0x08].getD k 0

/-- Modelled from the spec: the endpoint address macros `CDCn_IN_EP`, `CDCn_OUT_EP` and
`CDCn_CMD_EP` of usbd_cdc.h are not among the sources. This assignment gives every channel
one bulk-IN, one bulk-OUT and one interrupt-IN (command) address, twelve distinct ids, placed
so that `EP_To_Class` resolves as many of them as it can to their channel: channel k has its
data endpoints at number 2k+1 (IN with the direction bit 0x80) and, for k from 1 to 3, its
command endpoint at number 2k; the command endpoint of channel 0 is at number 8. It also
serves as the sample assignment of the witnesses. -/
def sampleEndpoints : EndpointIds :=
  { CDC0_IN_EP := 0x81, CDC1_IN_EP := 0x83, CDC2_IN_EP := 0x85, CDC3_IN_EP := 0x87
    CDC0_CMD_EP := 0x88, CDC1_CMD_EP := 0x82, CDC2_CMD_EP := 0x84, CDC3_CMD_EP := 0x86
    CDC0_OUT_EP := 0x01, CDC1_OUT_EP := 0x03, CDC2_OUT_EP := 0x05, CDC3_OUT_EP := 0x07 }

/-- A channel record that is idle with a 128-byte run of its ring buffer set for transmit. -/
def sampleHandle (ch : Nat) : USBD_CDC_HandleTypeDef :=
  { USBD_CDC_HandleTypeDef.idle with TxBuffer := Ptr.TX_Buffer ch 0, TxLength := 128 }

/-- A configured device: capability set registered, every channel allocated and idle with a
128-byte run set for transmit, 64-byte packets. -/
def sampleWorld : World :=
  { app := AppState.zero
    pdev :=
      { USBD_HandleTypeDef.zero with
        dev_state := USBD_STATE_CONFIGURED
        pClassDataCDC := fun i => if i < NUMBER_OF_CDC then some (sampleHandle i) else none
        pUserDataCDC := some ItfRef.USBD_Interface_fops_FS }
    trace := [] }

/-- The configured device with channel 1 busy. -/
def sampleWorldBusy : World :=
  sampleWorld.setHandle 1 { sampleHandle 1 with TxState := 1 }

/-- The configured device after channel 1 started a transmit of 128 bytes on endpoint 3. -/
def sampleWorldSent : World :=
  (USBD_CDC_TransmitPacket sampleEndpoints 1 sampleWorld).2

/-- The configured device with channel 1 busy on a 100-byte transfer on endpoint 3. -/
def sampleWorldShort : World :=
  { sampleWorldBusy with pdev := { sampleWorldBusy.pdev with
      ep_in := Function.update sampleWorldBusy.pdev.ep_in 3 { is_used := 1, total_length := 100 } } }

/-! ## Describing one timer tick -/

/-- Whether channel `i` is allocated and Idle. -/
def World.txIdle (w : World) (i : Nat) : Bool :=
  match w.pdev.pClassDataCDC i with
  | some h => decide (h.TxState = 0)
  | none => false

/-- The run the spec describes for a channel with pending data: up to the end of the storage
when the write cursor is behind the read cursor, up to the write cursor otherwise. -/
def specRunLength (r wr : Nat) : Nat :=
  if r > wr then APP_TX_DATA_SIZE - r else wr - r

/-- The transmit the link layer sees from channel `i` in a tick started in `w`: one call for
a channel with pending data that is Idle, none otherwise. -/
def flushEvents (E : EndpointIds) (w : World) (i : Nat) : List Event :=
  if w.app.Read_Index i ≠ w.app.Write_Index i ∧ w.txIdle i = true then
    [Event.USBD_LL_Transmit (CDC_IN_EP E i) (Ptr.TX_Buffer i (w.app.Read_Index i))
      (runLength (w.app.Read_Index i) (w.app.Write_Index i) % 2 ^ 16)]
  else []

/-- The channel record of `i` after a tick started in `w` handled a channel with pending
data: the run is set for transmit and an Idle channel has become Busy. -/
def flushedHandle (w : World) (i : Nat) (h : USBD_CDC_HandleTypeDef) : USBD_CDC_HandleTypeDef :=
  { h with
    TxBuffer := Ptr.TX_Buffer i (w.app.Read_Index i)
    TxLength := runLength (w.app.Read_Index i) (w.app.Write_Index i) % 2 ^ 16
    TxState := if h.TxState = 0 then 1 else h.TxState }

/-- The read cursor of `i` after a tick started in `w`. -/
def flushedRead (w : World) (i : Nat) : Nat :=
  if w.app.Read_Index i ≠ w.app.Write_Index i ∧ w.txIdle i = true then
    advanceRead (w.app.Read_Index i) (runLength (w.app.Read_Index i) (w.app.Write_Index i))
  else w.app.Read_Index i

/-- What one tick leaves of `w` as far as channel `i` and the shared parts are concerned,
given as a relation between the state before and a state after. -/
structure FlushView (E : EndpointIds) (w w1 : World) (done : Nat → Prop) : Prop where
  write : w1.app.Write_Index = w.app.Write_Index
  tx : w1.app.TX_Buffer = w.app.TX_Buffer
  rx : w1.app.RX_Buffer = w.app.RX_Buffer
  coding : w1.app.Line_Coding = w.app.Line_Coding
  uart : w1.app.huart = w.app.huart
  user : w1.pdev.pUserDataCDC = w.pdev.pUserDataCDC
  read_done : ∀ i, done i → w1.app.Read_Index i = flushedRead w i
  read_rest : ∀ i, ¬ done i → w1.app.Read_Index i = w.app.Read_Index i
  class_done : ∀ i, done i → w1.pdev.pClassDataCDC i =
    if w.app.Read_Index i ≠ w.app.Write_Index i then
      (w.pdev.pClassDataCDC i).map (flushedHandle w i)
    else w.pdev.pClassDataCDC i
  class_rest : ∀ i, ¬ done i → w1.pdev.pClassDataCDC i = w.pdev.pClassDataCDC i

/-- The sample device with data pending on three channels: channel 0 has bytes 4..9 pending
and is Idle, channel 1 has wrapped (read cursor 1000, write cursor 10) and is Busy, channel 2
has bytes 5..19 pending and is Idle, channel 3 is empty. -/
def sampleWorldPending : World :=
  { sampleWorldBusy with app := { AppState.zero with
      Read_Index := fun i => [4, 1000, 5, 7].getD i 0
      Write_Index := fun i => [10, 10, 20, 7].getD i 0 } }

/-- The host's `SET_LINE_CODING` request for interface 0 with a 7-byte data stage. -/
def reqSetLineCoding : USBD_SetupReqTypedef :=
  { bmRequest := 0x21, bRequest := 0x20, wValue := 0, wIndex := 0, wLength := 7 }

/-- The host's `GET_LINE_CODING` request for interface 0, 7 bytes device-to-host. -/
def reqGetLineCoding : USBD_SetupReqTypedef :=
  { bmRequest := 0xA1, bRequest := 0x21, wValue := 0, wIndex := 0, wLength := 7 }

/-- The host's `SET_CONTROL_LINE_STATE` request for interface 0; it has no data stage. -/
def reqSetControlLineState : USBD_SetupReqTypedef :=
  { bmRequest := 0x21, bRequest := 0x22, wValue := 3, wIndex := 0, wLength := 0 }

/-- The pending control opcode of channel `i`; the sentinel for an unallocated channel. -/
def World.pendingOp (w : World) (i : Nat) : Nat :=
  match w.pdev.pClassDataCDC i with
  | some h => h.CmdOpCode
  | none => 0xFF

/-- The sample device with a `SET_LINE_CODING` pending on channel 3. -/
def sampleWorldStashed3 : World :=
  sampleWorld.setHandle 3
    { sampleHandle 3 with data := payload9600, CmdOpCode := 0x20, CmdLength := 7 }

/-- The capability call `USBD_CDC_EP0_RxReady` makes for channel `i` of `w`: one `Control`
call for a channel with a pending opcode, none for a channel at the sentinel. -/
def ep0Events (w : World) (i : Nat) : List Event :=
  match w.pdev.pClassDataCDC i with
  | some h =>
    if h.CmdOpCode ≠ 0xFF then [Event.Control i h.CmdOpCode (Ptr.data i) h.CmdLength] else []
  | none => []

/-- The sample device after `SET_LINE_CODING` requests for channels 0 and 2 were recorded and
their 7-byte payloads arrived in the scratch buffers. -/
def sampleWorldStashed : World :=
  (sampleWorld.setHandle 0
      { sampleHandle 0 with data := payload9600, CmdOpCode := 0x20, CmdLength := 7 }).setHandle 2
    { sampleHandle 2 with data := payloadZeroRate, CmdOpCode := 0x20, CmdLength := 7 }

/-- Reception of channel `UART_Handle_TO_CDC_Index huart` is armed for one byte at the write
cursor, and the write cursor lies inside the storage. -/
def ArmedAtWrite (s : AppState) (huart : UartId) : Prop :=
  (s.huart huart).rx =
      some (Ptr.TX_Buffer (UART_Handle_TO_CDC_Index huart)
        (s.Write_Index (UART_Handle_TO_CDC_Index huart)), 1) ∧
    s.Write_Index (UART_Handle_TO_CDC_Index huart) < APP_RX_DATA_SIZE

/-- The configured sample device after `SET_LINE_CODING` (9600 baud) on channel 1: the ring
buffer of channel 1 is empty and reception on `huart2` is armed at its write cursor. -/
def sampleWorldArmed : World :=
  { sampleWorld with
    app := ((CDC_Control_FS 1 CDC_SET_LINE_CODING payload9600 7 AppState.zero).map
      (fun r => r.app)).getD AppState.zero }

/-! ## Further sample inputs and predicates -/

/-- The 7-byte line-coding payload of the spec's end-to-end scenario: rate bytes 0x00, 0xC2,
0x01, 0x00, then one stop bit, no parity, 8 data bits. -/
def payloadScenario : Nat → Nat :=
  fun k => [0x00, 0xC2, 0x01, 0x00, 0x00, 0x00, 0x08].getD k 0

/-- The per-channel application data of channel `j` is the same in `s1` as in `s`: line
coding, both cursors, and the contents of both buffers. -/
def ChannelFrame (s s1 : AppState) (j : Nat) : Prop :=
  s1.Line_Coding j = s.Line_Coding j ∧ s1.Read_Index j = s.Read_Index j ∧
    s1.Write_Index j = s.Write_Index j ∧ s1.TX_Buffer j = s.TX_Buffer j ∧
    s1.RX_Buffer j = s.RX_Buffer j

/-- The cursor invariant: both cursors of every channel lie inside the storage. -/
def CursorInv (s : AppState) : Prop :=
  ∀ i, i < NUMBER_OF_CDC →
    s.Read_Index i < APP_RX_DATA_SIZE ∧ s.Write_Index i < APP_RX_DATA_SIZE

/-- A standard `GET_STATUS` request. -/
def reqGetStatus : USBD_SetupReqTypedef :=
  { bmRequest := 0x81, bRequest := 0x00, wValue := 0, wIndex := 0, wLength := 2 }

/-- A standard `GET_INTERFACE` request. -/
def reqGetInterface : USBD_SetupReqTypedef :=
  { bmRequest := 0x81, bRequest := 0x0A, wValue := 0, wIndex := 0, wLength := 1 }

/-- A standard `SET_INTERFACE` request. -/
def reqSetInterface : USBD_SetupReqTypedef :=
  { bmRequest := 0x01, bRequest := 0x0B, wValue := 0, wIndex := 0, wLength := 0 }

/-- A standard `GET_DESCRIPTOR` request, which the class does not answer. -/
def reqGetDescriptor : USBD_SetupReqTypedef :=
  { bmRequest := 0x81, bRequest := 0x06, wValue := 0x2200, wIndex := 0, wLength := 9 }

/-- A vendor-type request. -/
def reqVendor : USBD_SetupReqTypedef :=
  { bmRequest := 0x41, bRequest := 0x01, wValue := 0, wIndex := 0, wLength := 0 }

/-- A host-to-device class request on interface 0 with a 263-byte data stage. -/
def reqLongPayload : USBD_SetupReqTypedef :=
  { bmRequest := 0x21, bRequest := 0x00, wValue := 0, wIndex := 0, wLength := 263 }

/-- A burst of 1068 bytes (capacity + 44), byte n being n modulo 256. -/
def sampleBurst : List Nat :=
  (List.range 1068).map (fun n => n % 256)

/-- Modelled from the spec: the address of an IN endpoint. The endpoint address macros of
usbd_cdc.h are not among the sources; the spec calls them USB identifiers of one bulk-IN, one
bulk-OUT and one interrupt-IN endpoint per channel. An USB endpoint address is the endpoint
number in its low four bits, nonzero since number 0 is the control endpoint, with bit 7 set
for the IN direction and bits 4 to 6 clear. -/
def isInAddress (a : Nat) : Prop :=
  a / 16 = 8 ∧ a % 16 ≠ 0

/-- Modelled from the spec: the address of an OUT endpoint, a nonzero endpoint number with
bits 4 to 7 clear (see `isInAddress`). -/
def isOutAddress (a : Nat) : Prop :=
  a / 16 = 0 ∧ a % 16 ≠ 0

instance (a : Nat) : Decidable (isInAddress a) := by
  unfold isInAddress; infer_instance

instance (a : Nat) : Decidable (isOutAddress a) := by
  unfold isOutAddress; infer_instance

/-- The twelve configured endpoint ids, channel by channel. -/
def EndpointIds.ids (E : EndpointIds) : List Nat :=
  (List.range NUMBER_OF_CDC).flatMap (fun i => [CDC_IN_EP E i, CDC_OUT_EP E i, CDC_CMD_EP E i])

/-- Modelled from the spec: an assignment of the endpoint address macros as the spec
describes it: per channel a bulk-IN, a bulk-OUT and an interrupt-IN (command) endpoint
address, twelve distinct ids in all. -/
def EndpointIds.WellFormed (E : EndpointIds) : Prop :=
  (∀ i, i < NUMBER_OF_CDC →
    isInAddress (CDC_IN_EP E i) ∧ isOutAddress (CDC_OUT_EP E i) ∧ isInAddress (CDC_CMD_EP E i)) ∧
  E.ids.Nodup

instance (E : EndpointIds) : Decidable E.WellFormed := by
  unfold EndpointIds.WellFormed; infer_instance

/-- A device with the capability set registered and no channel allocated, as
`USBD_CDC_Init` finds it. -/
def sampleWorldUnconfigured : World :=
  { sampleWorld with pdev := { sampleWorld.pdev with pClassDataCDC := fun _ => none } }

/-- An allocator that succeeds for every channel. -/
def allocAll : Nat → Option USBD_CDC_HandleTypeDef :=
  fun i => some (sampleHandle i)

/-- An allocator that fails for channel 1 only. -/
def allocFailing1 : Nat → Option USBD_CDC_HandleTypeDef :=
  fun i => if i = 1 then none else some (sampleHandle i)

/-- The endpoint closes of one iteration of `USBD_CDC_DeInit`. -/
def closeEvents (E : EndpointIds) (i : Nat) : List Event :=
  [Event.USBD_LL_CloseEP (CDC_IN_EP E i), Event.USBD_LL_CloseEP (CDC_OUT_EP E i),
    Event.USBD_LL_CloseEP (CDC_CMD_EP E i)]

/-- The state after the three endpoint closes that open an iteration of `USBD_CDC_DeInit`. -/
def closeChannel (E : EndpointIds) (i : Nat) (w : World) : World :=
  (((((w.emit [Event.USBD_LL_CloseEP (CDC_IN_EP E i)]).setUsedIn (CDC_IN_EP E i &&& 0xF) 0).emit
    [Event.USBD_LL_CloseEP (CDC_OUT_EP E i)]).setUsedOut (CDC_OUT_EP E i &&& 0xF) 0).emit
    [Event.USBD_LL_CloseEP (CDC_CMD_EP E i)]).setUsedIn (CDC_CMD_EP E i &&& 0xF) 0

/-- Channel `i` is torn down: its record is released and null, and the `is_used` flags of its
three endpoints are 0. -/
def TornDown (E : EndpointIds) (w : World) (i : Nat) : Prop :=
  w.pdev.pClassDataCDC i = none ∧
  (w.pdev.ep_in (CDC_IN_EP E i &&& 0xF)).is_used = 0 ∧
  (w.pdev.ep_out (CDC_OUT_EP E i &&& 0xF)).is_used = 0 ∧
  (w.pdev.ep_in (CDC_CMD_EP E i &&& 0xF)).is_used = 0

/-! ## usbd_cdc.c : configuration descriptor -/

/-- The macros of usbd_def.h and usbd_cdc.h that the configuration descriptor refers to
(absent from the sources), taken as parameters; `LOBYTE` and `HIBYTE` are function-like. -/
structure DescriptorMacros where
  USB_DESC_TYPE_CONFIGURATION : Nat
  USB_DESC_TYPE_INTERFACE : Nat
  USB_DESC_TYPE_ENDPOINT : Nat
  USB_CDC_CONFIG_DESC_SIZ : Nat
  CDC_CMD_PACKET_SIZE : Nat
  CDC_DATA_FS_MAX_PACKET_SIZE : Nat
  CDC_FS_BINTERVAL : Nat
  LOBYTE : Nat → Nat
  HIBYTE : Nat → Nat

/-- Source: the initialisers of `USBD_CDC_CfgFSDesc`, in order, one group per descriptor. -/
def USBD_CDC_CfgFSDesc (E : EndpointIds) (M : DescriptorMacros) : List Nat :=
  [
    -- Configuration Descriptor
    0x09, M.USB_DESC_TYPE_CONFIGURATION, M.USB_CDC_CONFIG_DESC_SIZ &&& 0xFF,
    (M.USB_CDC_CONFIG_DESC_SIZ >>> 8) &&& 0xFF, 0x08, 0x01, 0x00, 0xC0, 0x32,
    -- CDC0 block; IAD to associate the two CDC interfaces
    0x08, 0x0B, 0x00, 0x02, 0x02, 0x02, 0x01, 0x00,
    -- Interface Descriptor
    0x09, M.USB_DESC_TYPE_INTERFACE, 0x00, 0x00, 0x01, 0x02, 0x02, 0x01, 0x00,
    -- Header Functional Descriptor
    0x05, 0x24, 0x00, 0x10, 0x01,
    -- Call Management Functional Descriptor
    0x05, 0x24, 0x01, 0x00, 0x01,
    -- ACM Functional Descriptor
    0x04, 0x24, 0x02, 0x02,
    -- Union Functional Descriptor
    0x05, 0x24, 0x06, 0x00, 0x01,
    -- Endpoint 2 Descriptor
    0x07, M.USB_DESC_TYPE_ENDPOINT, E.CDC0_CMD_EP, 0x03, M.LOBYTE M.CDC_CMD_PACKET_SIZE,
    M.HIBYTE M.CDC_CMD_PACKET_SIZE, M.CDC_FS_BINTERVAL,
    -- Data class interface descriptor
    0x09, M.USB_DESC_TYPE_INTERFACE, 0x01, 0x00, 0x02, 0x0A, 0x00, 0x00, 0x00,
    -- Endpoint OUT Descriptor
    0x07, M.USB_DESC_TYPE_ENDPOINT, E.CDC0_OUT_EP, 0x02, M.LOBYTE M.CDC_DATA_FS_MAX_PACKET_SIZE,
    M.HIBYTE M.CDC_DATA_FS_MAX_PACKET_SIZE, 0x00,
    -- Endpoint IN Descriptor
    0x07, M.USB_DESC_TYPE_ENDPOINT, E.CDC0_IN_EP, 0x02, M.LOBYTE M.CDC_DATA_FS_MAX_PACKET_SIZE,
    M.HIBYTE M.CDC_DATA_FS_MAX_PACKET_SIZE, 0x00,
    -- CDC1 block; IAD to associate the two CDC interfaces
    0x08, 0x0B, 0x03, 0x02, 0x02, 0x02, 0x01, 0x00,
    -- Interface Descriptor
    0x09, M.USB_DESC_TYPE_INTERFACE, 0x03, 0x00, 0x01, 0x02, 0x02, 0x01, 0x00,
    -- Header Functional Descriptor
    0x05, 0x24, 0x00, 0x10, 0x01,
    -- Call Management Functional Descriptor
    0x05, 0x24, 0x01, 0x00, 0x04,
    -- ACM Functional Descriptor
    0x04, 0x24, 0x02, 0x02,
    -- Union Functional Descriptor
    0x05, 0x24, 0x06, 0x03, 0x04,
    -- Endpoint 2 Descriptor
    0x07, M.USB_DESC_TYPE_ENDPOINT, E.CDC1_CMD_EP, 0x03, M.LOBYTE M.CDC_CMD_PACKET_SIZE,
    M.HIBYTE M.CDC_CMD_PACKET_SIZE, M.CDC_FS_BINTERVAL,
    -- Data class interface descriptor
    0x09, M.USB_DESC_TYPE_INTERFACE, 0x04, 0x00, 0x02, 0x0A, 0x00, 0x00, 0x00,
    -- Endpoint OUT Descriptor
    0x07, M.USB_DESC_TYPE_ENDPOINT, E.CDC1_OUT_EP, 0x02, M.LOBYTE M.CDC_DATA_FS_MAX_PACKET_SIZE,
    M.HIBYTE M.CDC_DATA_FS_MAX_PACKET_SIZE, 0x00,
    -- Endpoint IN Descriptor
    0x07, M.USB_DESC_TYPE_ENDPOINT, E.CDC1_IN_EP, 0x02, M.LOBYTE M.CDC_DATA_FS_MAX_PACKET_SIZE,
    M.HIBYTE M.CDC_DATA_FS_MAX_PACKET_SIZE, 0x00,
    -- CDC2 block; IAD to associate the two CDC interfaces
    0x08, 0x0B, 0x05, 0x02, 0x02, 0x02, 0x01, 0x00,
    -- Interface Descriptor
    0x09, M.USB_DESC_TYPE_INTERFACE, 0x05, 0x00, 0x01, 0x02, 0x02, 0x01, 0x00,
    -- Header Functional Descriptor
    0x05, 0x24, 0x00, 0x10, 0x01,
    -- Call Management Functional Descriptor
    0x05, 0x24, 0x01, 0x00, 0x06,
    -- ACM Functional Descriptor
    0x04, 0x24, 0x02, 0x02,
    -- Union Functional Descriptor
    0x05, 0x24, 0x06, 0x05, 0x06,
    -- Endpoint 2 Descriptor
    0x07, M.USB_DESC_TYPE_ENDPOINT, E.CDC2_CMD_EP, 0x03, M.LOBYTE M.CDC_CMD_PACKET_SIZE,
    M.HIBYTE M.CDC_CMD_PACKET_SIZE, M.CDC_FS_BINTERVAL,
    -- Data class interface descriptor
    0x09, M.USB_DESC_TYPE_INTERFACE, 0x06, 0x00, 0x02, 0x0A, 0x00, 0x00, 0x00,
    -- Endpoint OUT Descriptor
    0x07, M.USB_DESC_TYPE_ENDPOINT, E.CDC2_OUT_EP, 0x02, M.LOBYTE M.CDC_DATA_FS_MAX_PACKET_SIZE,
    M.HIBYTE M.CDC_DATA_FS_MAX_PACKET_SIZE, 0x00,
    -- Endpoint IN Descriptor
    0x07, M.USB_DESC_TYPE_ENDPOINT, E.CDC2_IN_EP, 0x02, M.LOBYTE M.CDC_DATA_FS_MAX_PACKET_SIZE,
    M.HIBYTE M.CDC_DATA_FS_MAX_PACKET_SIZE, 0x00,
    -- CDC3 block; IAD to associate he two CDC interfaces
    0x08, 0x0B, 0x07, 0x02, 0x02, 0x02, 0x01, 0x00,
    -- Interface Descriptor
    0x09, M.USB_DESC_TYPE_INTERFACE, 0x07, 0x00, 0x01, 0x02, 0x02, 0x01, 0x00,
    -- Header Functional Descriptor
    0x05, 0x24, 0x00, 0x10, 0x01,
    -- Call Management Functional Descriptor
    0x05, 0x24, 0x01, 0x00, 0x08,
    -- ACM Functional Descriptor
    0x04, 0x24, 0x02, 0x02,
    -- Union Functional Descriptor
    0x05, 0x24, 0x06, 0x07, 0x08,
    -- Endpoint 2 Descriptor
    0x07, M.USB_DESC_TYPE_ENDPOINT, E.CDC3_CMD_EP, 0x03, M.LOBYTE M.CDC_CMD_PACKET_SIZE,
    M.HIBYTE M.CDC_CMD_PACKET_SIZE, M.CDC_FS_BINTERVAL,
    -- Data class interface descriptor
    0x09, M.USB_DESC_TYPE_INTERFACE, 0x08, 0x00, 0x02, 0x0A, 0x00, 0x00, 0x00,
    -- Endpoint OUT Descriptor
    0x07, M.USB_DESC_TYPE_ENDPOINT, E.CDC3_OUT_EP, 0x02, M.LOBYTE M.CDC_DATA_FS_MAX_PACKET_SIZE,
    M.HIBYTE M.CDC_DATA_FS_MAX_PACKET_SIZE, 0x00,
    -- Endpoint IN Descriptor
    0x07, M.USB_DESC_TYPE_ENDPOINT, E.CDC3_IN_EP, 0x02, M.LOBYTE M.CDC_DATA_FS_MAX_PACKET_SIZE,
    M.HIBYTE M.CDC_DATA_FS_MAX_PACKET_SIZE, 0x00
  ]

/-- The offset of `bInterfaceNumber` of the communication interface of channel `i`: 9 bytes
of configuration descriptor, 8 bytes of interface association, then the third byte of the
interface descriptor, in blocks of 66 bytes. -/
def commInterfaceOffset (i : Nat) : Nat := 19 + 66 * i

/-- Sample values for the descriptor macros. -/
def sampleMacros : DescriptorMacros :=
  { USB_DESC_TYPE_CONFIGURATION := 2
    USB_DESC_TYPE_INTERFACE := 4
    USB_DESC_TYPE_ENDPOINT := 5
    USB_CDC_CONFIG_DESC_SIZ := 273
    CDC_CMD_PACKET_SIZE := 8
    CDC_DATA_FS_MAX_PACKET_SIZE := 64
    CDC_FS_BINTERVAL := 16
    LOBYTE := fun x => x &&& 0x00FF
    HIBYTE := fun x => (x &&& 0xFF00) >>> 8 }

/-- The host's `SET_LINE_CODING` request for interface 3, the communication interface the
descriptor gives channel 1, with a 7-byte data stage. -/
def reqSetLineCodingItf3 : USBD_SetupReqTypedef :=
  { bmRequest := 0x21, bRequest := 0x20, wValue := 0, wIndex := 3, wLength := 7 }

/-! ## Further sample states -/

/-- Whenever a single-byte reception is armed on `huart`, its destination is the slot of
`TX_Buffer` at the write cursor of the channel of `huart`. -/
def ArmedSlotInv (s : AppState) (huart : UartId) : Prop :=
  ∀ p, (s.huart huart).rx = some (p, 1) →
    p = Ptr.TX_Buffer (UART_Handle_TO_CDC_Index huart)
      (s.Write_Index (UART_Handle_TO_CDC_Index huart))

/-- The application state after `SET_LINE_CODING` (9600 baud) on channel 0 of the zeroed
state and five bytes received on `huart1`: write cursor 5. -/
def sampleAppFive : AppState :=
  UART_RxBytes huart1 [0x31, 0x32, 0x33, 0x34, 0x35]
    (((CDC_Control_FS 0 CDC_SET_LINE_CODING payload9600 7 AppState.zero).map
      (fun r => r.app)).getD AppState.zero)

/-- The state `sampleAppFive` after a second `SET_LINE_CODING` on channel 0. -/
def sampleAppRearmed : AppState :=
  ((CDC_Control_FS 0 CDC_SET_LINE_CODING payload9600 7 sampleAppFive).map
    (fun r => r.app)).getD AppState.zero

/-- The configured sample device with channel 1 Idle and wrapped: read cursor 1000, write
cursor 10. -/
def sampleWorldWrapped : World :=
  { sampleWorld with app := { AppState.zero with
      Read_Index := fun i => [0, 1000, 0, 0].getD i 0
      Write_Index := fun i => [0, 10, 0, 0].getD i 0 } }

/-- A line coding with two stop bits, odd parity and 8 data bits at 9600 baud. -/
def sampleCoding : USBD_CDC_LineCodingTypeDef :=
  { bitrate := 9600, format := 2, paritytype := 1, datatype := 8 }

/-! ## Samples and descriptions for the control and teardown paths -/

/-- The application state after the iteration of `USBD_CDC_EP0_RxReady` for channel `i` of a
device in state `w`, entered with application state `s`: what the `Control` call leaves for
a channel with a pending opcode, `s` itself for a channel at the sentinel. -/
def ep0App (w : World) (i : Nat) (s : AppState) : AppState :=
  match w.pdev.pClassDataCDC i with
  | some h =>
    if h.CmdOpCode ≠ 0xFF then
      ((CDC_Control_FS i h.CmdOpCode h.data h.CmdLength s).map (fun r => r.app)).getD s
    else s
  | none => s

/-- The application state after the iterations for channels 0..n-1, in channel order. -/
def ep0AppUpTo (w : World) (n : Nat) : AppState :=
  (List.range n).foldl (fun s i => ep0App w i s) w.app

/-- The record of channel `i` after its iteration: for a pending opcode the scratch buffer
is as the `Control` call left it and the opcode is the sentinel; a record at the sentinel is
unchanged. -/
def ep0Handle (w : World) (i : Nat) (h : USBD_CDC_HandleTypeDef) : USBD_CDC_HandleTypeDef :=
  if h.CmdOpCode ≠ 0xFF then
    { h with
      data := ((CDC_Control_FS i h.CmdOpCode h.data h.CmdLength (ep0AppUpTo w i)).map
        (fun r => r.pbuf)).getD h.data
      CmdOpCode := 0xFF }
  else h

/-- A class request `SET_LINE_CODING` without data stage addressed to index 3. -/
def reqSetLineCodingNoData3 : USBD_SetupReqTypedef :=
  { bmRequest := 0x21, bRequest := 0x20, wValue := 0, wIndex := 3, wLength := 0 }

/-! # Theorems -/

/-! ## Line coding -/

theorem or_shift_bytes (b0 b1 b2 b3 : Nat) (h0 : b0 < 256) (h1 : b1 < 256) (h2 : b2 < 256) :
    b0 ||| (b1 <<< 8) ||| (b2 <<< 16) ||| (b3 <<< 24)
      = b0 + 256 * b1 + 65536 * b2 + 16777216 * b3 := by
  have e1 : b0 ||| (b1 <<< 8) = b0 + 256 * b1 := by
    rw [Nat.shiftLeft_eq, Nat.or_comm, Nat.mul_comm, show (256 : Nat) = 2 ^ 8 from rfl,
      ← Nat.mul_add_lt_is_or (by simpa using h0)]
    omega
  have e2 : (b0 + 256 * b1) ||| (b2 <<< 16) = b0 + 256 * b1 + 65536 * b2 := by
    rw [Nat.shiftLeft_eq, Nat.or_comm, Nat.mul_comm, show (65536 : Nat) = 2 ^ 16 from rfl,
      ← Nat.mul_add_lt_is_or (by norm_num; omega)]
    omega
  have e3 : (b0 + 256 * b1 + 65536 * b2) ||| (b3 <<< 24)
      = b0 + 256 * b1 + 65536 * b2 + 16777216 * b3 := by
    rw [Nat.shiftLeft_eq, Nat.or_comm, Nat.mul_comm, show (16777216 : Nat) = 2 ^ 24 from rfl,
      ← Nat.mul_add_lt_is_or (by norm_num; omega)]
    omega
  rw [e1, e2, e3]

/-- The rate field the code assembles is the little-endian value of the first four bytes. -/
theorem rateOf_eq (P : Nat → Nat) :
    rateOf P = P 0 % 256 + 256 * (P 1 % 256) + 65536 * (P 2 % 256) + 16777216 * (P 3 % 256) := by
  unfold rateOf rdByte
  rw [or_shift_bytes _ _ _ _ (Nat.mod_lt _ (by decide)) (Nat.mod_lt _ (by decide))
    (Nat.mod_lt _ (by decide))]
  have := Nat.mod_lt (P 0) (show 0 < 256 by decide)
  have := Nat.mod_lt (P 1) (show 0 < 256 by decide)
  have := Nat.mod_lt (P 2) (show 0 < 256 by decide)
  have := Nat.mod_lt (P 3) (show 0 < 256 by decide)
  omega

/-- On a channel with a UART handle `Change_UART_Setting` completes: the stored rate is made
effective, the handle is reconfigured from the stored record and reception is re-armed at
the start of the channel's ring buffer. -/
theorem Change_UART_Setting_bound (i : Nat) (u : UartId) (s : AppState)
    (hu : CDC_Index_To_UART_Handle i = some u) :
    Change_UART_Setting i s = some
      { s with
        Line_Coding := Function.update s.Line_Coding i
          { s.Line_Coding i with bitrate := effectiveRate (s.Line_Coding i).bitrate }
        huart := Function.update s.huart u
          { Init := uartInitOf (s.Line_Coding i)
            applied := some (uartInitOf (s.Line_Coding i))
            rx := some (Ptr.TX_Buffer i 0, 1) } } := by
  simp [Change_UART_Setting, hu, HAL_UART_DeInit, HAL_UART_Init, HAL_UART_Receive_IT]

/-- A channel index without a UART handle: `Change_UART_Setting` has no result. -/
theorem Change_UART_Setting_unbound (i : Nat) (s : AppState)
    (hu : CDC_Index_To_UART_Handle i = none) : Change_UART_Setting i s = none := by
  simp [Change_UART_Setting, hu]

theorem CDC_Index_To_UART_Handle_le_two (i : Nat) (hi : i ≤ 2) :
    ∃ u, CDC_Index_To_UART_Handle i = some u := by
  unfold CDC_Index_To_UART_Handle
  split_ifs <;> first | exact ⟨_, rfl⟩ | omega

/-- What `SET_LINE_CODING` leaves behind on a channel with a UART handle. -/
theorem CDC_Control_FS_set_bound (i : Nat) (u : UartId) (P : Nat → Nat) (n : Nat) (s : AppState)
    (hu : CDC_Index_To_UART_Handle i = some u) :
    ∃ r, CDC_Control_FS i CDC_SET_LINE_CODING P n s = some r ∧ r.ret = USBD_OK ∧ r.pbuf = P ∧
      r.app.Line_Coding i =
        ⟨effectiveRate (rateOf P), rdByte P 4, rdByte P 5, rdByte P 6⟩ ∧
      (r.app.huart u).applied = some (uartInitOf (decodeLineCoding P)) := by
  simp [CDC_Control_FS, Change_UART_Setting_bound _ _ _ hu, decodeLineCoding]

/-- What `GET_LINE_CODING` returns. -/
theorem CDC_Control_FS_get (i : Nat) (buf : Nat → Nat) (n : Nat) (s : AppState) :
    CDC_Control_FS i CDC_GET_LINE_CODING buf n s =
      some { ret := USBD_OK, app := s, pbuf := putLineCoding (s.Line_Coding i) buf } := by
  simp [CDC_Control_FS, CDC_GET_LINE_CODING, CDC_SET_LINE_CODING]

/-- C1 (amended): for every channel index i ≤ 2, the channels that have a UART handle, and
every 7-byte payload P whose little-endian rate field is non-zero, `SET_LINE_CODING` with P
followed immediately by `GET_LINE_CODING` into any buffer completes, both calls return
`USBD_OK`, and bytes 0..6 of the buffer are exactly the seven bytes of P, whatever the
stop-bit, parity and data-bit bytes are; the rest of the buffer is untouched. -/
theorem C1_set_then_get_roundtrip (s : AppState) (i : Nat) (P buf : Nat → Nat)
    (hi : i ≤ 2) (hP : ∀ k, k < 7 → P k < 256)
    (hrate : ¬ (P 0 = 0 ∧ P 1 = 0 ∧ P 2 = 0 ∧ P 3 = 0)) :
    ∃ r1 r2, CDC_Control_FS i CDC_SET_LINE_CODING P 7 s = some r1 ∧
      CDC_Control_FS i CDC_GET_LINE_CODING buf 7 r1.app = some r2 ∧
      r1.ret = USBD_OK ∧ r2.ret = USBD_OK ∧
      (∀ k, k < 7 → r2.pbuf k = P k) ∧ (∀ k, 7 ≤ k → r2.pbuf k = buf k) := by
  obtain ⟨u, hu⟩ := CDC_Index_To_UART_Handle_le_two i hi
  obtain ⟨r1, h1, hret, -, hlc, -⟩ := CDC_Control_FS_set_bound i u P 7 s hu
  refine ⟨r1, _, h1, CDC_Control_FS_get i buf 7 r1.app, hret, rfl, ?_, ?_⟩
  · intro k hk
    have h0 := hP 0 (by omega)
    have h1 := hP 1 (by omega)
    have h2 := hP 2 (by omega)
    have h3 := hP 3 (by omega)
    have h4 := hP 4 (by omega)
    have h5 := hP 5 (by omega)
    have h6 := hP 6 (by omega)
    have hr : rateOf P = P 0 + 256 * P 1 + 65536 * P 2 + 16777216 * P 3 := by
      rw [rateOf_eq]; omega
    have he : effectiveRate (rateOf P) = rateOf P := by
      unfold effectiveRate
      rw [if_neg]
      rw [hr]; omega
    simp only [hlc, he, putLineCoding, rdByte, Nat.shiftRight_eq_div_pow]
    interval_cases k <;> simp <;> omega
  · intro k hk
    simp only [putLineCoding]
    rw [if_neg (by omega), if_neg (by omega), if_neg (by omega), if_neg (by omega),
      if_neg (by omega), if_neg (by omega), if_neg (by omega)]

/-- Witness for C1: channel 0 of the zeroed state with the payload for 9600 baud. -/
theorem C1_set_then_get_roundtrip_witness :
    ∃ r1 r2, CDC_Control_FS 0 CDC_SET_LINE_CODING payload9600 7 AppState.zero = some r1 ∧
      CDC_Control_FS 0 CDC_GET_LINE_CODING (fun _ => 0) 7 r1.app = some r2 ∧
      r1.ret = USBD_OK ∧ r2.ret = USBD_OK ∧
      (∀ k, k < 7 → r2.pbuf k = payload9600 k) ∧ (∀ k, 7 ≤ k → r2.pbuf k = (fun _ => 0) k) :=
  C1_set_then_get_roundtrip AppState.zero 0 payload9600 (fun _ => 0) (by decide)
    (by decide) (by decide)

/-- C1 as stated fails on channel 3: the index is below `NUMBER_OF_CDC`, the payload is a
well-formed 7-byte record with rate 9600, yet `SET_LINE_CODING` has no result there (the
channel has no UART handle), so no `GET_LINE_CODING` follows it. -/
theorem C1_channel3_counterexample :
    3 < NUMBER_OF_CDC ∧ (∀ k, k < 7 → payload9600 k < 256) ∧
      ¬ (payload9600 0 = 0 ∧ payload9600 1 = 0 ∧ payload9600 2 = 0 ∧ payload9600 3 = 0) ∧
      ¬ ∃ r1 r2, CDC_Control_FS 3 CDC_SET_LINE_CODING payload9600 7 AppState.zero = some r1 ∧
        CDC_Control_FS 3 CDC_GET_LINE_CODING (fun _ => 0) 7 r1.app = some r2 ∧
        ∀ k, k < 7 → r2.pbuf k = payload9600 k := by
  refine ⟨by decide, by decide, by decide, ?_⟩
  rintro ⟨r1, r2, h1, -, -⟩
  simp [CDC_Control_FS, Change_UART_Setting, CDC_Index_To_UART_Handle] at h1

/-- C2 (amended): for every channel index i ≤ 2, the channels that have a UART handle, and
every 7-byte payload P whose rate field is zero, `SET_LINE_CODING` stores the default rate
115200 and programs the peripheral with it, and an immediately following `GET_LINE_CODING`
returns the rate bytes 0x00, 0xC2, 0x01, 0x00 followed by bytes 4..6 of P. -/
theorem C2_zero_rate_default (s : AppState) (i : Nat) (P buf : Nat → Nat)
    (hi : i ≤ 2) (hP : ∀ k, k < 7 → P k < 256)
    (hzero : P 0 = 0 ∧ P 1 = 0 ∧ P 2 = 0 ∧ P 3 = 0) :
    ∃ r1 r2 u cfg, CDC_Control_FS i CDC_SET_LINE_CODING P 7 s = some r1 ∧
      (r1.app.Line_Coding i).bitrate = 115200 ∧
      CDC_Index_To_UART_Handle i = some u ∧
      (r1.app.huart u).applied = some cfg ∧ cfg.BaudRate = 115200 ∧
      CDC_Control_FS i CDC_GET_LINE_CODING buf 7 r1.app = some r2 ∧
      r2.pbuf 0 = 0x00 ∧ r2.pbuf 1 = 0xC2 ∧ r2.pbuf 2 = 0x01 ∧ r2.pbuf 3 = 0x00 ∧
      (∀ k, 4 ≤ k → k < 7 → r2.pbuf k = P k) := by
  obtain ⟨u, hu⟩ := CDC_Index_To_UART_Handle_le_two i hi
  obtain ⟨r1, h1, -, -, hlc, happ⟩ := CDC_Control_FS_set_bound i u P 7 s hu
  obtain ⟨z0, z1, z2, z3⟩ := hzero
  have hr : rateOf P = 0 := by rw [rateOf_eq]; omega
  have h4 := hP 4 (by omega)
  have h5 := hP 5 (by omega)
  have h6 := hP 6 (by omega)
  refine ⟨r1, _, u, _, h1, ?_, hu, happ, ?_, CDC_Control_FS_get i buf 7 r1.app, ?_, ?_, ?_, ?_, ?_⟩
  · rw [hlc, hr]; simp [effectiveRate]
  · simp [uartInitOf, decodeLineCoding, hr, effectiveRate]
  · simp only [putLineCoding, hlc, hr, effectiveRate, if_true]
  · simp [putLineCoding, hlc, hr, effectiveRate, Nat.shiftRight_eq_div_pow]
  · simp [putLineCoding, hlc, hr, effectiveRate, Nat.shiftRight_eq_div_pow]
  · simp [putLineCoding, hlc, hr, effectiveRate, Nat.shiftRight_eq_div_pow]
  · intro k hk4 hk7
    simp only [putLineCoding, hlc, rdByte]
    interval_cases k <;> simp <;> omega

/-- Witness for C2: channel 1 of the zeroed state with a zero-rate payload. -/
theorem C2_zero_rate_default_witness :
    ∃ r1 r2 u cfg, CDC_Control_FS 1 CDC_SET_LINE_CODING payloadZeroRate 7 AppState.zero = some r1 ∧
      (r1.app.Line_Coding 1).bitrate = 115200 ∧
      CDC_Index_To_UART_Handle 1 = some u ∧
      (r1.app.huart u).applied = some cfg ∧ cfg.BaudRate = 115200 ∧
      CDC_Control_FS 1 CDC_GET_LINE_CODING (fun _ => 0) 7 r1.app = some r2 ∧
      r2.pbuf 0 = 0x00 ∧ r2.pbuf 1 = 0xC2 ∧ r2.pbuf 2 = 0x01 ∧ r2.pbuf 3 = 0x00 ∧
      (∀ k, 4 ≤ k → k < 7 → r2.pbuf k = payloadZeroRate k) :=
  C2_zero_rate_default AppState.zero 1 payloadZeroRate (fun _ => 0) (by decide)
    (by decide) (by decide)

/-- C2 as stated fails on channel 3: with a well-formed zero-rate payload `SET_LINE_CODING`
has no result there, so nothing is configured and no `GET_LINE_CODING` follows. -/
theorem C2_channel3_counterexample :
    3 < NUMBER_OF_CDC ∧ (∀ k, k < 7 → payloadZeroRate k < 256) ∧
      (payloadZeroRate 0 = 0 ∧ payloadZeroRate 1 = 0 ∧ payloadZeroRate 2 = 0 ∧
        payloadZeroRate 3 = 0) ∧
      CDC_Control_FS 3 CDC_SET_LINE_CODING payloadZeroRate 7 AppState.zero = none := by
  refine ⟨by decide, by decide, by decide, ?_⟩
  simp [CDC_Control_FS, Change_UART_Setting, CDC_Index_To_UART_Handle]

/-! ## Class engine: transmit and transmit completion -/

@[simp] theorem World.setHandle_app (w : World) (i : Nat) (h : USBD_CDC_HandleTypeDef) :
    (w.setHandle i h).app = w.app := rfl

@[simp] theorem World.setHandle_trace (w : World) (i : Nat) (h : USBD_CDC_HandleTypeDef) :
    (w.setHandle i h).trace = w.trace := rfl

@[simp] theorem World.setHandle_same (w : World) (i : Nat) (h : USBD_CDC_HandleTypeDef) :
    (w.setHandle i h).pdev.pClassDataCDC i = some h := by
  simp [World.setHandle]

@[simp] theorem World.setHandle_other (w : World) (i j : Nat) (h : USBD_CDC_HandleTypeDef)
    (hji : j ≠ i) : (w.setHandle i h).pdev.pClassDataCDC j = w.pdev.pClassDataCDC j := by
  simp [World.setHandle, Function.update_noteq hji]

@[simp] theorem World.setHandle_ep_in (w : World) (i : Nat) (h : USBD_CDC_HandleTypeDef) :
    (w.setHandle i h).pdev.ep_in = w.pdev.ep_in := rfl

@[simp] theorem World.setHandle_user (w : World) (i : Nat) (h : USBD_CDC_HandleTypeDef) :
    (w.setHandle i h).pdev.pUserDataCDC = w.pdev.pUserDataCDC := rfl

@[simp] theorem World.setHandle_maxpacket (w : World) (i : Nat) (h : USBD_CDC_HandleTypeDef) :
    (w.setHandle i h).pdev.IN_ep_maxpacket = w.pdev.IN_ep_maxpacket := rfl

@[simp] theorem World.setTotalLength_app (w : World) (e n : Nat) :
    (w.setTotalLength e n).app = w.app := rfl

@[simp] theorem World.setTotalLength_trace (w : World) (e n : Nat) :
    (w.setTotalLength e n).trace = w.trace := rfl

@[simp] theorem World.setTotalLength_class (w : World) (e n : Nat) :
    (w.setTotalLength e n).pdev.pClassDataCDC = w.pdev.pClassDataCDC := rfl

@[simp] theorem World.setTotalLength_user (w : World) (e n : Nat) :
    (w.setTotalLength e n).pdev.pUserDataCDC = w.pdev.pUserDataCDC := rfl

@[simp] theorem World.setTotalLength_maxpacket (w : World) (e n : Nat) :
    (w.setTotalLength e n).pdev.IN_ep_maxpacket = w.pdev.IN_ep_maxpacket := rfl

@[simp] theorem World.setTotalLength_same (w : World) (e n : Nat) :
    (w.setTotalLength e n).pdev.ep_in e = { w.pdev.ep_in e with total_length := n } := by
  simp [World.setTotalLength]

@[simp] theorem World.setTotalLength_other (w : World) (e f n : Nat) (hf : f ≠ e) :
    (w.setTotalLength e n).pdev.ep_in f = w.pdev.ep_in f := by
  simp [World.setTotalLength, Function.update_noteq hf]

@[simp] theorem World.emit_app (w : World) (evs : List Event) : (w.emit evs).app = w.app := rfl

@[simp] theorem World.emit_pdev (w : World) (evs : List Event) : (w.emit evs).pdev = w.pdev := rfl

@[simp] theorem World.emit_trace (w : World) (evs : List Event) :
    (w.emit evs).trace = w.trace ++ evs := rfl

/-- The length `USBD_CDC_SetTxBuffer` stores always fits 16 bits. -/
theorem USBD_CDC_SetTxBuffer_length (i : Nat) (p : Ptr) (n : Nat) (w w1 : World)
    (st : USBD_StatusTypeDef) (h : USBD_CDC_SetTxBuffer i p n w = some (st, w1)) :
    ∃ h1, w1.pdev.pClassDataCDC i = some h1 ∧ h1.TxBuffer = p ∧ h1.TxLength = n % 2 ^ 16 ∧
      h1.TxLength < 2 ^ 16 := by
  unfold USBD_CDC_SetTxBuffer at h
  cases hh : w.pdev.pClassDataCDC i with
  | none => simp [hh] at h
  | some h0 =>
    simp only [hh, Option.some.injEq, Prod.mk.injEq] at h
    obtain ⟨-, rfl⟩ := h
    exact ⟨_, World.setHandle_same _ _ _, rfl, rfl, Nat.mod_lt _ (by decide)⟩

/-- C8: `USBD_CDC_TransmitPacket(i)`. On an allocated channel that is Idle (with the length
as `USBD_CDC_SetTxBuffer` stores it, below 2^16) it returns `USBD_OK`, sets `TxState` to
Busy, records `total_length = TxLength` on the IN endpoint, and starts exactly one transmit
of `TxBuffer` with `TxLength` bytes on `CDC_IN_EP[i]`, touching nothing else. On an
allocated channel that is Busy it returns `USBD_BUSY` and the state, trace included, is
unchanged. On an unallocated channel it returns `USBD_FAIL` with the state unchanged. -/
theorem C8_TransmitPacket (E : EndpointIds) (i : Nat) (w : World) :
    (∀ h, w.pdev.pClassDataCDC i = some h → h.TxState = 0 → h.TxLength < 2 ^ 16 →
      (USBD_CDC_TransmitPacket E i w).1 = USBD_OK ∧
      (USBD_CDC_TransmitPacket E i w).2.pdev.pClassDataCDC i = some { h with TxState := 1 } ∧
      ((USBD_CDC_TransmitPacket E i w).2.pdev.ep_in (CDC_IN_EP E i &&& 0xF)).total_length
        = h.TxLength ∧
      (USBD_CDC_TransmitPacket E i w).2.trace
        = w.trace ++ [Event.USBD_LL_Transmit (CDC_IN_EP E i) h.TxBuffer h.TxLength] ∧
      (USBD_CDC_TransmitPacket E i w).2.app = w.app ∧
      (∀ j, j ≠ i →
        (USBD_CDC_TransmitPacket E i w).2.pdev.pClassDataCDC j = w.pdev.pClassDataCDC j) ∧
      (∀ e, e ≠ CDC_IN_EP E i &&& 0xF →
        (USBD_CDC_TransmitPacket E i w).2.pdev.ep_in e = w.pdev.ep_in e)) ∧
    (∀ h, w.pdev.pClassDataCDC i = some h → h.TxState ≠ 0 →
      USBD_CDC_TransmitPacket E i w = (USBD_BUSY, w)) ∧
    (w.pdev.pClassDataCDC i = none → USBD_CDC_TransmitPacket E i w = (USBD_FAIL, w)) := by
  refine ⟨?_, ?_, ?_⟩
  · intro h hh hs hl
    have hl2 : h.TxLength % 2 ^ 16 = h.TxLength := Nat.mod_eq_of_lt hl
    simp only [USBD_CDC_TransmitPacket, hh, hs, if_true, hl2]
    refine ⟨trivial, ?_, ?_, ?_, rfl, ?_, ?_⟩
    · simp
    · simp
    · simp
    · intro j hj
      simp [hj]
    · intro e he
      simp [he]
  · intro h hh hs
    simp [USBD_CDC_TransmitPacket, hh, hs]
  · intro hh
    simp [USBD_CDC_TransmitPacket, hh]

/-- Witness for C8: on the configured sample device channel 1 accepts a transmit, then is
Busy and refuses the next one; with nothing allocated the call fails. -/
theorem C8_TransmitPacket_witness :
    (USBD_CDC_TransmitPacket sampleEndpoints 1 sampleWorld).1 = USBD_OK ∧
      (USBD_CDC_TransmitPacket sampleEndpoints 1 sampleWorld).2.trace
        = [Event.USBD_LL_Transmit 0x83 (Ptr.TX_Buffer 1 0) 128] ∧
      USBD_CDC_TransmitPacket sampleEndpoints 1 sampleWorldBusy = (USBD_BUSY, sampleWorldBusy) ∧
      USBD_CDC_TransmitPacket sampleEndpoints 1
          { sampleWorld with pdev := USBD_HandleTypeDef.zero }
        = (USBD_FAIL, { sampleWorld with pdev := USBD_HandleTypeDef.zero }) := by
  have h := C8_TransmitPacket sampleEndpoints 1 sampleWorld
  have hb := C8_TransmitPacket sampleEndpoints 1 sampleWorldBusy
  have hf := C8_TransmitPacket sampleEndpoints 1
    { sampleWorld with pdev := USBD_HandleTypeDef.zero }
  obtain ⟨h1, -, -, h4, -⟩ := h.1 (sampleHandle 1) rfl rfl (by decide)
  exact ⟨h1, h4, hb.2.1 { sampleHandle 1 with TxState := 1 } (by simp [sampleWorldBusy])
    (by decide), hf.2.2 rfl⟩

/-- Transmit completion after a transfer whose length is a positive multiple of the packet
size: a zero-length packet goes out and the recorded length is cleared. -/
theorem DataIn_zlp (epnum c : Nat) (w : World) (h : USBD_CDC_HandleTypeDef)
    (hc : EP_To_Class[epnum]? = some c) (hh : w.pdev.pClassDataCDC c = some h)
    (hpos : 0 < (w.pdev.ep_in epnum).total_length) (hm : w.pdev.IN_ep_maxpacket epnum ≠ 0)
    (hdiv : (w.pdev.ep_in epnum).total_length % w.pdev.IN_ep_maxpacket epnum = 0) :
    USBD_CDC_DataIn epnum w =
      some (USBD_OK, (w.setTotalLength epnum 0).emit [Event.USBD_LL_Transmit epnum Ptr.null 0]) := by
  simp only [USBD_CDC_DataIn, hc, hh, hpos, hm, hdiv, if_true, if_false]

/-- Transmit completion in the other case: the channel becomes Idle. -/
theorem DataIn_idle (epnum c : Nat) (w : World) (h : USBD_CDC_HandleTypeDef)
    (hc : EP_To_Class[epnum]? = some c) (hh : w.pdev.pClassDataCDC c = some h)
    (hcase : (w.pdev.ep_in epnum).total_length = 0 ∨
      (w.pdev.IN_ep_maxpacket epnum ≠ 0 ∧
        (w.pdev.ep_in epnum).total_length % w.pdev.IN_ep_maxpacket epnum ≠ 0)) :
    USBD_CDC_DataIn epnum w = some (USBD_OK, w.setHandle c { h with TxState := 0 }) := by
  rcases hcase with h0 | ⟨hm, hdiv⟩
  · simp only [USBD_CDC_DataIn, hc, hh, h0, Nat.lt_irrefl, if_false]
  · by_cases hpos : 0 < (w.pdev.ep_in epnum).total_length
    · simp only [USBD_CDC_DataIn, hc, hh, hpos, hm, hdiv, if_true, if_false]
    · simp only [USBD_CDC_DataIn, hc, hh, hpos, if_false]

/-- C4: `USBD_CDC_DataIn(epnum)`, for an endpoint number the multiplexer resolves to channel
c. On an allocated channel whose endpoint has a positive max packet size m: if the recorded
`total_length` is non-zero and divisible by m, then `total_length` becomes 0, exactly one
zero-length packet is transmitted on `epnum` and every channel record, `TxState` included,
is unchanged; otherwise nothing is transmitted, the endpoint records are unchanged and the
channel's `TxState` becomes 0. Both cases return `USBD_OK` and leave the application state
alone. On an unallocated channel `USBD_FAIL` is returned and nothing changes. -/
theorem C4_DataIn (epnum c : Nat) (w : World) (hc : EP_To_Class[epnum]? = some c) :
    (∀ h, w.pdev.pClassDataCDC c = some h → 0 < w.pdev.IN_ep_maxpacket epnum →
      ((w.pdev.ep_in epnum).total_length ≠ 0 ∧
          (w.pdev.ep_in epnum).total_length % w.pdev.IN_ep_maxpacket epnum = 0 →
        ∃ w1, USBD_CDC_DataIn epnum w = some (USBD_OK, w1) ∧
          (w1.pdev.ep_in epnum).total_length = 0 ∧
          (w1.pdev.ep_in epnum).is_used = (w.pdev.ep_in epnum).is_used ∧
          (∀ e, e ≠ epnum → w1.pdev.ep_in e = w.pdev.ep_in e) ∧
          w1.trace = w.trace ++ [Event.USBD_LL_Transmit epnum Ptr.null 0] ∧
          w1.pdev.pClassDataCDC = w.pdev.pClassDataCDC ∧ w1.app = w.app) ∧
      (¬ ((w.pdev.ep_in epnum).total_length ≠ 0 ∧
          (w.pdev.ep_in epnum).total_length % w.pdev.IN_ep_maxpacket epnum = 0) →
        ∃ w1, USBD_CDC_DataIn epnum w = some (USBD_OK, w1) ∧
          w1.trace = w.trace ∧ w1.pdev.ep_in = w.pdev.ep_in ∧
          w1.pdev.pClassDataCDC c = some { h with TxState := 0 } ∧
          (∀ j, j ≠ c → w1.pdev.pClassDataCDC j = w.pdev.pClassDataCDC j) ∧
          w1.app = w.app)) ∧
    (w.pdev.pClassDataCDC c = none → USBD_CDC_DataIn epnum w = some (USBD_FAIL, w)) := by
  refine ⟨?_, ?_⟩
  · intro h hh hm
    have hm0 : w.pdev.IN_ep_maxpacket epnum ≠ 0 := by omega
    refine ⟨?_, ?_⟩
    · rintro ⟨hpos, hdiv⟩
      have hpos2 : 0 < (w.pdev.ep_in epnum).total_length := by omega
      simp only [USBD_CDC_DataIn, hc, hh, hpos2, hm0, hdiv, if_true, if_false]
      refine ⟨_, rfl, ?_, ?_, ?_, ?_, ?_, ?_⟩
      · simp
      · simp
      · intro e he
        simp [he]
      · simp
      · simp
      · simp
    · intro hn
      by_cases hpos : 0 < (w.pdev.ep_in epnum).total_length
      · have hdiv : ¬ (w.pdev.ep_in epnum).total_length % w.pdev.IN_ep_maxpacket epnum = 0 := by
          intro hd
          exact hn ⟨by omega, hd⟩
        simp only [USBD_CDC_DataIn, hc, hh, hpos, hm0, hdiv, if_true, if_false]
        refine ⟨_, rfl, ?_, ?_, ?_, ?_, ?_⟩
        · simp
        · simp
        · simp
        · intro j hj
          simp [hj]
        · simp
      · simp only [USBD_CDC_DataIn, hc, hh, hpos, if_false]
        refine ⟨_, rfl, ?_, ?_, ?_, ?_, ?_⟩
        · simp
        · simp
        · simp
        · intro j hj
          simp [hj]
        · simp
  · intro hh
    simp [USBD_CDC_DataIn, hc, hh]

/-- Witness for C4 on endpoint 3 (channel 1) of the sample device: after a 128-byte transmit
with 64-byte packets the completion sends a zero-length packet; after a 100-byte transfer it
sets the channel Idle; with nothing allocated it fails. -/
theorem C4_DataIn_witness :
    (∃ w1, USBD_CDC_DataIn 3 sampleWorldSent = some (USBD_OK, w1) ∧
        (w1.pdev.ep_in 3).total_length = 0 ∧
        w1.trace = sampleWorldSent.trace ++ [Event.USBD_LL_Transmit 3 Ptr.null 0] ∧
        w1.pdev.pClassDataCDC = sampleWorldSent.pdev.pClassDataCDC) ∧
      (∃ w1, USBD_CDC_DataIn 3 sampleWorldShort = some (USBD_OK, w1) ∧
        w1.trace = sampleWorldShort.trace ∧
        w1.pdev.pClassDataCDC 1 = some { sampleHandle 1 with TxState := 0 }) ∧
      USBD_CDC_DataIn 3 { sampleWorld with pdev := USBD_HandleTypeDef.zero }
        = some (USBD_FAIL, { sampleWorld with pdev := USBD_HandleTypeDef.zero }) := by
  have hs := C4_DataIn 3 1 sampleWorldSent rfl
  have hh := C4_DataIn 3 1 sampleWorldShort rfl
  have hf := C4_DataIn 3 1 { sampleWorld with pdev := USBD_HandleTypeDef.zero } rfl
  refine ⟨?_, ?_, hf.2 rfl⟩
  · obtain ⟨w1, h1, h2, -, -, h5, h6, -⟩ :=
      (hs.1 { sampleHandle 1 with TxState := 1 } rfl (by decide)).1 (by decide)
    exact ⟨w1, h1, h2, h5, h6⟩
  · obtain ⟨w1, h1, h2, -, h4, -⟩ :=
      (hh.1 { sampleHandle 1 with TxState := 1 } rfl (by decide)).2 (by decide)
    exact ⟨w1, h1, h2, h4⟩

/-- C5: let channel i be allocated and Idle with a transmit length n that is a positive
exact multiple of the max packet size of its IN endpoint number e = `CDC_IN_EP[i] & 0xF`,
and let the multiplexer resolve e to i. Then `USBD_CDC_TransmitPacket` accepts the
transmit and leaves the channel Busy; the first bulk-IN completion on e sends a zero-length
packet on e and the channel is still Busy; the second completion sends nothing and sets the
channel Idle. So `TxState` is Busy in every state between the accept and the second
completion. -/
theorem C5_zlp_before_idle (E : EndpointIds) (i e n : Nat) (w : World)
    (h : USBD_CDC_HandleTypeDef)
    (hh : w.pdev.pClassDataCDC i = some h) (hidle : h.TxState = 0) (hn : h.TxLength = n)
    (he : e = CDC_IN_EP E i &&& 0xF) (hres : EP_To_Class[e]? = some i)
    (hm : 0 < w.pdev.IN_ep_maxpacket e) (hpos : 0 < n)
    (hdiv : n % w.pdev.IN_ep_maxpacket e = 0) :
    ∃ w1 w2 w3 h1 h2 h3,
      USBD_CDC_TransmitPacket E i w = (USBD_OK, w1) ∧
      w1.pdev.pClassDataCDC i = some h1 ∧ h1.TxState = 1 ∧
      USBD_CDC_DataIn e w1 = some (USBD_OK, w2) ∧
      w2.trace = w1.trace ++ [Event.USBD_LL_Transmit e Ptr.null 0] ∧
      w2.pdev.pClassDataCDC i = some h2 ∧ h2.TxState = 1 ∧
      USBD_CDC_DataIn e w2 = some (USBD_OK, w3) ∧
      w3.trace = w2.trace ∧
      w3.pdev.pClassDataCDC i = some h3 ∧ h3.TxState = 0 := by
  subst hn
  have hm0 : w.pdev.IN_ep_maxpacket e ≠ 0 := by omega
  obtain ⟨w1, e1, c1, t1, m1⟩ : ∃ w1, USBD_CDC_TransmitPacket E i w = (USBD_OK, w1) ∧
      w1.pdev.pClassDataCDC i = some { h with TxState := 1 } ∧
      (w1.pdev.ep_in e).total_length = h.TxLength ∧
      w1.pdev.IN_ep_maxpacket e = w.pdev.IN_ep_maxpacket e := by
    refine ⟨(USBD_CDC_TransmitPacket E i w).2, ?_, ?_, ?_, ?_⟩ <;>
      simp [USBD_CDC_TransmitPacket, hh, hidle, he]
  have e2 := DataIn_zlp e i w1 { h with TxState := 1 } hres c1 (by omega) (by omega)
    (by rw [t1, m1]; exact hdiv)
  have c2 : ((w1.setTotalLength e 0).emit [Event.USBD_LL_Transmit e Ptr.null 0]).pdev.pClassDataCDC i
      = some { h with TxState := 1 } := by
    simpa using c1
  have e3 := DataIn_idle e i ((w1.setTotalLength e 0).emit [Event.USBD_LL_Transmit e Ptr.null 0])
    { h with TxState := 1 } hres c2 (Or.inl (by simp))
  exact ⟨w1, _, _, { h with TxState := 1 }, { h with TxState := 1 }, { h with TxState := 0 },
    e1, c1, rfl, e2, by simp, c2, rfl, e3, by simp, by simp, rfl⟩

/-- Witness for C5: channel 1 of the sample device, endpoint number 3, 128 bytes with
64-byte packets. -/
theorem C5_zlp_before_idle_witness :
    ∃ w1 w2 w3 h1 h2 h3,
      USBD_CDC_TransmitPacket sampleEndpoints 1 sampleWorld = (USBD_OK, w1) ∧
      w1.pdev.pClassDataCDC 1 = some h1 ∧ h1.TxState = 1 ∧
      USBD_CDC_DataIn 3 w1 = some (USBD_OK, w2) ∧
      w2.trace = w1.trace ++ [Event.USBD_LL_Transmit 3 Ptr.null 0] ∧
      w2.pdev.pClassDataCDC 1 = some h2 ∧ h2.TxState = 1 ∧
      USBD_CDC_DataIn 3 w2 = some (USBD_OK, w3) ∧
      w3.trace = w2.trace ∧
      w3.pdev.pClassDataCDC 1 = some h3 ∧ h3.TxState = 0 :=
  C5_zlp_before_idle sampleEndpoints 1 3 128 sampleWorld (sampleHandle 1) rfl rfl rfl
    (by decide) (by decide) (by decide) (by decide) (by decide)

/-! ## The timer tick -/

theorem forLoop_succ {σ : Type} (n : Nat) (body : Nat → σ → Option σ) (s : σ) :
    forLoop (n + 1) body s = (forLoop n body s).bind (body n) := rfl

/-- One loop iteration of the tick on channel `i`, for a state in which the channel is
allocated if it has pending data: it completes, touches only the read cursor and the record
of channel `i`, and appends the transmit of `flushEvents`. -/
theorem flushChannel_view (E : EndpointIds) (i : Nat) (w : World)
    (halloc : w.app.Read_Index i ≠ w.app.Write_Index i → (w.pdev.pClassDataCDC i).isSome) :
    ∃ w1, flushChannel E i w = some w1 ∧ FlushView E w w1 (fun j => j = i) ∧
      w1.trace = w.trace ++ flushEvents E w i := by
  by_cases hp : w.app.Read_Index i = w.app.Write_Index i
  · refine ⟨w, by simp [flushChannel, hp], ?_, by simp [flushEvents, hp]⟩
    constructor <;> intros <;> simp_all [flushedRead]
  · obtain ⟨h, hh⟩ := Option.isSome_iff_exists.mp (halloc hp)
    by_cases hs : h.TxState = 0
    · have e : ∃ w1, flushChannel E i w = some w1 ∧ w1 = (flushChannel E i w).getD w :=
        ⟨_, by simp [flushChannel, hp, USBD_CDC_SetTxBuffer, USBD_CDC_TransmitPacket, hh, hs], rfl⟩
      obtain ⟨w1, e1, e2⟩ := e
      simp [flushChannel, hp, USBD_CDC_SetTxBuffer, USBD_CDC_TransmitPacket, hh, hs] at e2
      subst e2
      refine ⟨_, e1, ?_, ?_⟩
      · constructor
        · simp
        · simp
        · simp
        · simp
        · simp
        · simp
        · intro j hj
          subst hj
          simp [flushedRead, hp, World.txIdle, hh, hs]
        · intro j hj
          simp [Function.update_noteq hj]
        · intro j hj
          subst hj
          simp [hp, hh, flushedHandle, hs]
        · intro j hj
          simp [hj]
      · simp [flushEvents, hp, World.txIdle, hh, hs]
    · have e : ∃ w1, flushChannel E i w = some w1 ∧ w1 = (flushChannel E i w).getD w :=
        ⟨_, by simp [flushChannel, hp, USBD_CDC_SetTxBuffer, USBD_CDC_TransmitPacket, hh, hs], rfl⟩
      obtain ⟨w1, e1, e2⟩ := e
      simp [flushChannel, hp, USBD_CDC_SetTxBuffer, USBD_CDC_TransmitPacket, hh, hs] at e2
      subst e2
      refine ⟨_, e1, ?_, ?_⟩
      · constructor
        · simp
        · simp
        · simp
        · simp
        · simp
        · simp
        · intro j hj
          subst hj
          simp [flushedRead, hp, World.txIdle, hh, hs]
        · intro j hj
          simp
        · intro j hj
          subst hj
          simp [hp, hh, flushedHandle, hs]
        · intro j hj
          simp [hj]
      · simp [flushEvents, hp, World.txIdle, hh, hs]

/-- The description of a tick on channel `i` reads only the cursors and the record of `i`. -/
theorem flush_congr (E : EndpointIds) (w w1 : World) (i : Nat)
    (hr : w1.app.Read_Index i = w.app.Read_Index i)
    (hw : w1.app.Write_Index i = w.app.Write_Index i)
    (hc : w1.pdev.pClassDataCDC i = w.pdev.pClassDataCDC i) :
    flushedRead w1 i = flushedRead w i ∧ flushEvents E w1 i = flushEvents E w i ∧
      flushedHandle w1 i = flushedHandle w i := by
  refine ⟨?_, ?_, ?_⟩
  · simp [flushedRead, World.txIdle, hr, hw, hc]
  · simp [flushEvents, World.txIdle, hr, hw, hc]
  · funext h
    simp [flushedHandle, hr, hw]

/-- The first `n` iterations of the tick, for a state in which every channel below `n` with
pending data is allocated: the loop completes, each channel below `n` is left as one
iteration on the initial state leaves it, the others are untouched, and the transmits are
appended in channel order. -/
theorem forLoop_flush_view (E : EndpointIds) (n : Nat) (w : World)
    (halloc : ∀ j, j < n → w.app.Read_Index j ≠ w.app.Write_Index j →
      (w.pdev.pClassDataCDC j).isSome) :
    ∃ w1, forLoop n (flushChannel E) w = some w1 ∧ FlushView E w w1 (fun j => j < n) ∧
      w1.trace = w.trace ++ (List.range n).flatMap (flushEvents E w) := by
  induction n with
  | zero =>
    refine ⟨w, rfl, ?_, by simp⟩
    constructor <;> intros <;> simp_all
  | succ n ih =>
    obtain ⟨w1, h1, v1, t1⟩ := ih (fun j hj => halloc j (by omega))
    have hr : w1.app.Read_Index n = w.app.Read_Index n := v1.read_rest n (by simp)
    have hw : w1.app.Write_Index n = w.app.Write_Index n := by rw [v1.write]
    have hc : w1.pdev.pClassDataCDC n = w.pdev.pClassDataCDC n := v1.class_rest n (by simp)
    obtain ⟨c1, c2, c3⟩ := flush_congr E w w1 n hr hw hc
    obtain ⟨w2, h2, v2, t2⟩ := flushChannel_view E n w1 (by
      rw [hr, hw, hc]
      exact halloc n (by omega))
    refine ⟨w2, by rw [forLoop_succ, h1]; exact h2, ?_, ?_⟩
    · constructor
      · rw [v2.write, v1.write]
      · rw [v2.tx, v1.tx]
      · rw [v2.rx, v1.rx]
      · rw [v2.coding, v1.coding]
      · rw [v2.uart, v1.uart]
      · rw [v2.user, v1.user]
      · intro i hi
        by_cases hin : i = n
        · subst hin
          rw [v2.read_done i rfl, c1]
        · rw [v2.read_rest i hin, v1.read_done i (by omega)]
      · intro i hi
        have hin : i ≠ n := by omega
        rw [v2.read_rest i hin, v1.read_rest i (by omega)]
      · intro i hi
        by_cases hin : i = n
        · subst hin
          rw [v2.class_done i rfl, hr, hw, hc, c3]
        · rw [v2.class_rest i hin, v1.class_done i (by omega)]
      · intro i hi
        have hin : i ≠ n := by omega
        rw [v2.class_rest i hin, v1.class_rest i (by omega)]
    · rw [t2, t1, c2, List.range_succ, List.flatMap_append]
      simp

/-- With both cursors inside the storage the 32-bit run length is the run the spec
describes, it fits the 16-bit length parameter and it is not empty. -/
theorem runLength_spec (r wr : Nat) (hr : r < APP_TX_DATA_SIZE) (hw : wr < APP_TX_DATA_SIZE)
    (hne : r ≠ wr) :
    runLength r wr = specRunLength r wr ∧ runLength r wr % 2 ^ 16 = specRunLength r wr ∧
      1 ≤ specRunLength r wr ∧ r + specRunLength r wr ≤ APP_TX_DATA_SIZE := by
  unfold runLength specRunLength APP_TX_DATA_SIZE at *
  split_ifs <;> omega

/-- C6: a timer tick on a device whose channels with pending data are allocated and whose
cursors lie inside the storage completes, and for every channel i: with
`Read_Index[i] ≠ Write_Index[i]` the one run handed to the class engine (the transmit
buffer and length set in the channel record) starts at `TX_Buffer[i][Read_Index[i]]` and
has length `capacity − Read_Index[i]` when the read cursor is above the write cursor and
`Write_Index[i] − Read_Index[i]` otherwise; with `Read_Index[i] = Write_Index[i]` nothing is
submitted and the channel's cursors, storage and record are unchanged. The link layer sees, in
channel order, exactly one transmit of that run for each Idle channel with pending data,
and nothing else. -/
theorem C6_tick_runs (E : EndpointIds) (w : World)
    (halloc : ∀ j, j < NUMBER_OF_CDC → w.app.Read_Index j ≠ w.app.Write_Index j →
      (w.pdev.pClassDataCDC j).isSome)
    (hinv : ∀ j, j < NUMBER_OF_CDC →
      w.app.Read_Index j < APP_TX_DATA_SIZE ∧ w.app.Write_Index j < APP_TX_DATA_SIZE) :
    ∃ w1, HAL_TIM_PeriodElapsedCallback E w = some w1 ∧
      (∀ i, i < NUMBER_OF_CDC → w.app.Read_Index i ≠ w.app.Write_Index i →
        ∃ h1, w1.pdev.pClassDataCDC i = some h1 ∧
          h1.TxBuffer = Ptr.TX_Buffer i (w.app.Read_Index i) ∧
          h1.TxLength = specRunLength (w.app.Read_Index i) (w.app.Write_Index i)) ∧
      (∀ i, i < NUMBER_OF_CDC → w.app.Read_Index i = w.app.Write_Index i →
        w1.app.Read_Index i = w.app.Read_Index i ∧
        w1.app.Write_Index i = w.app.Write_Index i ∧
        w1.app.TX_Buffer i = w.app.TX_Buffer i ∧
        w1.pdev.pClassDataCDC i = w.pdev.pClassDataCDC i) ∧
      w1.trace = w.trace ++ (List.range NUMBER_OF_CDC).flatMap (fun i =>
        if w.app.Read_Index i ≠ w.app.Write_Index i ∧ w.txIdle i = true then
          [Event.USBD_LL_Transmit (CDC_IN_EP E i) (Ptr.TX_Buffer i (w.app.Read_Index i))
            (specRunLength (w.app.Read_Index i) (w.app.Write_Index i))]
        else []) := by
  obtain ⟨w1, h1, v, t⟩ := forLoop_flush_view E NUMBER_OF_CDC w halloc
  refine ⟨w1, h1, ?_, ?_, ?_⟩
  · intro i hi hp
    obtain ⟨h, hh⟩ := Option.isSome_iff_exists.mp (halloc i hi hp)
    have hc := v.class_done i hi
    rw [if_pos hp, hh] at hc
    refine ⟨_, hc, rfl, ?_⟩
    exact (runLength_spec _ _ (hinv i hi).1 (hinv i hi).2 hp).2.1
  · intro i hi hp
    have hc := v.class_done i hi
    have hr := v.read_done i hi
    rw [if_neg (by simpa using hp)] at hc
    simp only [flushedRead, hp, ne_eq, not_true_eq_false, false_and, if_false] at hr
    exact ⟨hr.trans hp.symm, by rw [v.write], by rw [v.tx], hc⟩
  · rw [t]
    congr 1
    apply List.flatMap_congr
    intro i hi
    have hi4 : i < NUMBER_OF_CDC := List.mem_range.mp hi
    unfold flushEvents
    by_cases hp : w.app.Read_Index i = w.app.Write_Index i
    · simp [hp]
    · rw [(runLength_spec _ _ (hinv i hi4).1 (hinv i hi4).2 hp).2.1]

/-- Witness for C6: the sample device with pending data on channels 0, 1 and 2. -/
theorem C6_tick_runs_witness :
    ∃ w1, HAL_TIM_PeriodElapsedCallback sampleEndpoints sampleWorldPending = some w1 ∧
      (∀ i, i < NUMBER_OF_CDC →
        sampleWorldPending.app.Read_Index i ≠ sampleWorldPending.app.Write_Index i →
        ∃ h1, w1.pdev.pClassDataCDC i = some h1 ∧
          h1.TxBuffer = Ptr.TX_Buffer i (sampleWorldPending.app.Read_Index i) ∧
          h1.TxLength = specRunLength (sampleWorldPending.app.Read_Index i)
            (sampleWorldPending.app.Write_Index i)) ∧
      (∀ i, i < NUMBER_OF_CDC →
        sampleWorldPending.app.Read_Index i = sampleWorldPending.app.Write_Index i →
        w1.app.Read_Index i = sampleWorldPending.app.Read_Index i ∧
        w1.app.Write_Index i = sampleWorldPending.app.Write_Index i ∧
        w1.app.TX_Buffer i = sampleWorldPending.app.TX_Buffer i ∧
        w1.pdev.pClassDataCDC i = sampleWorldPending.pdev.pClassDataCDC i) ∧
      w1.trace = sampleWorldPending.trace ++ (List.range NUMBER_OF_CDC).flatMap (fun i =>
        if sampleWorldPending.app.Read_Index i ≠ sampleWorldPending.app.Write_Index i ∧
            sampleWorldPending.txIdle i = true then
          [Event.USBD_LL_Transmit (CDC_IN_EP sampleEndpoints i)
            (Ptr.TX_Buffer i (sampleWorldPending.app.Read_Index i))
            (specRunLength (sampleWorldPending.app.Read_Index i)
              (sampleWorldPending.app.Write_Index i))]
        else []) :=
  C6_tick_runs sampleEndpoints sampleWorldPending (by decide) (by decide)

/-- A transmit the tick starts for a channel reads from that channel's ring buffer. -/
theorem flushEvents_ptr (E : EndpointIds) (w : World) (j : Nat) (ev : Event)
    (hev : ev ∈ flushEvents E w j) :
    w.app.Read_Index j ≠ w.app.Write_Index j ∧ w.txIdle j = true ∧
      ev = Event.USBD_LL_Transmit (CDC_IN_EP E j) (Ptr.TX_Buffer j (w.app.Read_Index j))
        (runLength (w.app.Read_Index j) (w.app.Write_Index j) % 2 ^ 16) := by
  unfold flushEvents at hev
  split_ifs at hev with hc
  · exact ⟨hc.1, hc.2, by simpa using hev⟩
  · simp at hev

/-- C7: let channel i have pending data and be Busy when the timer tick runs (on a device
whose channels with pending data are allocated). The tick completes, starts no USB transmit
that reads from the ring buffer of i, and leaves `Read_Index[i]`, `Write_Index[i]` and the
ring-buffer contents unchanged; the next tick hands the class engine a run starting at the
same read cursor. For any channel, the read cursor changes in a tick only if the channel
had pending data and `USBD_CDC_TransmitPacket` returns `USBD_OK` for it. -/
theorem C7_busy_retry (E : EndpointIds) (w : World) (i : Nat) (h : USBD_CDC_HandleTypeDef)
    (hi : i < NUMBER_OF_CDC)
    (halloc : ∀ j, j < NUMBER_OF_CDC → w.app.Read_Index j ≠ w.app.Write_Index j →
      (w.pdev.pClassDataCDC j).isSome)
    (hp : w.app.Read_Index i ≠ w.app.Write_Index i)
    (hh : w.pdev.pClassDataCDC i = some h) (hb : h.TxState ≠ 0) :
    ∃ w1 evs, HAL_TIM_PeriodElapsedCallback E w = some w1 ∧
      w1.trace = w.trace ++ evs ∧
      (∀ ev, ev ∈ evs → ∀ ep off n, ev ≠ Event.USBD_LL_Transmit ep (Ptr.TX_Buffer i off) n) ∧
      w1.app.Read_Index i = w.app.Read_Index i ∧
      w1.app.Write_Index i = w.app.Write_Index i ∧
      w1.app.TX_Buffer = w.app.TX_Buffer ∧
      (∃ w2 h2, HAL_TIM_PeriodElapsedCallback E w1 = some w2 ∧
        w2.pdev.pClassDataCDC i = some h2 ∧
        h2.TxBuffer = Ptr.TX_Buffer i (w.app.Read_Index i)) ∧
      (∀ j, j < NUMBER_OF_CDC → w1.app.Read_Index j ≠ w.app.Read_Index j →
        w.app.Read_Index j ≠ w.app.Write_Index j ∧
        (USBD_CDC_TransmitPacket E j w).1 = USBD_OK) := by
  obtain ⟨w1, h1, v, t⟩ := forLoop_flush_view E NUMBER_OF_CDC w halloc
  have hidle : w.txIdle i = false := by simp [World.txIdle, hh, hb]
  have hr : w1.app.Read_Index i = w.app.Read_Index i := by
    rw [v.read_done i hi]
    simp [flushedRead, hidle]
  have hc : w1.pdev.pClassDataCDC i = some (flushedHandle w i h) := by
    rw [v.class_done i hi, if_pos hp, hh]
    rfl
  have halloc1 : ∀ j, j < NUMBER_OF_CDC → w1.app.Read_Index j ≠ w1.app.Write_Index j →
      (w1.pdev.pClassDataCDC j).isSome := by
    intro j hj _
    rw [v.class_done j hj]
    by_cases hpj : w.app.Read_Index j = w.app.Write_Index j
    · rw [if_neg (by simpa using hpj)]
      by_contra hnone
      have hrj := v.read_done j hj
      simp only [flushedRead, hpj, ne_eq, not_true_eq_false, false_and, if_false] at hrj
      have hwj : w1.app.Write_Index j = w.app.Write_Index j := by rw [v.write]
      omega
    · rw [if_pos hpj]
      simpa using halloc j hj hpj
  obtain ⟨w2, h2, v2, -⟩ := forLoop_flush_view E NUMBER_OF_CDC w1 halloc1
  refine ⟨w1, _, h1, t, ?_, hr, by rw [v.write], v.tx, ?_, ?_⟩
  · intro ev hev ep off n hcon
    obtain ⟨j, -, hj⟩ := List.mem_flatMap.mp hev
    obtain ⟨-, hjidle, hjev⟩ := flushEvents_ptr E w j ev hj
    rw [hcon] at hjev
    injection hjev with _ hptr _
    injection hptr with hji _
    subst hji
    rw [hidle] at hjidle
    exact Bool.false_ne_true hjidle
  · have hp1 : w1.app.Read_Index i ≠ w1.app.Write_Index i := by
      rw [hr, v.write]; exact hp
    have hc2 := v2.class_done i hi
    rw [if_pos hp1, hc] at hc2
    exact ⟨w2, _, h2, hc2, by simp [flushedHandle, hr]⟩
  · intro j hj hne
    have hrj := v.read_done j hj
    unfold flushedRead at hrj
    split_ifs at hrj with hcond
    · refine ⟨hcond.1, ?_⟩
      have hidlej := hcond.2
      unfold World.txIdle at hidlej
      cases hcj : w.pdev.pClassDataCDC j with
      | none => simp [hcj] at hidlej
      | some hj0 =>
        simp only [hcj, decide_eq_true_eq] at hidlej
        simp [USBD_CDC_TransmitPacket, hcj, hidlej]
    · exact absurd hrj hne

/-- Witness for C7: channel 1 of the sample device is Busy with wrapped pending data. -/
theorem C7_busy_retry_witness :
    ∃ w1 evs, HAL_TIM_PeriodElapsedCallback sampleEndpoints sampleWorldPending = some w1 ∧
      w1.trace = sampleWorldPending.trace ++ evs ∧
      (∀ ev, ev ∈ evs → ∀ ep off n, ev ≠ Event.USBD_LL_Transmit ep (Ptr.TX_Buffer 1 off) n) ∧
      w1.app.Read_Index 1 = sampleWorldPending.app.Read_Index 1 ∧
      w1.app.Write_Index 1 = sampleWorldPending.app.Write_Index 1 ∧
      w1.app.TX_Buffer = sampleWorldPending.app.TX_Buffer ∧
      (∃ w2 h2, HAL_TIM_PeriodElapsedCallback sampleEndpoints w1 = some w2 ∧
        w2.pdev.pClassDataCDC 1 = some h2 ∧
        h2.TxBuffer = Ptr.TX_Buffer 1 (sampleWorldPending.app.Read_Index 1)) ∧
      (∀ j, j < NUMBER_OF_CDC →
        w1.app.Read_Index j ≠ sampleWorldPending.app.Read_Index j →
        sampleWorldPending.app.Read_Index j ≠ sampleWorldPending.app.Write_Index j ∧
        (USBD_CDC_TransmitPacket sampleEndpoints j sampleWorldPending).1 = USBD_OK) :=
  C7_busy_retry sampleEndpoints sampleWorldPending 1 { sampleHandle 1 with TxState := 1 }
    (by decide) (by decide) (by decide) rfl (by decide)

/-! ## Control requests -/

/-- C9: for every class-type control request on a device with the capability set registered,
`USBD_CDC_Setup` runs the `Control` capability during the call exactly in two cases, and its
outcome is then that of the capability call (no result if that call has none).
(a) No payload, `wLength = 0`: `Control` is called once, on the setup record with length 0;
nothing is sent or armed.
(b) `wLength ≠ 0` and bit 7 of `bmRequest` set (device-to-host), channel allocated:
`Control` is called once on the channel's scratch buffer with length `wLength`, and the
scratch buffer is then sent as the response.
(c) `wLength ≠ 0` and bit 7 clear (host-to-device with payload), channel allocated:
`Control` is not called; the call only records `CmdOpCode = bRequest` and the length (its
low byte, `CmdLength` being 8 bits wide) and arms the data stage for `wLength` bytes; the
application state, so the channel's `Line_Coding` and the peripheral configuration, is
unchanged, and so is everything else in the channel record. -/
theorem C9_setup_dispatch (req : USBD_SetupReqTypedef) (w : World)
    (hclass : req.bmRequest &&& USB_REQ_TYPE_MASK = USB_REQ_TYPE_CLASS)
    (hreg : w.pdev.pUserDataCDC = some ItfRef.USBD_Interface_fops_FS)
    (hbyte : req.bRequest < 256) :
    (req.wLength = 0 →
      (∀ r, CDC_Control_FS (req.wIndex % 256) req.bRequest (reqBytes req) 0 w.app = some r →
        USBD_CDC_Setup req w = some (USBD_OK,
          { w with app := r.app
                   trace := w.trace ++
                     [Event.Control (req.wIndex % 256) req.bRequest Ptr.req 0] })) ∧
      (CDC_Control_FS (req.wIndex % 256) req.bRequest (reqBytes req) 0 w.app = none →
        USBD_CDC_Setup req w = none)) ∧
    (∀ h, req.wLength ≠ 0 → req.bmRequest &&& 0x80 ≠ 0 →
      w.pdev.pClassDataCDC (req.wIndex % 256) = some h →
      (∀ r, CDC_Control_FS (req.wIndex % 256) req.bRequest h.data req.wLength w.app = some r →
        ∃ w1, USBD_CDC_Setup req w = some (USBD_OK, w1) ∧ w1.app = r.app ∧
          w1.trace = w.trace ++
            [Event.Control (req.wIndex % 256) req.bRequest (Ptr.data (req.wIndex % 256))
                req.wLength,
              Event.USBD_CtlSendData (Ptr.data (req.wIndex % 256)) req.wLength] ∧
          w1.pdev.pClassDataCDC (req.wIndex % 256) = some { h with data := r.pbuf }) ∧
      (CDC_Control_FS (req.wIndex % 256) req.bRequest h.data req.wLength w.app = none →
        USBD_CDC_Setup req w = none)) ∧
    (∀ h, req.wLength ≠ 0 → req.bmRequest &&& 0x80 = 0 →
      w.pdev.pClassDataCDC (req.wIndex % 256) = some h →
      ∃ w1, USBD_CDC_Setup req w = some (USBD_OK, w1) ∧ w1.app = w.app ∧
        w1.trace = w.trace ++
          [Event.USBD_CtlPrepareRx (Ptr.data (req.wIndex % 256)) req.wLength] ∧
        (∀ i c p n, Event.Control i c p n ∉ w1.trace ∨ Event.Control i c p n ∈ w.trace) ∧
        w1.pdev.pClassDataCDC (req.wIndex % 256) =
          some { h with CmdOpCode := req.bRequest, CmdLength := req.wLength % 256 } ∧
        (∀ j, j ≠ req.wIndex % 256 → w1.pdev.pClassDataCDC j = w.pdev.pClassDataCDC j)) := by
  refine ⟨?_, ?_, ?_⟩
  · intro h0
    refine ⟨?_, ?_⟩
    · intro r hr
      simp [USBD_CDC_Setup, hclass, setupClass, h0, hreg, ItfRef.Control, hr, World.emit]
    · intro hr
      simp [USBD_CDC_Setup, hclass, setupClass, h0, hreg, ItfRef.Control, hr]
  · intro h hl hd hh
    refine ⟨?_, ?_⟩
    · intro r hr
      simp [USBD_CDC_Setup, hclass, setupClass, hl, hd, hreg, hh, ItfRef.Control, hr]
    · intro hr
      simp [USBD_CDC_Setup, hclass, setupClass, hl, hd, hreg, hh, ItfRef.Control, hr]
  · intro h hl hd hh
    have hb : req.bRequest % 256 = req.bRequest := Nat.mod_eq_of_lt hbyte
    simp only [USBD_CDC_Setup, hclass, setupClass, hl, hd, hh, hb, if_true, if_false, ne_eq,
      not_true_eq_false, not_false_eq_true]
    refine ⟨_, rfl, by simp, by simp, ?_, by simp, ?_⟩
    · intro i c p n
      by_cases hm : Event.Control i c p n ∈ w.trace
      · exact Or.inr hm
      · exact Or.inl (by simp [hm])
    · intro j hj
      simp [hj]

/-- Witness for C9 on the configured sample device: `SET_LINE_CODING` with its 7-byte
payload is only recorded, `GET_LINE_CODING` and `SET_CONTROL_LINE_STATE` are dispatched
during the call. -/
theorem C9_setup_dispatch_witness :
    (∃ w1, USBD_CDC_Setup reqSetLineCoding sampleWorld = some (USBD_OK, w1) ∧
        w1.app = sampleWorld.app ∧
        w1.trace = [Event.USBD_CtlPrepareRx (Ptr.data 0) 7] ∧
        w1.pdev.pClassDataCDC 0 = some { sampleHandle 0 with CmdOpCode := 0x20, CmdLength := 7 }) ∧
      (∃ w1, USBD_CDC_Setup reqGetLineCoding sampleWorld = some (USBD_OK, w1) ∧
        w1.trace = [Event.Control 0 0x21 (Ptr.data 0) 7, Event.USBD_CtlSendData (Ptr.data 0) 7]) ∧
      (∃ w1, USBD_CDC_Setup reqSetControlLineState sampleWorld = some (USBD_OK, w1) ∧
        w1.trace = [Event.Control 0 0x22 Ptr.req 0]) := by
  have hs := C9_setup_dispatch reqSetLineCoding sampleWorld (by decide) rfl (by decide)
  have hg := C9_setup_dispatch reqGetLineCoding sampleWorld (by decide) rfl (by decide)
  have hc := C9_setup_dispatch reqSetControlLineState sampleWorld (by decide) rfl (by decide)
  refine ⟨?_, ?_, ?_⟩
  · obtain ⟨w1, h1, h2, h3, -, h5, -⟩ := hs.2.2 (sampleHandle 0) (by decide) (by decide) rfl
    exact ⟨w1, h1, h2, h3, h5⟩
  · obtain ⟨w1, h1, -, h3, -⟩ :=
      (hg.2.1 (sampleHandle 0) (by decide) (by decide) rfl).1 _ (CDC_Control_FS_get _ _ _ _)
    exact ⟨w1, h1, h3⟩
  · exact ⟨_, (hc.1 rfl).1 ⟨USBD_OK, sampleWorld.app, reqBytes reqSetControlLineState⟩
      (by simp [CDC_Control_FS, reqSetControlLineState, CDC_SET_LINE_CODING, CDC_GET_LINE_CODING]),
      rfl⟩

/-- The capability call has a result unless it is `SET_LINE_CODING` on a channel without a
UART handle. -/
theorem CDC_Control_FS_isSome (i cmd : Nat) (pbuf : Nat → Nat) (n : Nat) (s : AppState)
    (hb : cmd = CDC_SET_LINE_CODING → i ≤ 2) :
    ∃ r, CDC_Control_FS i cmd pbuf n s = some r := by
  by_cases hc : cmd = CDC_SET_LINE_CODING
  · obtain ⟨u, hu⟩ := CDC_Index_To_UART_Handle_le_two i (hb hc)
    obtain ⟨r, hr, -⟩ := CDC_Control_FS_set_bound i u pbuf n s hu
    exact ⟨r, hc ▸ hr⟩
  · unfold CDC_Control_FS
    rw [if_neg hc]
    split_ifs <;> exact ⟨_, rfl⟩

/-- `SET_LINE_CODING` on a channel index above 2 has no result. -/
theorem CDC_Control_FS_set_unbound (i : Nat) (pbuf : Nat → Nat) (n : Nat) (s : AppState)
    (hi : 2 < i) : CDC_Control_FS i CDC_SET_LINE_CODING pbuf n s = none := by
  have hu : CDC_Index_To_UART_Handle i = none := by
    unfold CDC_Index_To_UART_Handle
    rw [if_neg (by omega), if_neg (by omega), if_neg (by omega)]
  simp [CDC_Control_FS, Change_UART_Setting_unbound _ _ hu]

/-- An iteration of `USBD_CDC_EP0_RxReady` on a channel at the sentinel changes nothing. -/
theorem ep0RxReadyChannel_sentinel (i : Nat) (w : World) (h : USBD_CDC_HandleTypeDef)
    (hh : w.pdev.pClassDataCDC i = some h) (hop : h.CmdOpCode = 0xFF) :
    ep0RxReadyChannel i w = some w := by
  unfold ep0RxReadyChannel
  cases w.pdev.pUserDataCDC with
  | none => rfl
  | some f => simp [hh, hop]

/-- With every channel below `n` at the sentinel the first `n` iterations change nothing. -/
theorem forLoop_ep0_sentinel (n : Nat) (w : World)
    (hall : ∀ i, i < n → ∃ h, w.pdev.pClassDataCDC i = some h ∧ h.CmdOpCode = 0xFF) :
    forLoop n ep0RxReadyChannel w = some w := by
  induction n with
  | zero => rfl
  | succ n ih =>
    obtain ⟨h, hh, hop⟩ := hall n (by omega)
    rw [forLoop_succ, ih (fun i hi => hall i (by omega))]
    exact ep0RxReadyChannel_sentinel n w h hh hop

/-! ## Serial receive path -/

/-- One arriving byte with reception armed at the write cursor: the byte lands at the write
cursor, the cursor advances by one modulo the capacity, reception is armed at the new
cursor, and nothing else in the application state changes. -/
theorem UART_RxByte_armed (u : UartId) (b : Nat) (s : AppState) (ha : ArmedAtWrite s u) :
    ArmedAtWrite (UART_RxByte u b s) u ∧
    (UART_RxByte u b s).Write_Index (UART_Handle_TO_CDC_Index u)
      = (s.Write_Index (UART_Handle_TO_CDC_Index u) + 1) % APP_RX_DATA_SIZE ∧
    (UART_RxByte u b s).TX_Buffer (UART_Handle_TO_CDC_Index u)
        (s.Write_Index (UART_Handle_TO_CDC_Index u)) = b % 256 ∧
    (∀ p, p ≠ s.Write_Index (UART_Handle_TO_CDC_Index u) →
      (UART_RxByte u b s).TX_Buffer (UART_Handle_TO_CDC_Index u) p
        = s.TX_Buffer (UART_Handle_TO_CDC_Index u) p) ∧
    (∀ j, j ≠ UART_Handle_TO_CDC_Index u →
      (UART_RxByte u b s).TX_Buffer j = s.TX_Buffer j ∧
      (UART_RxByte u b s).Write_Index j = s.Write_Index j) ∧
    (UART_RxByte u b s).Read_Index = s.Read_Index := by
  obtain ⟨hrx, hw⟩ := ha
  unfold APP_RX_DATA_SIZE at hw
  have e : UART_RxByte u b s = HAL_UART_RxCpltCallback u
      { s with
        TX_Buffer := Function.update s.TX_Buffer (UART_Handle_TO_CDC_Index u)
          (Function.update (s.TX_Buffer (UART_Handle_TO_CDC_Index u))
            (s.Write_Index (UART_Handle_TO_CDC_Index u)) (b % 256))
        huart := Function.update s.huart u { s.huart u with rx := none } } := by
    simp [UART_RxByte, hrx]
  have hmod : (s.Write_Index (UART_Handle_TO_CDC_Index u) + 1) % 2 ^ 32
      = s.Write_Index (UART_Handle_TO_CDC_Index u) + 1 := Nat.mod_eq_of_lt (by omega)
  rw [e]
  refine ⟨⟨?_, ?_⟩, ?_, ?_, ?_, ?_, ?_⟩
  · simp [HAL_UART_RxCpltCallback, HAL_UART_Receive_IT]
  · simp only [HAL_UART_RxCpltCallback, hmod, APP_RX_DATA_SIZE, Function.update_same]
    split_ifs <;> omega
  · simp only [HAL_UART_RxCpltCallback, hmod, APP_RX_DATA_SIZE, Function.update_same]
    split_ifs <;> omega
  · simp [HAL_UART_RxCpltCallback]
  · intro p hp
    simp [HAL_UART_RxCpltCallback, Function.update_noteq hp]
  · intro j hj
    simp [HAL_UART_RxCpltCallback, Function.update_noteq hj]
  · simp [HAL_UART_RxCpltCallback]

theorem UART_RxBytes_cons (u : UartId) (b : Nat) (bs : List Nat) (s : AppState) :
    UART_RxBytes u (b :: bs) s = UART_RxBytes u bs (UART_RxByte u b s) := rfl

/-- A sequence of arriving bytes with reception armed at the write cursor: the cursor
advances by the number of bytes modulo the capacity; if the sequence is no longer than the
capacity, byte k sits k slots after the old write cursor (modulo the capacity); slots not
written keep their content; other channels and all read cursors are untouched. -/
theorem UART_RxBytes_armed (u : UartId) (B : List Nat) (s : AppState) (ha : ArmedAtWrite s u) :
    ArmedAtWrite (UART_RxBytes u B s) u ∧
    (UART_RxBytes u B s).Write_Index (UART_Handle_TO_CDC_Index u)
      = (s.Write_Index (UART_Handle_TO_CDC_Index u) + B.length) % APP_RX_DATA_SIZE ∧
    (B.length ≤ APP_RX_DATA_SIZE → ∀ k, k < B.length →
      (UART_RxBytes u B s).TX_Buffer (UART_Handle_TO_CDC_Index u)
          ((s.Write_Index (UART_Handle_TO_CDC_Index u) + k) % APP_RX_DATA_SIZE)
        = B.getD k 0 % 256) ∧
    (∀ p, (∀ k, k < B.length →
        p ≠ (s.Write_Index (UART_Handle_TO_CDC_Index u) + k) % APP_RX_DATA_SIZE) →
      (UART_RxBytes u B s).TX_Buffer (UART_Handle_TO_CDC_Index u) p
        = s.TX_Buffer (UART_Handle_TO_CDC_Index u) p) ∧
    (∀ j, j ≠ UART_Handle_TO_CDC_Index u →
      (UART_RxBytes u B s).TX_Buffer j = s.TX_Buffer j ∧
      (UART_RxBytes u B s).Write_Index j = s.Write_Index j) ∧
    (UART_RxBytes u B s).Read_Index = s.Read_Index := by
  induction B generalizing s with
  | nil =>
    have hw := ha.2
    unfold APP_RX_DATA_SIZE at hw ⊢
    refine ⟨ha, ?_, ?_, ?_, ?_, ?_⟩
    · show s.Write_Index _ = _
      simp only [List.length_nil, Nat.add_zero]
      omega
    · intro _ k hk
      simp at hk
    · intro p _
      rfl
    · intro j _
      exact ⟨rfl, rfl⟩
    · rfl
  | cons b bs ih =>
    obtain ⟨a1, w1, c1, f1, o1, r1⟩ := UART_RxByte_armed u b s ha
    obtain ⟨a2, w2, c2, f2, o2, r2⟩ := ih (UART_RxByte u b s) a1
    have hw := ha.2
    rw [UART_RxBytes_cons]
    unfold APP_RX_DATA_SIZE at hw w1 w2 c2 f2 ⊢
    refine ⟨a2, ?_, ?_, ?_, ?_, ?_⟩
    · rw [w2, w1, List.length_cons]
      omega
    · intro hlen k hk
      rw [List.length_cons] at hlen hk
      cases k with
      | zero =>
        have hz : (s.Write_Index (UART_Handle_TO_CDC_Index u) + 0) % 1024
            = s.Write_Index (UART_Handle_TO_CDC_Index u) := by omega
        rw [hz, f2 _ (by
          intro k hk2
          rw [w1]
          omega), c1]
        simp
      | succ k =>
        have hz : (s.Write_Index (UART_Handle_TO_CDC_Index u) + (k + 1)) % 1024
            = ((UART_RxByte u b s).Write_Index (UART_Handle_TO_CDC_Index u) + k) % 1024 := by
          rw [w1]; omega
        rw [hz, c2 (by omega) k (by omega)]
        simp
    · intro p hp
      rw [List.length_cons] at hp
      rw [f2 p (by
        intro k hk
        have := hp (k + 1) (by omega)
        rw [w1]
        omega), f1 p (by
        have := hp 0 (by omega)
        omega)]
    · intro j hj
      exact ⟨(o2 j hj).1.trans (o1 j hj).1, (o2 j hj).2.trans (o1 j hj).2⟩
    · rw [r2, r1]

/-! ## From the serial receive path to the USB transmit path -/

theorem flatMap_range_single {β : Type} (n i : Nat) (f : Nat → List β) (hi : i < n)
    (hf : ∀ j, j ≠ i → f j = []) : (List.range n).flatMap f = f i := by
  induction n with
  | zero => omega
  | succ n ih =>
    rw [List.range_succ, List.flatMap_append]
    by_cases hin : i = n
    · subst hin
      have hz : (List.range i).flatMap f = [] := by
        rw [List.flatMap_eq_nil_iff]
        intro j hj
        exact hf j (by have := List.mem_range.mp hj; omega)
      simp [hz]
    · rw [ih (by omega)]
      simp [hf n (fun h => hin h.symm)]

/-- The bytes one tick submits from the ring buffer of channel `i`, read in the buffer
state `s`. -/
theorem flushEvents_bytes (E : EndpointIds) (w : World) (s : AppState) (i : Nat)
    (hr : w.app.Read_Index i < APP_TX_DATA_SIZE) (hw : w.app.Write_Index i < APP_TX_DATA_SIZE)
    (hidle : w.txIdle i = true) :
    ((List.range NUMBER_OF_CDC).flatMap (flushEvents E w)).flatMap (runBytes s i)
      = if i < NUMBER_OF_CDC ∧ w.app.Read_Index i ≠ w.app.Write_Index i then
          (List.range (specRunLength (w.app.Read_Index i) (w.app.Write_Index i))).map
            (fun k => s.TX_Buffer i (w.app.Read_Index i + k))
        else [] := by
  rw [List.flatMap_assoc]
  have hother : ∀ j, j ≠ i → (flushEvents E w j).flatMap (runBytes s i) = [] := by
    intro j hj
    unfold flushEvents
    split_ifs
    · simp [runBytes, hj]
    · rfl
  by_cases hi : i < NUMBER_OF_CDC
  · rw [flatMap_range_single NUMBER_OF_CDC i _ hi hother]
    by_cases hp : w.app.Read_Index i = w.app.Write_Index i
    · simp [flushEvents, hp]
    · have hl : runLength (w.app.Read_Index i) (w.app.Write_Index i) % 65536
          = specRunLength (w.app.Read_Index i) (w.app.Write_Index i) :=
        (runLength_spec _ _ hr hw hp).2.1
      simp [flushEvents, hp, hidle, hi, runBytes, hl]
  · rw [if_neg (fun h => hi h.1), List.flatMap_eq_nil_iff]
    intro j hj
    exact hother j (by have := List.mem_range.mp hj; omega)

/-- The read cursor of an Idle channel after a tick, with both cursors inside the storage:
unchanged when nothing is pending, wrapped to 0 when the write cursor is behind, and at
the write cursor otherwise. -/
theorem flushedRead_idle (w : World) (i : Nat)
    (hr : w.app.Read_Index i < APP_TX_DATA_SIZE) (hw : w.app.Write_Index i < APP_TX_DATA_SIZE)
    (hidle : w.txIdle i = true) :
    flushedRead w i =
      if w.app.Read_Index i > w.app.Write_Index i then 0 else w.app.Write_Index i := by
  unfold flushedRead
  by_cases hp : w.app.Read_Index i = w.app.Write_Index i
  · simp [hp]
  · obtain ⟨e1, -, -, -⟩ := runLength_spec _ _ hr hw hp
    rw [if_pos ⟨hp, hidle⟩, e1]
    unfold advanceRead specRunLength APP_RX_DATA_SIZE APP_TX_DATA_SIZE at *
    split_ifs <;> omega

/-- Every transmit a tick starts is on the IN endpoint of a channel below `NUMBER_OF_CDC` and
reads from the ring buffer of that same channel. -/
theorem flushEvents_own (E : EndpointIds) (w : World) (ev : Event)
    (hev : ev ∈ (List.range NUMBER_OF_CDC).flatMap (flushEvents E w)) :
    ∃ ch off n, ch < NUMBER_OF_CDC ∧
      ev = Event.USBD_LL_Transmit (CDC_IN_EP E ch) (Ptr.TX_Buffer ch off) n := by
  obtain ⟨j, hj, hjev⟩ := List.mem_flatMap.mp hev
  obtain ⟨-, -, e⟩ := flushEvents_ptr E w j ev hjev
  exact ⟨j, _, _, List.mem_range.mp hj, e⟩

theorem split_ranges (B : List Nat) (a b : Nat) (f g : Nat → Nat) (hab : a + b = B.length)
    (hf : ∀ k, k < a → f k = B.getD k 0) (hg : ∀ k, k < b → g k = B.getD (a + k) 0) :
    (List.range a).map f ++ (List.range b).map g = B := by
  apply List.ext_getElem
  · simp [hab]
  · intro m h1 h2
    by_cases hm : m < a
    · rw [List.getElem_append_left (by simpa using hm)]
      simp only [List.getElem_map, List.getElem_range]
      rw [hf m hm, List.getD_eq_getElem _ _ h2]
    · rw [List.getElem_append_right (by simpa using hm)]
      simp only [List.getElem_map, List.getElem_range, List.length_map, List.length_range]
      rw [hg (m - a) (by omega), List.getD_eq_getElem _ _ (by omega)]
      congr 1
      omega

theorem getD_lt_of_forall (B : List Nat) (hb : ∀ b, b ∈ B → b < 256) (k : Nat)
    (hk : k < B.length) : B.getD k 0 % 256 = B.getD k 0 := by
  rw [List.getD_eq_getElem _ _ hk]
  exact Nat.mod_eq_of_lt (hb _ (List.getElem_mem _))

/-- With no channel holding pending data the first `n` iterations of the tick do nothing. -/
theorem forLoop_flush_empty (E : EndpointIds) (n : Nat) (w : World)
    (he : ∀ j, j < n → w.app.Read_Index j = w.app.Write_Index j) :
    forLoop n (flushChannel E) w = some w := by
  induction n with
  | zero => rfl
  | succ n ih =>
    rw [forLoop_succ, ih (fun j hj => he j (by omega))]
    simp [flushChannel, he n (by omega)]

theorem UART_Handle_TO_CDC_Index_lt (u : UartId) :
    UART_Handle_TO_CDC_Index u < NUMBER_OF_CDC := by
  cases u <;> decide

/-- C3 (amended): let `huart` be one of the three UARTs and i its channel. Start from an
empty ring buffer of channel i (`Read_Index[i] = Write_Index[i]`) with reception armed at the
write cursor, on a device with all channels allocated, and let a byte sequence B with
len(B) < capacity (at most 1023 bytes) arrive on the serial-receive path. Then two timer
ticks, each started with channel i Idle (every transmit accepted; between the ticks the
device handle may change in any way that keeps the channels allocated), complete and leave
`Read_Index[i] = Write_Index[i]`; the runs they submit from the ring buffer of channel i,
concatenated in order, are exactly B; every transmit of the two ticks is on the IN endpoint
of the channel whose ring buffer it reads, and the bytes of B are stored in the ring buffer
of channel i only. If the first tick already empties the buffer, its runs alone are B. -/
theorem C3_receive_then_flush (E : EndpointIds) (u : UartId) (B : List Nat) (w0 : World)
    (hlen : B.length < APP_TX_DATA_SIZE) (hbytes : ∀ b, b ∈ B → b < 256)
    (hempty : w0.app.Read_Index (UART_Handle_TO_CDC_Index u)
      = w0.app.Write_Index (UART_Handle_TO_CDC_Index u))
    (harmed : ArmedAtWrite w0.app u)
    (halloc : ∀ j, j < NUMBER_OF_CDC → (w0.pdev.pClassDataCDC j).isSome)
    (hidle : w0.txIdle (UART_Handle_TO_CDC_Index u) = true) :
    ∃ w2 evs1,
      HAL_TIM_PeriodElapsedCallback E { w0 with app := UART_RxBytes u B w0.app } = some w2 ∧
      w2.trace = w0.trace ++ evs1 ∧
      (∀ j, j ≠ UART_Handle_TO_CDC_Index u →
        (UART_RxBytes u B w0.app).TX_Buffer j = w0.app.TX_Buffer j) ∧
      (w2.app.Read_Index (UART_Handle_TO_CDC_Index u)
          = w2.app.Write_Index (UART_Handle_TO_CDC_Index u) →
        evs1.flatMap (runBytes (UART_RxBytes u B w0.app) (UART_Handle_TO_CDC_Index u)) = B) ∧
      ∀ w3, w3.app = w2.app → w3.trace = w2.trace →
        (∀ j, j < NUMBER_OF_CDC → (w3.pdev.pClassDataCDC j).isSome) →
        w3.txIdle (UART_Handle_TO_CDC_Index u) = true →
        ∃ w4 evs2, HAL_TIM_PeriodElapsedCallback E w3 = some w4 ∧
          w4.trace = w3.trace ++ evs2 ∧
          w4.app.TX_Buffer = (UART_RxBytes u B w0.app).TX_Buffer ∧
          w4.app.Read_Index (UART_Handle_TO_CDC_Index u)
            = w4.app.Write_Index (UART_Handle_TO_CDC_Index u) ∧
          (evs1 ++ evs2).flatMap
            (runBytes (UART_RxBytes u B w0.app) (UART_Handle_TO_CDC_Index u)) = B ∧
          (∀ ev, ev ∈ evs1 ++ evs2 → ∃ ch off n, ch < NUMBER_OF_CDC ∧
            ev = Event.USBD_LL_Transmit (CDC_IN_EP E ch) (Ptr.TX_Buffer ch off) n) := by
  obtain ⟨-, hW, hcont, -, hoth, hR⟩ := UART_RxBytes_armed u B w0.app harmed
  have hr0 := harmed.2
  have hi := UART_Handle_TO_CDC_Index_lt u
  generalize hs1 : UART_RxBytes u B w0.app = s1 at *
  generalize hidx : UART_Handle_TO_CDC_Index u = i at *
  unfold APP_TX_DATA_SIZE at hlen
  unfold APP_RX_DATA_SIZE at hW hcont hr0
  have hR1 : s1.Read_Index i = w0.app.Write_Index i := by rw [hR, hempty]
  have hW1lt : s1.Write_Index i < 1024 := by rw [hW]; omega
  have hcont1 : ∀ k, k < B.length →
      s1.TX_Buffer i ((w0.app.Write_Index i + k) % 1024) = B.getD k 0 := by
    intro k hk
    rw [hcont (by omega) k hk, getD_lt_of_forall B hbytes k hk]
  -- first tick
  obtain ⟨w2, t2, v2, tr2⟩ := forLoop_flush_view E NUMBER_OF_CDC { w0 with app := s1 }
    (fun j hj _ => halloc j hj)
  have hidle1 : World.txIdle { w0 with app := s1 } i = true := hidle
  have hb1 := flushEvents_bytes E { w0 with app := s1 } s1 i
    (by show s1.Read_Index i < APP_TX_DATA_SIZE; rw [hR1]; exact hr0)
    (by show s1.Write_Index i < APP_TX_DATA_SIZE; exact hW1lt) hidle1
  have hrd2 : w2.app.Read_Index i
      = if s1.Read_Index i > s1.Write_Index i then 0 else s1.Write_Index i := by
    rw [v2.read_done i hi]
    exact flushedRead_idle { w0 with app := s1 } i
      (by show s1.Read_Index i < APP_TX_DATA_SIZE; rw [hR1]; exact hr0)
      (by show s1.Write_Index i < APP_TX_DATA_SIZE; exact hW1lt) hidle1
  have hwr2 : w2.app.Write_Index i = s1.Write_Index i := by rw [v2.write]
  simp only [hi, true_and] at hb1
  change _ = if s1.Read_Index i ≠ s1.Write_Index i then _ else _ at hb1
  -- the bytes of the first run
  have hfirst : ∀ k, k < (if s1.Read_Index i = s1.Write_Index i then 0
        else specRunLength (s1.Read_Index i) (s1.Write_Index i)) →
      s1.TX_Buffer i (s1.Read_Index i + k) = B.getD k 0 := by
    intro k hk
    have hk2 : k < B.length ∧ (w0.app.Write_Index i + k) % 1024 = s1.Read_Index i + k := by
      unfold specRunLength APP_TX_DATA_SIZE at hk
      simp only [hR1, hW] at hk ⊢
      split_ifs at hk <;> omega
    rw [← hk2.2, hcont1 k hk2.1]
  have hb1' : ((List.range NUMBER_OF_CDC).flatMap (flushEvents E { w0 with app := s1 })).flatMap
      (runBytes s1 i) = (List.range (if s1.Read_Index i = s1.Write_Index i then 0
        else specRunLength (s1.Read_Index i) (s1.Write_Index i))).map
          (fun k => s1.TX_Buffer i (s1.Read_Index i + k)) := by
    rw [hb1]
    by_cases hp : s1.Read_Index i = s1.Write_Index i
    · simp [hp]
    · simp [hp]
  refine ⟨w2, _, t2, tr2, fun j hj => (hoth j hj).1, ?_, ?_⟩
  · intro hdone
    rw [hb1']
    have hall : (if s1.Read_Index i = s1.Write_Index i then 0
        else specRunLength (s1.Read_Index i) (s1.Write_Index i)) = B.length := by
      rw [hrd2, hwr2] at hdone
      unfold specRunLength APP_TX_DATA_SIZE
      simp only [hR1, hW] at hdone ⊢
      split_ifs at hdone ⊢ <;> omega
    have := split_ranges B _ 0 (fun k => s1.TX_Buffer i (s1.Read_Index i + k)) (fun _ => 0)
      (by rw [hall]; rfl) hfirst (fun k hk => absurd hk (by omega))
    simpa using this
  · intro w3 happ3 htr3 halloc3 hidle3
    obtain ⟨w4, t4, v4, tr4⟩ := forLoop_flush_view E NUMBER_OF_CDC w3 (fun j hj _ => halloc3 j hj)
    have hr3 : w3.app.Read_Index i
        = if s1.Read_Index i > s1.Write_Index i then 0 else s1.Write_Index i := by
      rw [happ3, hrd2]
    have hw3 : w3.app.Write_Index i = s1.Write_Index i := by rw [happ3, hwr2]
    have hr3lt : w3.app.Read_Index i < APP_TX_DATA_SIZE := by
      rw [hr3]; unfold APP_TX_DATA_SIZE; split_ifs <;> omega
    have hw3lt : w3.app.Write_Index i < APP_TX_DATA_SIZE := by
      rw [hw3]; exact hW1lt
    have hb3 := flushEvents_bytes E w3 s1 i hr3lt hw3lt hidle3
    simp only [hi, true_and] at hb3
    have hrd4 : w4.app.Read_Index i = w4.app.Write_Index i := by
      rw [v4.read_done i hi, flushedRead_idle w3 i hr3lt hw3lt hidle3, v4.write, hw3, hr3]
      split_ifs <;> omega
    have hb3' : ((List.range NUMBER_OF_CDC).flatMap (flushEvents E w3)).flatMap (runBytes s1 i)
        = (List.range (if w3.app.Read_Index i = w3.app.Write_Index i then 0
          else specRunLength (w3.app.Read_Index i) (w3.app.Write_Index i))).map
            (fun k => s1.TX_Buffer i (w3.app.Read_Index i + k)) := by
      rw [hb3]
      by_cases hp : w3.app.Read_Index i = w3.app.Write_Index i
      · simp [hp]
      · simp [hp]
    refine ⟨w4, _, t4, tr4, by rw [v4.tx, happ3, v2.tx], hrd4, ?_, ?_⟩
    · rw [List.flatMap_append, hb1', hb3']
      apply split_ranges B _ _ _ _ ?_ hfirst ?_
      · unfold specRunLength APP_TX_DATA_SIZE
        simp only [hr3, hw3, hR1, hW]
        split_ifs <;> omega
      · intro k hk
        have hk2 : (if s1.Read_Index i = s1.Write_Index i then 0
              else specRunLength (s1.Read_Index i) (s1.Write_Index i)) + k < B.length ∧
            (w0.app.Write_Index i + ((if s1.Read_Index i = s1.Write_Index i then 0
              else specRunLength (s1.Read_Index i) (s1.Write_Index i)) + k)) % 1024
              = w3.app.Read_Index i + k := by
          unfold specRunLength APP_TX_DATA_SIZE at hk ⊢
          simp only [hr3, hw3, hR1, hW] at hk ⊢
          split_ifs at hk ⊢ <;> omega
        show s1.TX_Buffer i (w3.app.Read_Index i + k) = _
        rw [← hk2.2, hcont1 _ hk2.1]
    · intro ev hev
      rcases List.mem_append.mp hev with h1 | h2
      · exact flushEvents_own E _ ev h1
      · exact flushEvents_own E _ ev h2

/-- Witness for C3: three bytes arriving on `huart2` (channel 1) of the sample device right
after `SET_LINE_CODING` armed reception. -/
theorem C3_receive_then_flush_witness :
    ∃ w2 evs1,
      HAL_TIM_PeriodElapsedCallback sampleEndpoints
        { sampleWorldArmed with app := UART_RxBytes huart2 [0x41, 0x42, 0x43] sampleWorldArmed.app }
        = some w2 ∧
      w2.trace = sampleWorldArmed.trace ++ evs1 ∧
      (∀ j, j ≠ UART_Handle_TO_CDC_Index huart2 →
        (UART_RxBytes huart2 [0x41, 0x42, 0x43] sampleWorldArmed.app).TX_Buffer j
          = sampleWorldArmed.app.TX_Buffer j) ∧
      (w2.app.Read_Index (UART_Handle_TO_CDC_Index huart2)
          = w2.app.Write_Index (UART_Handle_TO_CDC_Index huart2) →
        evs1.flatMap (runBytes (UART_RxBytes huart2 [0x41, 0x42, 0x43] sampleWorldArmed.app)
          (UART_Handle_TO_CDC_Index huart2)) = [0x41, 0x42, 0x43]) ∧
      ∀ w3, w3.app = w2.app → w3.trace = w2.trace →
        (∀ j, j < NUMBER_OF_CDC → (w3.pdev.pClassDataCDC j).isSome) →
        w3.txIdle (UART_Handle_TO_CDC_Index huart2) = true →
        ∃ w4 evs2, HAL_TIM_PeriodElapsedCallback sampleEndpoints w3 = some w4 ∧
          w4.trace = w3.trace ++ evs2 ∧
          w4.app.TX_Buffer
            = (UART_RxBytes huart2 [0x41, 0x42, 0x43] sampleWorldArmed.app).TX_Buffer ∧
          w4.app.Read_Index (UART_Handle_TO_CDC_Index huart2)
            = w4.app.Write_Index (UART_Handle_TO_CDC_Index huart2) ∧
          (evs1 ++ evs2).flatMap
            (runBytes (UART_RxBytes huart2 [0x41, 0x42, 0x43] sampleWorldArmed.app)
              (UART_Handle_TO_CDC_Index huart2)) = [0x41, 0x42, 0x43] ∧
          (∀ ev, ev ∈ evs1 ++ evs2 → ∃ ch off n, ch < NUMBER_OF_CDC ∧
            ev = Event.USBD_LL_Transmit (CDC_IN_EP sampleEndpoints ch) (Ptr.TX_Buffer ch off) n) :=
  C3_receive_then_flush sampleEndpoints huart2 [0x41, 0x42, 0x43] sampleWorldArmed
    (by decide) (by decide) (by decide) ⟨by decide, by decide⟩ (by decide) (by decide)

/-- C3 as stated fails for len(B) = capacity: after 1024 bytes have arrived on `huart2` of
the sample device (empty ring buffer, reception armed at the write cursor, all channels
allocated and Idle) the write cursor is back on the read cursor, so the buffer counts as
empty: the timer tick returns the state it was given, trace included, and this tick and
every later one submit nothing, although B is not empty. -/
theorem C3_full_buffer_counterexample :
    (List.replicate 1024 0x55).length ≤ APP_TX_DATA_SIZE ∧
      (∀ b, b ∈ List.replicate 1024 0x55 → b < 256) ∧
      List.replicate 1024 0x55 ≠ [] ∧
      sampleWorldArmed.app.Read_Index 1 = sampleWorldArmed.app.Write_Index 1 ∧
      ArmedAtWrite sampleWorldArmed.app huart2 ∧
      (∀ j, j < NUMBER_OF_CDC → sampleWorldArmed.txIdle j = true) ∧
      (UART_RxBytes huart2 (List.replicate 1024 0x55) sampleWorldArmed.app).Read_Index 1
        = (UART_RxBytes huart2 (List.replicate 1024 0x55) sampleWorldArmed.app).Write_Index 1 ∧
      HAL_TIM_PeriodElapsedCallback sampleEndpoints
          { sampleWorldArmed with
            app := UART_RxBytes huart2 (List.replicate 1024 0x55) sampleWorldArmed.app }
        = some { sampleWorldArmed with
            app := UART_RxBytes huart2 (List.replicate 1024 0x55) sampleWorldArmed.app } := by
  have harmed : ArmedAtWrite sampleWorldArmed.app huart2 := ⟨by decide, by decide⟩
  have hlen : (List.replicate 1024 0x55).length = 1024 := List.length_replicate _ _
  have hbytes : ∀ b, b ∈ List.replicate 1024 0x55 → b < 256 := by
    intro b hb
    rw [List.eq_of_mem_replicate hb]
    decide
  have hne : List.replicate 1024 0x55 ≠ [] := by
    intro h
    rw [h] at hlen
    exact absurd hlen (by decide)
  generalize List.replicate 1024 0x55 = B at *
  obtain ⟨-, hW, -, -, hoth, hR⟩ := UART_RxBytes_armed huart2 B sampleWorldArmed.app harmed
  have hall : ∀ j, (UART_RxBytes huart2 B sampleWorldArmed.app).Read_Index j
      = (UART_RxBytes huart2 B sampleWorldArmed.app).Write_Index j := by
    intro j
    by_cases hj : j = UART_Handle_TO_CDC_Index huart2
    · subst hj
      rw [hW, hR, hlen]
      rfl
    · rw [(hoth j hj).2, hR]
      rfl
  refine ⟨by rw [hlen]; decide, hbytes, hne, by decide, harmed, by decide, hall 1, ?_⟩
  exact forLoop_flush_empty sampleEndpoints NUMBER_OF_CDC _ (fun j _ => hall j)

/-! ## Commands without effect, the scenario payload, isolation, cursor invariant -/

/-- C19: for every channel, payload and length, a command code other than
`SET_LINE_CODING` and `GET_LINE_CODING` (the seven other named requests and any
unrecognised code) makes `CDC_Control_FS` return `USBD_OK` with the whole application state
(line coding, cursors, buffers, peripheral configuration) and the payload buffer unchanged;
`GET_LINE_CODING` returns `USBD_OK` and leaves the whole application state, `Line_Coding`
included, unchanged. -/
theorem C19_other_commands_noop (i cmd : Nat) (pbuf : Nat → Nat) (n : Nat) (s : AppState) :
    (cmd ≠ CDC_SET_LINE_CODING → cmd ≠ CDC_GET_LINE_CODING →
      CDC_Control_FS i cmd pbuf n s = some { ret := USBD_OK, app := s, pbuf := pbuf }) ∧
    (∃ r, CDC_Control_FS i CDC_GET_LINE_CODING pbuf n s = some r ∧ r.ret = USBD_OK ∧
      r.app = s) := by
  refine ⟨?_, _, CDC_Control_FS_get i pbuf n s, rfl, rfl⟩
  intro h1 h2
  simp [CDC_Control_FS, h1, h2]

/-- Witness for C19: the seven other named requests and the unrecognised code 0x7F, on
channel 3 of the zeroed state. -/
theorem C19_other_commands_noop_witness :
    (∀ cmd, cmd ∈ [CDC_SEND_ENCAPSULATED_COMMAND, CDC_GET_ENCAPSULATED_RESPONSE,
        CDC_SET_COMM_FEATURE, CDC_GET_COMM_FEATURE, CDC_CLEAR_COMM_FEATURE,
        CDC_SET_CONTROL_LINE_STATE, CDC_SEND_BREAK, 0x7F] →
      CDC_Control_FS 3 cmd payload9600 7 AppState.zero
        = some { ret := USBD_OK, app := AppState.zero, pbuf := payload9600 }) ∧
    (∃ r, CDC_Control_FS 3 CDC_GET_LINE_CODING payload9600 7 AppState.zero = some r ∧
      r.ret = USBD_OK ∧ r.app = AppState.zero) := by
  refine ⟨?_, (C19_other_commands_noop 3 0 payload9600 7 AppState.zero).2⟩
  intro cmd hc
  have hne : cmd ≠ CDC_SET_LINE_CODING ∧ cmd ≠ CDC_GET_LINE_CODING := by
    simp only [List.mem_cons, List.mem_singleton, List.not_mem_nil, or_false] at hc
    rcases hc with h | h | h | h | h | h | h | h <;> subst h <;> decide
  exact (C19_other_commands_noop 3 cmd payload9600 7 AppState.zero).1 hne.1 hne.2

/-- The rate field of the scenario payload is 115200. -/
theorem rateOf_payloadScenario : rateOf payloadScenario = 115200 := by
  rw [rateOf_eq]
  simp [payloadScenario]

/-- C17 (amended): `SET_LINE_CODING` on channel 0 with the payload 0x00, 0xC2, 0x01, 0x00,
0x00, 0x00, 0x08 yields, from every state, the line-coding model 115200 baud, one stop bit,
no parity, 8 data bits: `Line_Coding[0]` has bitrate 115200, format 0, paritytype 0,
datatype 8, and the peripheral of channel 0 is configured with baud rate 115200, one stop
bit, no parity and 8-bit words. -/
theorem C17_scenario_payload (s : AppState) :
    ∃ r cfg, CDC_Control_FS 0 CDC_SET_LINE_CODING payloadScenario 7 s = some r ∧
      r.ret = USBD_OK ∧
      r.app.Line_Coding 0 = { bitrate := 115200, format := 0, paritytype := 0, datatype := 8 } ∧
      (r.app.huart huart1).applied = some cfg ∧ cfg.BaudRate = 115200 ∧
      cfg.StopBits = UART_STOPBITS_1 ∧ cfg.Parity = UART_PARITY_NONE ∧
      cfg.WordLength = UART_WORDLENGTH_8B := by
  obtain ⟨r, hr, hret, -, hlc, happ⟩ :=
    CDC_Control_FS_set_bound 0 huart1 payloadScenario 7 s rfl
  refine ⟨r, _, hr, hret, ?_, happ, ?_, ?_, ?_, ?_⟩
  · rw [hlc, rateOf_payloadScenario]
    simp [effectiveRate, rdByte, payloadScenario]
  · simp [uartInitOf, decodeLineCoding, rateOf_payloadScenario, effectiveRate]
  · simp [uartInitOf, decodeLineCoding, rdByte, payloadScenario, stopBitsOf]
  · simp [uartInitOf, decodeLineCoding, rdByte, payloadScenario, parityOf]
  · simp [uartInitOf, decodeLineCoding, rdByte, payloadScenario, parityOf, wordLengthOf]

/-- C17 as stated fails: with the scenario payload on channel 0 of the zeroed state the
stored rate and the configured baud rate are 115200, not 9600 (the rate bytes 0x00, 0xC2,
0x01, 0x00 are the little-endian value 0x0001C200). -/
theorem C17_rate_counterexample :
    ∃ r cfg, CDC_Control_FS 0 CDC_SET_LINE_CODING payloadScenario 7 AppState.zero = some r ∧
      (r.app.Line_Coding 0).bitrate = 115200 ∧ (r.app.Line_Coding 0).bitrate ≠ 9600 ∧
      (r.app.huart huart1).applied = some cfg ∧ cfg.BaudRate ≠ 9600 := by
  obtain ⟨r, hr, -, -, hlc, happ⟩ :=
    CDC_Control_FS_set_bound 0 huart1 payloadScenario 7 AppState.zero rfl
  have hb : (r.app.Line_Coding 0).bitrate = 115200 := by
    rw [hlc, rateOf_payloadScenario]
    simp [effectiveRate]
  refine ⟨r, _, hr, hb, by rw [hb]; decide, happ, ?_⟩
  simp [uartInitOf, decodeLineCoding, rateOf_payloadScenario, effectiveRate]

/-- `SET_LINE_CODING` has a result only on a channel with a UART handle. -/
theorem CDC_Control_FS_set_some (i : Nat) (P : Nat → Nat) (n : Nat) (s : AppState)
    (r : ControlResult) (h : CDC_Control_FS i CDC_SET_LINE_CODING P n s = some r) :
    ∃ u, CDC_Index_To_UART_Handle i = some u := by
  cases hu : CDC_Index_To_UART_Handle i with
  | some u => exact ⟨u, rfl⟩
  | none => simp [CDC_Control_FS, Change_UART_Setting_unbound _ _ hu] at h

/-- `SET_LINE_CODING` on channel `i` leaves the data of every other channel alone. -/
theorem CDC_Control_FS_set_frame (i j : Nat) (hij : i ≠ j) (P : Nat → Nat) (n : Nat)
    (s : AppState) (r : ControlResult)
    (h : CDC_Control_FS i CDC_SET_LINE_CODING P n s = some r) : ChannelFrame s r.app j := by
  obtain ⟨u, hu⟩ := CDC_Control_FS_set_some i P n s r h
  simp only [CDC_Control_FS, Change_UART_Setting_bound _ _ _ hu, if_true,
    Option.some.injEq] at h
  subst h
  refine ⟨?_, rfl, rfl, rfl, rfl⟩
  simp [Function.update_noteq (Ne.symm hij)]

/-- A serial-receive completion touches only the write cursor of its own channel and the
armed reception of its own UART. -/
theorem HAL_UART_RxCpltCallback_frame (u : UartId) (s : AppState) :
    (HAL_UART_RxCpltCallback u s).Read_Index = s.Read_Index ∧
    (HAL_UART_RxCpltCallback u s).TX_Buffer = s.TX_Buffer ∧
    (HAL_UART_RxCpltCallback u s).RX_Buffer = s.RX_Buffer ∧
    (HAL_UART_RxCpltCallback u s).Line_Coding = s.Line_Coding ∧
    (∀ j, j ≠ UART_Handle_TO_CDC_Index u →
      (HAL_UART_RxCpltCallback u s).Write_Index j = s.Write_Index j) := by
  refine ⟨rfl, rfl, rfl, rfl, ?_⟩
  intro j hj
  simp [HAL_UART_RxCpltCallback, Function.update_noteq hj]

/-- An iteration of the tick that completes found its channel allocated if data was
pending. -/
theorem flushChannel_some_alloc (E : EndpointIds) (i : Nat) (w w1 : World)
    (h : flushChannel E i w = some w1)
    (hp : w.app.Read_Index i ≠ w.app.Write_Index i) : (w.pdev.pClassDataCDC i).isSome := by
  cases hc : w.pdev.pClassDataCDC i with
  | some _ => rfl
  | none => simp [flushChannel, hp, USBD_CDC_SetTxBuffer, hc] at h

/-- C15: channel isolation. For all channel indices i ≠ j, each of the following leaves
`Line_Coding[j]`, `Read_Index[j]`, `Write_Index[j]` and the contents of `TX_Buffer[j]` and
`RX_Buffer[j]` unchanged: a `SET_LINE_CODING` on channel i, a `GET_LINE_CODING` on channel
i, a serial-receive completion for the UART of channel i, and the timer tick's iteration
for channel i. The receive completion and `GET_LINE_CODING` always have a result,
`SET_LINE_CODING` has one on the channels with a UART handle (i ≤ 2), and the tick's
iteration has one when channel i is allocated or has nothing pending. -/
theorem C15_channel_isolation (E : EndpointIds) (i j : Nat) (hij : i ≠ j) :
    (∀ s P n r, CDC_Control_FS i CDC_SET_LINE_CODING P n s = some r → ChannelFrame s r.app j) ∧
    (∀ s P n, i ≤ 2 → ∃ r, CDC_Control_FS i CDC_SET_LINE_CODING P n s = some r) ∧
    (∀ s P n, ∃ r, CDC_Control_FS i CDC_GET_LINE_CODING P n s = some r ∧
      ChannelFrame s r.app j) ∧
    (∀ s u, UART_Handle_TO_CDC_Index u = i →
      ChannelFrame s (HAL_UART_RxCpltCallback u s) j) ∧
    (∀ w w1, flushChannel E i w = some w1 → ChannelFrame w.app w1.app j) ∧
    (∀ w, (w.app.Read_Index i ≠ w.app.Write_Index i → (w.pdev.pClassDataCDC i).isSome) →
      ∃ w1, flushChannel E i w = some w1) := by
  refine ⟨?_, ?_, ?_, ?_, ?_, ?_⟩
  · intro s P n r h
    exact CDC_Control_FS_set_frame i j hij P n s r h
  · intro s P n hi
    exact CDC_Control_FS_isSome i _ P n s (fun _ => hi)
  · intro s P n
    exact ⟨_, CDC_Control_FS_get i P n s, rfl, rfl, rfl, rfl, rfl⟩
  · intro s u hu
    obtain ⟨h1, h2, h3, h4, h5⟩ := HAL_UART_RxCpltCallback_frame u s
    exact ⟨by rw [h4], by rw [h1], h5 j (by rw [hu]; exact Ne.symm hij), by rw [h2],
      by rw [h3]⟩
  · intro w w1 h
    obtain ⟨w2, h2, v, -⟩ := flushChannel_view E i w (flushChannel_some_alloc E i w w1 h)
    rw [h] at h2
    obtain rfl := Option.some.inj h2
    exact ⟨by rw [v.coding], v.read_rest j (Ne.symm hij), by rw [v.write], by rw [v.tx],
      by rw [v.rx]⟩
  · intro w ha
    obtain ⟨w1, h1, -, -⟩ := flushChannel_view E i w ha
    exact ⟨w1, h1⟩

/-- Witness for C15: channel 1 acts, channel 2 is observed, on the zeroed state and on the
sample device with pending data. -/
theorem C15_channel_isolation_witness :
    (∃ r, CDC_Control_FS 1 CDC_SET_LINE_CODING payload9600 7 AppState.zero = some r ∧
      ChannelFrame AppState.zero r.app 2) ∧
    (∃ r, CDC_Control_FS 1 CDC_GET_LINE_CODING payload9600 7 AppState.zero = some r ∧
      ChannelFrame AppState.zero r.app 2) ∧
    ChannelFrame AppState.zero (HAL_UART_RxCpltCallback huart2 AppState.zero) 2 ∧
    (∃ w1, flushChannel sampleEndpoints 1 sampleWorldPending = some w1 ∧
      ChannelFrame sampleWorldPending.app w1.app 2) := by
  obtain ⟨h1, h2, h3, h4, h5, h6⟩ := C15_channel_isolation sampleEndpoints 1 2 (by decide)
  obtain ⟨r, hr⟩ := h2 AppState.zero payload9600 7 (by decide)
  obtain ⟨w1, hw1⟩ := h6 sampleWorldPending (fun _ => by decide)
  exact ⟨⟨r, hr, h1 _ _ _ _ hr⟩, h3 _ _ _, h4 _ huart2 rfl, ⟨w1, hw1, h5 _ _ hw1⟩⟩

theorem forLoop_succ_some {σ : Type} (n : Nat) (body : Nat → σ → Option σ) (s s2 : σ)
    (h : forLoop (n + 1) body s = some s2) :
    ∃ s1, forLoop n body s = some s1 ∧ body n s1 = some s2 := by
  rw [forLoop_succ] at h
  cases h1 : forLoop n body s with
  | none => simp [h1] at h
  | some s1 => exact ⟨s1, rfl, by simpa [h1] using h⟩

/-- A tick prefix that completes found every channel with pending data allocated. -/
theorem forLoop_flush_some_alloc (E : EndpointIds) (n : Nat) (w w1 : World)
    (h : forLoop n (flushChannel E) w = some w1) :
    ∀ j, j < n → w.app.Read_Index j ≠ w.app.Write_Index j →
      (w.pdev.pClassDataCDC j).isSome := by
  induction n generalizing w1 with
  | zero => intro j hj; omega
  | succ n ih =>
    obtain ⟨w0, h0, hb⟩ := forLoop_succ_some n _ w w1 h
    have ha := ih w0 h0
    obtain ⟨w0', h0', v, -⟩ := forLoop_flush_view E n w ha
    rw [h0] at h0'
    obtain rfl := Option.some.inj h0'
    intro j hj hp
    by_cases hjn : j = n
    · subst hjn
      have := flushChannel_some_alloc E j w0 w1 hb (by
        rw [v.read_rest j (by simp), v.write]; exact hp)
      rwa [v.class_rest j (by simp)] at this
    · exact ha j (by omega) hp

/-- The read cursor a tick leaves stays inside the storage. -/
theorem flushedRead_lt (w : World) (i : Nat)
    (hr : w.app.Read_Index i < APP_RX_DATA_SIZE) (hw : w.app.Write_Index i < APP_RX_DATA_SIZE) :
    flushedRead w i < APP_RX_DATA_SIZE := by
  unfold flushedRead
  split_ifs with hc
  · obtain ⟨e1, -, -, -⟩ := runLength_spec _ _ hr hw hc.1
    rw [e1]
    unfold advanceRead specRunLength APP_RX_DATA_SIZE APP_TX_DATA_SIZE at *
    split_ifs <;> omega
  · exact hr

/-- C20: the cursor invariant "for every channel i, `Read_Index[i] < 1024` and
`Write_Index[i] < 1024`" holds in the zero-initialised start state; it is preserved by
`HAL_UART_RxCpltCallback`, which under the invariant advances the write cursor of its
channel by exactly 1 modulo 1024 and leaves every read cursor and every other write cursor
unchanged; and it is preserved by `HAL_TIM_PeriodElapsedCallback` whatever the transmit
states of the channels are, that is whether or not each transmit is accepted. The tick has a
result whenever the channels with pending data are allocated. -/
theorem C20_cursor_invariant (E : EndpointIds) :
    CursorInv AppState.zero ∧
    (∀ s u, CursorInv s →
      CursorInv (HAL_UART_RxCpltCallback u s) ∧
      (HAL_UART_RxCpltCallback u s).Write_Index (UART_Handle_TO_CDC_Index u)
        = (s.Write_Index (UART_Handle_TO_CDC_Index u) + 1) % 1024 ∧
      (HAL_UART_RxCpltCallback u s).Read_Index = s.Read_Index ∧
      (∀ j, j ≠ UART_Handle_TO_CDC_Index u →
        (HAL_UART_RxCpltCallback u s).Write_Index j = s.Write_Index j)) ∧
    (∀ w w1, CursorInv w.app → HAL_TIM_PeriodElapsedCallback E w = some w1 →
      CursorInv w1.app) ∧
    (∀ w, (∀ j, j < NUMBER_OF_CDC → w.app.Read_Index j ≠ w.app.Write_Index j →
        (w.pdev.pClassDataCDC j).isSome) →
      ∃ w1, HAL_TIM_PeriodElapsedCallback E w = some w1) := by
  refine ⟨?_, ?_, ?_, ?_⟩
  · intro i _
    exact ⟨show (0 : Nat) < 1024 by decide, show (0 : Nat) < 1024 by decide⟩
  · intro s u hinv
    obtain ⟨h1, -, -, -, h5⟩ := HAL_UART_RxCpltCallback_frame u s
    have hw := (hinv _ (UART_Handle_TO_CDC_Index_lt u)).2
    have hstep : (HAL_UART_RxCpltCallback u s).Write_Index (UART_Handle_TO_CDC_Index u)
        = (s.Write_Index (UART_Handle_TO_CDC_Index u) + 1) % 1024 := by
      unfold APP_RX_DATA_SIZE at hw
      have hmod : (s.Write_Index (UART_Handle_TO_CDC_Index u) + 1) % 2 ^ 32
          = s.Write_Index (UART_Handle_TO_CDC_Index u) + 1 := Nat.mod_eq_of_lt (by omega)
      simp only [HAL_UART_RxCpltCallback, hmod, APP_RX_DATA_SIZE, Function.update_same]
      split_ifs <;> omega
    refine ⟨?_, hstep, h1, h5⟩
    intro i hi
    refine ⟨by rw [h1]; exact (hinv i hi).1, ?_⟩
    by_cases hiu : i = UART_Handle_TO_CDC_Index u
    · subst hiu
      rw [hstep]
      unfold APP_RX_DATA_SIZE
      omega
    · rw [h5 i hiu]
      exact (hinv i hi).2
  · intro w w1 hinv h
    obtain ⟨w1', h1, v, -⟩ := forLoop_flush_view E NUMBER_OF_CDC w
      (forLoop_flush_some_alloc E NUMBER_OF_CDC w w1 h)
    have he : forLoop NUMBER_OF_CDC (flushChannel E) w = some w1 := h
    rw [he] at h1
    obtain rfl := Option.some.inj h1
    intro i hi
    refine ⟨?_, by rw [v.write]; exact (hinv i hi).2⟩
    rw [v.read_done i hi]
    exact flushedRead_lt w i (hinv i hi).1 (hinv i hi).2
  · intro w ha
    obtain ⟨w1, h1, -, -⟩ := forLoop_flush_view E NUMBER_OF_CDC w ha
    exact ⟨w1, h1⟩

/-- Witness for C20: the cursor invariant on the sample device with pending data, through a
receive completion on `huart2` and through a tick. -/
theorem C20_cursor_invariant_witness :
    CursorInv sampleWorldPending.app ∧
    CursorInv (HAL_UART_RxCpltCallback huart2 sampleWorldPending.app) ∧
    (HAL_UART_RxCpltCallback huart2 sampleWorldPending.app).Write_Index 1 = 11 ∧
    (∃ w1, HAL_TIM_PeriodElapsedCallback sampleEndpoints sampleWorldPending = some w1 ∧
      CursorInv w1.app) := by
  have hinv : CursorInv sampleWorldPending.app := by
    intro i hi
    unfold NUMBER_OF_CDC at hi
    interval_cases i <;> exact ⟨by decide, by decide⟩
  obtain ⟨-, h2, h3, h4⟩ := C20_cursor_invariant sampleEndpoints
  obtain ⟨w1, hw1⟩ := h4 sampleWorldPending (by decide)
  exact ⟨hinv, (h2 _ huart2 hinv).1, (h2 _ huart2 hinv).2.1, w1, hw1, h3 _ _ hinv hw1⟩

/-! ## Class requests never stall -/

/-- A class request never ends in a stall: whatever `USBD_CDC_Setup` returns for it is
`USBD_OK`, and the calls it appends to the trace contain no `USBD_CtlError`. -/
theorem setupClass_no_stall (req : USBD_SetupReqTypedef) (w : World)
    (r : USBD_StatusTypeDef × World) (h : setupClass req w = some r) :
    r.1 = USBD_OK ∧ ∃ evs, r.2.trace = w.trace ++ evs ∧ Event.USBD_CtlError ∉ evs := by
  unfold setupClass at h
  split_ifs at h with hl hd
  · cases hu : w.pdev.pUserDataCDC with
    | none => simp [hu] at h
    | some f =>
      cases hc : w.pdev.pClassDataCDC (req.wIndex % 256) with
      | none => simp [hu, hc] at h
      | some hcdc =>
        simp only [hu, hc, World.emit_app] at h
        cases hr : f.Control (req.wIndex % 256) req.bRequest hcdc.data req.wLength w.app with
        | none => simp [hr] at h
        | some cr =>
          simp only [hr, Option.some.injEq] at h
          subst h
          exact ⟨rfl, [Event.Control (req.wIndex % 256) req.bRequest
              (Ptr.data (req.wIndex % 256)) req.wLength,
            Event.USBD_CtlSendData (Ptr.data (req.wIndex % 256)) req.wLength],
            by simp, by simp⟩
  · cases hc : w.pdev.pClassDataCDC (req.wIndex % 256) with
    | none => simp [hc] at h
    | some hcdc =>
      simp only [hc, Option.some.injEq] at h
      subst h
      exact ⟨rfl, [Event.USBD_CtlPrepareRx (Ptr.data (req.wIndex % 256)) req.wLength],
        by simp, by simp⟩
  · cases hu : w.pdev.pUserDataCDC with
    | none => simp [hu] at h
    | some f =>
      simp only [hu, World.emit_app] at h
      cases hr : f.Control (req.wIndex % 256) req.bRequest (reqBytes req) 0 w.app with
      | none => simp [hr] at h
      | some cr =>
        simp only [hr, Option.some.injEq] at h
        subst h
        exact ⟨rfl, [Event.Control (req.wIndex % 256) req.bRequest Ptr.req 0], rfl, by simp⟩

/-! ## Overwrite hazard -/

theorem UART_RxBytes_append (u : UartId) (B1 B2 : List Nat) (s : AppState) :
    UART_RxBytes u (B1 ++ B2) s = UART_RxBytes u B2 (UART_RxBytes u B1 s) := by
  simp [UART_RxBytes, List.foldl_append]

/-- C16: start from an empty ring buffer of the channel i of `huart`
(`Read_Index[i] = Write_Index[i]`) with reception armed at the write cursor W, and let
capacity + k bytes B arrive on the serial-receive path with no timer tick in between
(0 < k < capacity, the capacity being `APP_RX_DATA_SIZE` = 1024). After the first capacity
bytes slot (W + m) mod capacity holds byte m, for every m below the capacity; at the end the
slots of bytes 0..k-1 hold bytes capacity..capacity+k-1 instead, the slots of bytes
k..capacity-1 are unchanged; after every byte reception is armed again at the write cursor
(the path has no status result and refuses no byte); the read cursor never moves, and the
cursors report k pending bytes: `Write_Index[i] - Read_Index[i]` is k modulo the capacity. -/
theorem C16_overwrite_hazard (u : UartId) (B : List Nat) (k : Nat) (s : AppState)
    (hk0 : 0 < k) (hk : k < APP_RX_DATA_SIZE) (hlen : B.length = APP_RX_DATA_SIZE + k)
    (hempty : s.Read_Index (UART_Handle_TO_CDC_Index u)
      = s.Write_Index (UART_Handle_TO_CDC_Index u))
    (harmed : ArmedAtWrite s u) :
    (∀ m, m < APP_RX_DATA_SIZE →
      (UART_RxBytes u (B.take APP_RX_DATA_SIZE) s).TX_Buffer (UART_Handle_TO_CDC_Index u)
          ((s.Write_Index (UART_Handle_TO_CDC_Index u) + m) % APP_RX_DATA_SIZE)
        = B.getD m 0 % 256) ∧
    (∀ m, m < k →
      (UART_RxBytes u B s).TX_Buffer (UART_Handle_TO_CDC_Index u)
          ((s.Write_Index (UART_Handle_TO_CDC_Index u) + m) % APP_RX_DATA_SIZE)
        = B.getD (APP_RX_DATA_SIZE + m) 0 % 256) ∧
    (∀ m, k ≤ m → m < APP_RX_DATA_SIZE →
      (UART_RxBytes u B s).TX_Buffer (UART_Handle_TO_CDC_Index u)
          ((s.Write_Index (UART_Handle_TO_CDC_Index u) + m) % APP_RX_DATA_SIZE)
        = B.getD m 0 % 256) ∧
    (∀ n, ArmedAtWrite (UART_RxBytes u (B.take n) s) u ∧
      (UART_RxBytes u (B.take n) s).Read_Index = s.Read_Index) ∧
    (UART_RxBytes u B s).Read_Index = s.Read_Index ∧
    (UART_RxBytes u B s).Write_Index (UART_Handle_TO_CDC_Index u)
      = (s.Write_Index (UART_Handle_TO_CDC_Index u) + k) % APP_RX_DATA_SIZE ∧
    ((UART_RxBytes u B s).Write_Index (UART_Handle_TO_CDC_Index u) + APP_RX_DATA_SIZE
        - (UART_RxBytes u B s).Read_Index (UART_Handle_TO_CDC_Index u)) % APP_RX_DATA_SIZE
      = k := by
  have hsplit : B = B.take APP_RX_DATA_SIZE ++ B.drop APP_RX_DATA_SIZE :=
    (List.take_append_drop _ _).symm
  have hl1 : (B.take APP_RX_DATA_SIZE).length = APP_RX_DATA_SIZE := by
    rw [List.length_take, hlen]; omega
  have hl2 : (B.drop APP_RX_DATA_SIZE).length = k := by
    rw [List.length_drop, hlen]; omega
  have hg1 : ∀ m, m < APP_RX_DATA_SIZE → (B.take APP_RX_DATA_SIZE).getD m 0 = B.getD m 0 := by
    intro m hm
    rw [List.getD_eq_getElem _ _ (by rw [hl1]; exact hm),
      List.getD_eq_getElem _ _ (by rw [hlen]; omega), List.getElem_take]
  have hg2 : ∀ m, m < k →
      (B.drop APP_RX_DATA_SIZE).getD m 0 = B.getD (APP_RX_DATA_SIZE + m) 0 := by
    intro m hm
    rw [List.getD_eq_getElem _ _ (by rw [hl2]; exact hm),
      List.getD_eq_getElem _ _ (by rw [hlen]; omega), List.getElem_drop]
  obtain ⟨a1, w1, c1, -, -, r1⟩ := UART_RxBytes_armed u (B.take APP_RX_DATA_SIZE) s harmed
  obtain ⟨-, w2, c2, f2, -, r2⟩ := UART_RxBytes_armed u (B.drop APP_RX_DATA_SIZE)
    (UART_RxBytes u (B.take APP_RX_DATA_SIZE) s) a1
  have hw0 := harmed.2
  rw [← UART_RxBytes_append, ← hsplit] at w2 c2 f2 r2
  rw [hl1] at w1 c1
  rw [hl2] at w2 c2 f2
  have hw1 : (UART_RxBytes u (B.take APP_RX_DATA_SIZE) s).Write_Index
      (UART_Handle_TO_CDC_Index u) = s.Write_Index (UART_Handle_TO_CDC_Index u) := by
    rw [w1]
    unfold APP_RX_DATA_SIZE at hw0 ⊢
    omega
  rw [hw1] at w2 c2 f2
  refine ⟨?_, ?_, ?_, ?_, ?_, w2, ?_⟩
  · intro m hm
    rw [c1 (le_refl _) m hm, hg1 m hm]
  · intro m hm
    rw [c2 (le_of_lt hk) m hm, hg2 m hm]
  · intro m hkm hm
    rw [f2 _ (by
      intro m2 hm2
      unfold APP_RX_DATA_SIZE at hw0 hm hk ⊢
      omega), c1 (le_refl _) m hm, hg1 m hm]
  · intro n
    obtain ⟨a, -, -, -, -, r⟩ := UART_RxBytes_armed u (B.take n) s harmed
    exact ⟨a, r⟩
  · rw [r2, r1]
  · rw [w2, r2, r1, hempty]
    unfold APP_RX_DATA_SIZE at hw0 hk ⊢
    omega

/-- Witness for C16: 1068 bytes (capacity + 44) arriving on `huart2` (channel 1) of the
sample device right after `SET_LINE_CODING` armed reception. -/
theorem C16_overwrite_hazard_witness :
    (∀ m, m < APP_RX_DATA_SIZE →
      (UART_RxBytes huart2 (sampleBurst.take APP_RX_DATA_SIZE) sampleWorldArmed.app).TX_Buffer
          (UART_Handle_TO_CDC_Index huart2)
          ((sampleWorldArmed.app.Write_Index (UART_Handle_TO_CDC_Index huart2) + m)
            % APP_RX_DATA_SIZE)
        = sampleBurst.getD m 0 % 256) ∧
    (∀ m, m < 44 →
      (UART_RxBytes huart2 sampleBurst sampleWorldArmed.app).TX_Buffer
          (UART_Handle_TO_CDC_Index huart2)
          ((sampleWorldArmed.app.Write_Index (UART_Handle_TO_CDC_Index huart2) + m)
            % APP_RX_DATA_SIZE)
        = sampleBurst.getD (APP_RX_DATA_SIZE + m) 0 % 256) ∧
    (∀ m, 44 ≤ m → m < APP_RX_DATA_SIZE →
      (UART_RxBytes huart2 sampleBurst sampleWorldArmed.app).TX_Buffer
          (UART_Handle_TO_CDC_Index huart2)
          ((sampleWorldArmed.app.Write_Index (UART_Handle_TO_CDC_Index huart2) + m)
            % APP_RX_DATA_SIZE)
        = sampleBurst.getD m 0 % 256) ∧
    (∀ n, ArmedAtWrite (UART_RxBytes huart2 (sampleBurst.take n) sampleWorldArmed.app) huart2 ∧
      (UART_RxBytes huart2 (sampleBurst.take n) sampleWorldArmed.app).Read_Index
        = sampleWorldArmed.app.Read_Index) ∧
    (UART_RxBytes huart2 sampleBurst sampleWorldArmed.app).Read_Index
      = sampleWorldArmed.app.Read_Index ∧
    (UART_RxBytes huart2 sampleBurst sampleWorldArmed.app).Write_Index
        (UART_Handle_TO_CDC_Index huart2)
      = (sampleWorldArmed.app.Write_Index (UART_Handle_TO_CDC_Index huart2) + 44)
        % APP_RX_DATA_SIZE ∧
    ((UART_RxBytes huart2 sampleBurst sampleWorldArmed.app).Write_Index
          (UART_Handle_TO_CDC_Index huart2) + APP_RX_DATA_SIZE
        - (UART_RxBytes huart2 sampleBurst sampleWorldArmed.app).Read_Index
          (UART_Handle_TO_CDC_Index huart2)) % APP_RX_DATA_SIZE
      = 44 :=
  C16_overwrite_hazard huart2 sampleBurst 44 sampleWorldArmed.app (by decide) (by decide)
    (by simp [sampleBurst, APP_RX_DATA_SIZE]) (by decide) ⟨by decide, by decide⟩

/-! ## Endpoint multiplexer -/

/-- The table `EP_To_Class` holds `e / 2` at index `e` and has 8 entries. -/
theorem EP_To_Class_lookup (e i : Nat) : EP_To_Class[e]? = some i ↔ e < 8 ∧ e / 2 = i := by
  by_cases he : e < 8
  · interval_cases e <;> simp [EP_To_Class]
  · have hn : EP_To_Class[e]? = none := List.getElem?_eq_none (by simp [EP_To_Class]; omega)
    simp [hn, he]

/-! ## Configuration and teardown -/

theorem forLoop_none {σ : Type} (n k : Nat) (body : Nat → σ → Option σ) (s : σ)
    (hk : k < n) (hbody : ∀ s1, body k s1 = none) : forLoop n body s = none := by
  induction n with
  | zero => omega
  | succ n ih =>
    rw [forLoop_succ]
    by_cases hkn : k = n
    · subst hkn
      cases forLoop k body s with
      | none => rfl
      | some s1 => exact hbody s1
    · rw [ih (by omega)]
      rfl

/-- The iteration of `USBD_CDC_Init` for a channel whose allocation failed has no result:
`CDC_Init_FS` writes `RxBuffer` through the null pointer. -/
theorem initChannel_alloc_failure (E : EndpointIds) (alloc : Nat → Option USBD_CDC_HandleTypeDef)
    (k : Nat) (st : Nat × World) (hfail : alloc k = none) : initChannel E alloc k st = none := by
  unfold initChannel
  simp only [hfail]
  cases hu : st.2.pdev.pUserDataCDC with
  | none => simp [World.setClassPtr, World.setUsedIn, World.setUsedOut, World.emit, hu]
  | some f =>
    cases f
    simp [World.setClassPtr, World.setUsedIn, World.setUsedOut, World.emit, hu, ItfRef.Init,
      CDC_Init_FS, USBD_CDC_SetRxBuffer]

/-- C12 on the code: if the allocation fails for a channel k, `USBD_CDC_Init` has no result,
whatever the device state: in the iteration of channel k the code goes on after the null test
and writes through the null pointer (in `USBD_CDC_SetRxBuffer`, called by the `Init`
capability, and in the `TxState` and `RxState` stores). -/
theorem C12_init_alloc_failure (E : EndpointIds) (alloc : Nat → Option USBD_CDC_HandleTypeDef)
    (k cfgidx : Nat) (w : World) (hk : k < NUMBER_OF_CDC) (hfail : alloc k = none) :
    USBD_CDC_Init E alloc cfgidx w = none :=
  forLoop_none NUMBER_OF_CDC k _ _ hk (fun st => initChannel_alloc_failure E alloc k st hfail)

/-- Witness for C12: on the unconfigured sample device the allocation fails for channel 1
only; with an allocator that never fails the same call completes with status 0 and leaves
every channel allocated. -/
theorem C12_init_alloc_failure_witness :
    (allocFailing1 1 = none ∧ ∀ j, j < NUMBER_OF_CDC → j ≠ 1 → (allocFailing1 j).isSome) ∧
    (∃ w1, USBD_CDC_Init sampleEndpoints allocAll 0 sampleWorldUnconfigured = some (0, w1) ∧
      ∀ j, j < NUMBER_OF_CDC → (w1.pdev.pClassDataCDC j).isSome) ∧
    USBD_CDC_Init sampleEndpoints allocFailing1 0 sampleWorldUnconfigured = none :=
  ⟨⟨rfl, by decide⟩, ⟨_, rfl, by decide⟩,
    C12_init_alloc_failure sampleEndpoints allocFailing1 1 0 sampleWorldUnconfigured
      (by decide) rfl⟩

theorem World.setUsedIn_flag (w : World) (e v f : Nat) :
    ((w.setUsedIn e v).pdev.ep_in f).is_used = if f = e then v else (w.pdev.ep_in f).is_used := by
  unfold World.setUsedIn
  by_cases h : f = e
  · subst h; simp
  · simp [h]

theorem World.setUsedOut_flag (w : World) (e v f : Nat) :
    ((w.setUsedOut e v).pdev.ep_out f).is_used
      = if f = e then v else (w.pdev.ep_out f).is_used := by
  unfold World.setUsedOut
  by_cases h : f = e
  · subst h; simp
  · simp [h]

theorem World.setUsedIn_zero (w : World) (e : Nat) (h : (w.pdev.ep_in e).is_used = 0) :
    w.setUsedIn e 0 = w := by
  have hrec : ({ w.pdev.ep_in e with is_used := 0 } : USBD_EndpointTypeDef) = w.pdev.ep_in e := by
    rw [← h]
  unfold World.setUsedIn
  rw [hrec, Function.update_eq_self]

theorem World.setUsedOut_zero (w : World) (e : Nat) (h : (w.pdev.ep_out e).is_used = 0) :
    w.setUsedOut e 0 = w := by
  have hrec : ({ w.pdev.ep_out e with is_used := 0 } : USBD_EndpointTypeDef)
      = w.pdev.ep_out e := by
    rw [← h]
  unfold World.setUsedOut
  rw [hrec, Function.update_eq_self]

theorem deinitChannel_eq (E : EndpointIds) (i : Nat) (w : World) :
    deinitChannel E i w =
      match w.pdev.pClassDataCDC i with
      | none => some (closeChannel E i w)
      | some _ =>
        match w.pdev.pUserDataCDC with
        | none => none
        | some fops =>
          match fops.DeInit i ((closeChannel E i w).emit [Event.DeInit i]) with
          | none => none
          | some r => some ((r.2.emit [Event.USBD_free i]).setClassPtr i none) := rfl

theorem closeChannel_in (E : EndpointIds) (i : Nat) (w : World) (f : Nat) :
    ((closeChannel E i w).pdev.ep_in f).is_used
      = if f = CDC_CMD_EP E i &&& 0xF then 0
        else if f = CDC_IN_EP E i &&& 0xF then 0 else (w.pdev.ep_in f).is_used := by
  unfold closeChannel
  rw [World.setUsedIn_flag]
  show (if f = _ then 0 else (((w.emit _).setUsedIn _ 0).pdev.ep_in f).is_used) = _
  rw [World.setUsedIn_flag]
  rfl

theorem closeChannel_out (E : EndpointIds) (i : Nat) (w : World) (f : Nat) :
    ((closeChannel E i w).pdev.ep_out f).is_used
      = if f = CDC_OUT_EP E i &&& 0xF then 0 else (w.pdev.ep_out f).is_used := by
  unfold closeChannel
  show (((((w.emit _).setUsedIn _ 0).emit _).setUsedOut _ 0).pdev.ep_out f).is_used = _
  rw [World.setUsedOut_flag]
  rfl

theorem CDC_DeInit_FS_pdev (i : Nat) (w : World) (r : USBD_StatusTypeDef × World)
    (h : CDC_DeInit_FS i w = some r) : r.2.pdev = w.pdev ∧ r.1 = USBD_OK := by
  unfold CDC_DeInit_FS at h
  cases hu : CDC_Index_To_UART_Handle i with
  | none =>
    simp only [hu] at h
    obtain rfl := Option.some.inj h
    exact ⟨rfl, rfl⟩
  | some u =>
    simp only [hu, HAL_UART_DeInit, ne_eq, not_true_eq_false, if_false] at h
    obtain rfl := Option.some.inj h
    exact ⟨rfl, rfl⟩

/-- `CDC_DeInit_FS` returns on every channel index. -/
theorem CDC_DeInit_FS_some (i : Nat) (w : World) : ∃ r, CDC_DeInit_FS i w = some r := by
  unfold CDC_DeInit_FS
  cases CDC_Index_To_UART_Handle i with
  | none => exact ⟨_, rfl⟩
  | some u => simp [HAL_UART_DeInit]

/-- One completed iteration of `USBD_CDC_DeInit` leaves its channel torn down, and every
channel that was torn down stays so. -/
theorem deinitChannel_torn (E : EndpointIds) (i : Nat) (w w1 : World)
    (h : deinitChannel E i w = some w1) :
    TornDown E w1 i ∧ ∀ j, TornDown E w j → TornDown E w1 j := by
  have key : w1.pdev.pClassDataCDC = Function.update w.pdev.pClassDataCDC i none ∧
      w1.pdev.ep_in = (closeChannel E i w).pdev.ep_in ∧
      w1.pdev.ep_out = (closeChannel E i w).pdev.ep_out := by
    rw [deinitChannel_eq] at h
    cases hc : w.pdev.pClassDataCDC i with
    | none =>
      simp only [hc] at h
      obtain rfl := Option.some.inj h
      refine ⟨?_, rfl, rfl⟩
      show w.pdev.pClassDataCDC = _
      rw [← hc, Function.update_eq_self]
    | some hcdc =>
      simp only [hc] at h
      cases hu : w.pdev.pUserDataCDC with
      | none => simp [hu] at h
      | some fops =>
        cases fops
        simp only [hu, ItfRef.DeInit] at h
        cases hr : CDC_DeInit_FS i ((closeChannel E i w).emit [Event.DeInit i]) with
        | none => simp [hr] at h
        | some r =>
          simp only [hr] at h
          obtain rfl := Option.some.inj h
          obtain ⟨hp, -⟩ := CDC_DeInit_FS_pdev _ _ _ hr
          refine ⟨?_, ?_, ?_⟩
          · show Function.update r.2.pdev.pClassDataCDC i none = _
            rw [hp]; rfl
          · show r.2.pdev.ep_in = _
            rw [hp]; rfl
          · show r.2.pdev.ep_out = _
            rw [hp]; rfl
  obtain ⟨kc, kin, kout⟩ := key
  refine ⟨⟨by rw [kc]; simp, by rw [kin, closeChannel_in]; simp,
    by rw [kout, closeChannel_out]; simp, by rw [kin, closeChannel_in]; simp⟩, ?_⟩
  rintro j ⟨t1, t2, t3, t4⟩
  refine ⟨?_, ?_, ?_, ?_⟩
  · rw [kc]
    by_cases hji : j = i
    · subst hji; simp
    · rw [Function.update_noteq hji, t1]
  · rw [kin, closeChannel_in, t2]; simp
  · rw [kout, closeChannel_out, t3]; simp
  · rw [kin, closeChannel_in, t4]; simp

/-- On a torn-down channel the iteration of `USBD_CDC_DeInit` only repeats the three endpoint
closes: no `DeInit`, no release, and the device and application state are unchanged. -/
theorem deinitChannel_again (E : EndpointIds) (i : Nat) (w : World) (ht : TornDown E w i) :
    deinitChannel E i w = some (w.emit (closeEvents E i)) := by
  obtain ⟨t1, t2, t3, t4⟩ := ht
  have hclose : closeChannel E i w = w.emit (closeEvents E i) := by
    unfold closeChannel
    rw [World.setUsedIn_zero (w.emit _) _ t2, World.setUsedOut_zero ((w.emit _).emit _) _ t3,
      World.setUsedIn_zero (((w.emit _).emit _).emit _) _ t4]
    simp [World.emit, closeEvents]
  rw [deinitChannel_eq, t1, hclose]


theorem World.emit_emit (w : World) (a b : List Event) : (w.emit a).emit b = w.emit (a ++ b) := by
  simp [World.emit, List.append_assoc]

/-- A completed run of the loop of `USBD_CDC_DeInit` leaves every channel it visited torn
down. -/
theorem forLoop_deinit_torn (E : EndpointIds) (n : Nat) (w w1 : World)
    (h : forLoop n (deinitChannel E) w = some w1) : ∀ i, i < n → TornDown E w1 i := by
  induction n generalizing w1 with
  | zero => intro i hi; omega
  | succ n ih =>
    obtain ⟨w0, h0, hb⟩ := forLoop_succ_some n _ w w1 h
    obtain ⟨tn, tkeep⟩ := deinitChannel_torn E n w0 w1 hb
    intro i hi
    by_cases hin : i = n
    · rw [hin]; exact tn
    · exact tkeep i (ih w0 h0 i (by omega))

/-- On torn-down channels the loop of `USBD_CDC_DeInit` completes and only repeats the
endpoint closes. -/
theorem forLoop_deinit_again (E : EndpointIds) (n : Nat) (w : World)
    (ht : ∀ i, i < n → TornDown E w i) :
    forLoop n (deinitChannel E) w = some (w.emit ((List.range n).flatMap (closeEvents E))) := by
  induction n with
  | zero => simp [forLoop, World.emit]
  | succ n ih =>
    rw [forLoop_succ, ih (fun i hi => ht i (by omega))]
    show deinitChannel E n _ = _
    have htn : TornDown E (w.emit ((List.range n).flatMap (closeEvents E))) n :=
      ht n (by omega)
    rw [deinitChannel_again E n _ htn, World.emit_emit, List.range_succ, List.flatMap_append]
    simp

/-! ## Peripheral configuration -/

theorem stopBitsOf_two (format : Nat) :
    (stopBitsOf format = UART_STOPBITS_2 ↔ format = 2) ∧
    (stopBitsOf format = UART_STOPBITS_1 ↔ format ≠ 2) := by
  unfold stopBitsOf
  split <;> simp_all

theorem parityOf_cases (paritytype : Nat) :
    (parityOf paritytype = UART_PARITY_ODD ↔ paritytype = 1) ∧
    (parityOf paritytype = UART_PARITY_EVEN ↔ paritytype = 2) ∧
    (parityOf paritytype = UART_PARITY_NONE ↔ paritytype ≠ 1 ∧ paritytype ≠ 2) := by
  unfold parityOf
  split <;> simp_all

theorem wordLengthOf_nine (datatype : Nat) (parity : UART_Parity) :
    (wordLengthOf datatype parity = UART_WORDLENGTH_9B ↔
      datatype = 8 ∧ (parity = UART_PARITY_ODD ∨ parity = UART_PARITY_EVEN)) ∧
    (wordLengthOf datatype parity = UART_WORDLENGTH_8B ↔
      ¬ (datatype = 8 ∧ (parity = UART_PARITY_ODD ∨ parity = UART_PARITY_EVEN))) := by
  unfold wordLengthOf
  split <;> cases parity <;> simp_all

/-- C21: on a channel with a UART handle `Change_UART_Setting` completes and programs the
peripheral with a configuration that is a function of the stored line coding alone: stop
bits 2 iff format = 2, otherwise 1; parity odd iff paritytype = 1, even iff paritytype = 2,
otherwise none; word length 9 bits iff datatype = 8 and the selected parity is odd or even,
otherwise 8 bits; baud rate the stored rate, or 115200 when the stored rate is 0; mode,
flow control and oversampling are the fixed TX_RX, none and 16. Every member of `Init` is
assigned, so any state with the same `Line_Coding[i]`, whatever its previous peripheral
configuration, gets the same configuration. A channel without a UART handle has no
peripheral and the call has no result. -/
theorem C21_full_reapply (i : Nat) (s : AppState) :
    (∀ u, CDC_Index_To_UART_Handle i = some u →
      ∃ s1 cfg, Change_UART_Setting i s = some s1 ∧
        (s1.huart u).applied = some cfg ∧ (s1.huart u).Init = cfg ∧
        (cfg.StopBits = UART_STOPBITS_2 ↔ (s.Line_Coding i).format = 2) ∧
        (cfg.StopBits = UART_STOPBITS_1 ↔ (s.Line_Coding i).format ≠ 2) ∧
        (cfg.Parity = UART_PARITY_ODD ↔ (s.Line_Coding i).paritytype = 1) ∧
        (cfg.Parity = UART_PARITY_EVEN ↔ (s.Line_Coding i).paritytype = 2) ∧
        (cfg.Parity = UART_PARITY_NONE ↔
          (s.Line_Coding i).paritytype ≠ 1 ∧ (s.Line_Coding i).paritytype ≠ 2) ∧
        (cfg.WordLength = UART_WORDLENGTH_9B ↔
          (s.Line_Coding i).datatype = 8 ∧
            (cfg.Parity = UART_PARITY_ODD ∨ cfg.Parity = UART_PARITY_EVEN)) ∧
        (cfg.WordLength = UART_WORDLENGTH_8B ↔
          ¬ ((s.Line_Coding i).datatype = 8 ∧
            (cfg.Parity = UART_PARITY_ODD ∨ cfg.Parity = UART_PARITY_EVEN))) ∧
        cfg.BaudRate
          = (if (s.Line_Coding i).bitrate = 0 then 115200 else (s.Line_Coding i).bitrate) ∧
        cfg.Mode = UART_MODE_TX_RX ∧ cfg.HwFlowCtl = UART_HWCONTROL_NONE ∧
        cfg.OverSampling = UART_OVERSAMPLING_16 ∧
        ∀ s2, s2.Line_Coding i = s.Line_Coding i →
          ∃ s3, Change_UART_Setting i s2 = some s3 ∧ (s3.huart u).applied = some cfg ∧
            (s3.huart u).Init = cfg) ∧
    (CDC_Index_To_UART_Handle i = none → Change_UART_Setting i s = none) := by
  refine ⟨?_, Change_UART_Setting_unbound i s⟩
  intro u hu
  refine ⟨_, uartInitOf (s.Line_Coding i), Change_UART_Setting_bound i u s hu, by simp,
    by simp, (stopBitsOf_two _).1, (stopBitsOf_two _).2, (parityOf_cases _).1,
    (parityOf_cases _).2.1, (parityOf_cases _).2.2, (wordLengthOf_nine _ _).1,
    (wordLengthOf_nine _ _).2, rfl, rfl, rfl, rfl, ?_⟩
  intro s2 h2
  refine ⟨_, Change_UART_Setting_bound i u s2 hu, ?_, ?_⟩ <;> simp [h2]

/-- Witness for C21: channel 1 (`huart2`) of the zeroed state with the stored line coding
9600 baud, two stop bits, odd parity, 8 data bits: 9-bit words. -/
theorem C21_full_reapply_witness :
    ∃ s1 cfg,
      Change_UART_Setting 1
        { AppState.zero with Line_Coding := fun _ => sampleCoding } = some s1 ∧
      (s1.huart huart2).applied = some cfg ∧ cfg.StopBits = UART_STOPBITS_2 ∧
      cfg.Parity = UART_PARITY_ODD ∧ cfg.WordLength = UART_WORDLENGTH_9B ∧
      cfg.BaudRate = 9600 := by
  obtain ⟨s1, cfg, h1, h2, -, h4, -, h6, -, -, h9, -, h11, -⟩ :=
    (C21_full_reapply 1 { AppState.zero with Line_Coding := fun _ => sampleCoding }).1
      huart2 rfl
  have hp : cfg.Parity = UART_PARITY_ODD := h6.mpr rfl
  exact ⟨s1, cfg, h1, h2, h4.mpr rfl, hp, h9.mpr ⟨rfl, Or.inl hp⟩, h11⟩

/-! ## Channels and UART handles -/

/-- C22 on the code: channel 3 is below the channel count and `CDC_Index_To_UART_Handle`
gives it no handle (`NULL`). A channel index below the channel count has a handle exactly
when it is at most 2; on those channels the claim holds: the handle maps back to its
channel, distinct channels have distinct handles, and every handle belongs to the channel
`UART_Handle_TO_CDC_Index` names. On channel 3 `Change_UART_Setting` has no result. -/
theorem C22_channel3_unbound :
    3 < NUMBER_OF_CDC ∧ CDC_Index_To_UART_Handle 3 = none ∧
    (∀ i, i < NUMBER_OF_CDC → ((∃ u, CDC_Index_To_UART_Handle i = some u) ↔ i ≤ 2)) ∧
    (∀ i u, CDC_Index_To_UART_Handle i = some u → UART_Handle_TO_CDC_Index u = i) ∧
    (∀ i j u, CDC_Index_To_UART_Handle i = some u → CDC_Index_To_UART_Handle j = some u →
      i = j) ∧
    (∀ u, CDC_Index_To_UART_Handle (UART_Handle_TO_CDC_Index u) = some u) ∧
    (∀ s, Change_UART_Setting 3 s = none) := by
  have hback : ∀ i u, CDC_Index_To_UART_Handle i = some u → UART_Handle_TO_CDC_Index u = i := by
    intro i u h
    unfold CDC_Index_To_UART_Handle at h
    split_ifs at h with h0 h1 h2 <;> obtain rfl := Option.some.inj h <;>
      simp [UART_Handle_TO_CDC_Index, *]
  refine ⟨by decide, rfl, ?_, hback, ?_, ?_, fun s => Change_UART_Setting_unbound 3 s rfl⟩
  · intro i hi
    constructor
    · rintro ⟨u, hu⟩
      have := hback i u hu
      cases u <;> simp [UART_Handle_TO_CDC_Index] at this <;> omega
    · exact CDC_Index_To_UART_Handle_le_two i
  · intro i j u hi hj
    rw [← hback i u hi, ← hback j u hj]
  · intro u
    cases u <;> rfl

/-! ## Armed slot of the serial receive path -/

/-- The receive completion, entered as the driver enters it with the reception completed,
arms the next reception at the advanced write cursor, for every value of the cursor. -/
theorem HAL_UART_RxCpltCallback_rearm (u : UartId) (s : AppState)
    (hrx : (s.huart u).rx = none) :
    ((HAL_UART_RxCpltCallback u s).huart u).rx
      = some (Ptr.TX_Buffer (UART_Handle_TO_CDC_Index u)
          ((HAL_UART_RxCpltCallback u s).Write_Index (UART_Handle_TO_CDC_Index u)), 1) := by
  simp [HAL_UART_RxCpltCallback, HAL_UART_Receive_IT, hrx]

/-- One arriving byte keeps the armed-slot invariant. -/
theorem UART_RxByte_slot (u : UartId) (b : Nat) (s : AppState) (h : ArmedSlotInv s u) :
    ArmedSlotInv (UART_RxByte u b s) u := by
  unfold UART_RxByte
  split
  · intro p hp
    rw [HAL_UART_RxCpltCallback_rearm u _ (by simp)] at hp
    have := Option.some.inj hp
    exact (Prod.mk.inj this).1.symm
  · exact h

/-- C23 on the code: the receive completion keeps the armed-slot invariant for every value
of the write cursor, and under the invariant an arriving byte lands at the write cursor. But
`Change_UART_Setting` re-arms the reception at `TX_Buffer[i][0]` and leaves `Write_Index[i]`
as it is, so after it the invariant holds only when `Write_Index[i]` is 0. On the sample
state with five bytes received on `huart1` (the invariant holds, write cursor 5) a
`SET_LINE_CODING` on channel 0 leaves the reception armed at slot 0 with the write cursor at
5; the next byte, 0x41, overwrites slot 0, slot 5 is not written, and the write cursor moves
to 6. -/
theorem C23_rearm_at_slot_zero :
    (∀ u s, (s.huart u).rx = none →
      ((HAL_UART_RxCpltCallback u s).huart u).rx
        = some (Ptr.TX_Buffer (UART_Handle_TO_CDC_Index u)
            ((HAL_UART_RxCpltCallback u s).Write_Index (UART_Handle_TO_CDC_Index u)), 1)) ∧
    (∀ u b s, ArmedSlotInv s u → ArmedSlotInv (UART_RxByte u b s) u) ∧
    (∀ u b s, ArmedAtWrite s u →
      (UART_RxByte u b s).TX_Buffer (UART_Handle_TO_CDC_Index u)
        (s.Write_Index (UART_Handle_TO_CDC_Index u)) = b % 256) ∧
    (∀ i u s, CDC_Index_To_UART_Handle i = some u →
      ∃ s1, Change_UART_Setting i s = some s1 ∧
        (s1.huart u).rx = some (Ptr.TX_Buffer i 0, 1) ∧ s1.Write_Index = s.Write_Index ∧
        (ArmedSlotInv s1 u ↔ s.Write_Index i = 0)) ∧
    (ArmedSlotInv sampleAppFive huart1 ∧ sampleAppFive.Write_Index 0 = 5 ∧
      CDC_Control_FS 0 CDC_SET_LINE_CODING payload9600 7 sampleAppFive
        = some { ret := USBD_OK, app := sampleAppRearmed, pbuf := payload9600 } ∧
      (sampleAppRearmed.huart huart1).rx = some (Ptr.TX_Buffer 0 0, 1) ∧
      sampleAppRearmed.Write_Index 0 = 5 ∧
      ¬ ArmedSlotInv sampleAppRearmed huart1 ∧
      sampleAppRearmed.TX_Buffer 0 0 = 0x31 ∧
      (UART_RxByte huart1 0x41 sampleAppRearmed).TX_Buffer 0 0 = 0x41 ∧
      (UART_RxByte huart1 0x41 sampleAppRearmed).TX_Buffer 0 5
        = sampleAppRearmed.TX_Buffer 0 5 ∧
      (UART_RxByte huart1 0x41 sampleAppRearmed).Write_Index 0 = 6) := by
  refine ⟨fun u s h => HAL_UART_RxCpltCallback_rearm u s h,
    fun u b s h => UART_RxByte_slot u b s h,
    fun u b s h => (UART_RxByte_armed u b s h).2.2.1, ?_, ?_⟩
  · intro i u s hu
    have hidx : UART_Handle_TO_CDC_Index u = i := by
      unfold CDC_Index_To_UART_Handle at hu
      split_ifs at hu with h0 h1 h2 <;> obtain rfl := Option.some.inj hu <;>
        simp [UART_Handle_TO_CDC_Index, *]
    refine ⟨_, Change_UART_Setting_bound i u s hu, by simp, rfl, ?_⟩
    unfold ArmedSlotInv
    simp only [Function.update_same, hidx]
    constructor
    · intro h
      have := h _ rfl
      simp only [Ptr.TX_Buffer.injEq, true_and] at this
      exact this.symm
    · intro h p hp
      rw [h]
      have := Option.some.inj hp
      exact (Prod.mk.inj this).1.symm
  · have hrx : (sampleAppRearmed.huart huart1).rx = some (Ptr.TX_Buffer 0 0, 1) := by decide
    have hw : sampleAppRearmed.Write_Index 0 = 5 := by decide
    refine ⟨?_, by decide, rfl, hrx, hw, ?_, by decide, by decide, by decide, by decide⟩
    · intro p hp
      have h5 : (sampleAppFive.huart huart1).rx = some (Ptr.TX_Buffer 0 5, 1) := by decide
      rw [h5] at hp
      have := Option.some.inj hp
      rw [← (Prod.mk.inj this).1]
      decide
    · intro h
      have h0 : Ptr.TX_Buffer 0 0 = Ptr.TX_Buffer 0 (sampleAppRearmed.Write_Index 0) := h _ hrx
      rw [hw] at h0
      exact absurd h0 (by decide)

/-! ## Run bounds of the timer tick -/

/-- With both cursors inside the storage and data pending, the run is not empty, it ends at
the end of the storage when the read cursor is above the write cursor and at the write
cursor otherwise (so the 32-bit subtraction does not wrap), and the advanced read cursor is
the old one plus the run length, modulo the capacity. -/
theorem advanceRead_runLength (r wr : Nat) (hr : r < APP_RX_DATA_SIZE)
    (hw : wr < APP_RX_DATA_SIZE) (hne : r ≠ wr) :
    1 ≤ runLength r wr ∧ r + runLength r wr = (if r > wr then APP_RX_DATA_SIZE else wr) ∧
    runLength r wr < 2 ^ 16 ∧
    advanceRead r (runLength r wr) = (r + runLength r wr) % APP_RX_DATA_SIZE ∧
    advanceRead r (runLength r wr) = (if r > wr then 0 else wr) := by
  unfold runLength advanceRead APP_TX_DATA_SIZE APP_RX_DATA_SIZE at *
  split_ifs <;> omega

/-- C24: under the cursor invariant, on a device with every channel allocated, a timer tick
completes and keeps the invariant and the write cursors. For a channel i with pending data
the run it computes is not empty and lies inside the storage: it starts at `Read_Index[i]`
and ends at 1024 when the read cursor is above the write cursor and at `Write_Index[i]`
otherwise, so the unsigned subtraction does not wrap; this run is what the tick sets in the
channel record, and the only call the tick submits for channel i is the transmit of this run,
made when the channel is Idle. After an accepted transmit the new `Read_Index[i]` is the old
one plus the run length, modulo 1024; otherwise the read cursor stays. An accepted tick makes
`Read_Index[i] = Write_Index[i]` at once when the read cursor is not above the write cursor,
and a second accepted tick, with no byte arrived in between, always does. -/
theorem C24_run_bounds (E : EndpointIds) (w : World) (i : Nat) (hi : i < NUMBER_OF_CDC)
    (hinv : CursorInv w.app)
    (halloc : ∀ j, j < NUMBER_OF_CDC → (w.pdev.pClassDataCDC j).isSome) :
    ∃ w1, HAL_TIM_PeriodElapsedCallback E w = some w1 ∧
      w1.trace = w.trace ++ (List.range NUMBER_OF_CDC).flatMap (flushEvents E w) ∧
      w1.app.Write_Index = w.app.Write_Index ∧ CursorInv w1.app ∧
      (w.app.Read_Index i ≠ w.app.Write_Index i →
        1 ≤ runLength (w.app.Read_Index i) (w.app.Write_Index i) ∧
        w.app.Read_Index i + runLength (w.app.Read_Index i) (w.app.Write_Index i)
          = (if w.app.Read_Index i > w.app.Write_Index i then APP_RX_DATA_SIZE
            else w.app.Write_Index i) ∧
        w.app.Read_Index i + runLength (w.app.Read_Index i) (w.app.Write_Index i)
          ≤ APP_RX_DATA_SIZE ∧
        ∃ h1, w1.pdev.pClassDataCDC i = some h1 ∧
          h1.TxBuffer = Ptr.TX_Buffer i (w.app.Read_Index i) ∧
          h1.TxLength = runLength (w.app.Read_Index i) (w.app.Write_Index i)) ∧
      (∀ ev, ev ∈ flushEvents E w i →
        w.app.Read_Index i ≠ w.app.Write_Index i ∧ w.txIdle i = true ∧
        ev = Event.USBD_LL_Transmit (CDC_IN_EP E i) (Ptr.TX_Buffer i (w.app.Read_Index i))
          (runLength (w.app.Read_Index i) (w.app.Write_Index i))) ∧
      (w.app.Read_Index i ≠ w.app.Write_Index i → w.txIdle i = true →
        flushEvents E w i
          = [Event.USBD_LL_Transmit (CDC_IN_EP E i) (Ptr.TX_Buffer i (w.app.Read_Index i))
            (runLength (w.app.Read_Index i) (w.app.Write_Index i))] ∧
        w1.app.Read_Index i
          = (w.app.Read_Index i + runLength (w.app.Read_Index i) (w.app.Write_Index i))
            % APP_RX_DATA_SIZE) ∧
      (¬ (w.app.Read_Index i ≠ w.app.Write_Index i ∧ w.txIdle i = true) →
        w1.app.Read_Index i = w.app.Read_Index i) ∧
      (w.txIdle i = true → w.app.Read_Index i ≤ w.app.Write_Index i →
        w1.app.Read_Index i = w1.app.Write_Index i) ∧
      (w.txIdle i = true → ∀ w3, w3.app = w1.app →
        (∀ j, j < NUMBER_OF_CDC → (w3.pdev.pClassDataCDC j).isSome) → w3.txIdle i = true →
        ∃ w4, HAL_TIM_PeriodElapsedCallback E w3 = some w4 ∧
          w4.app.Write_Index = w.app.Write_Index ∧
          w4.app.Read_Index i = w4.app.Write_Index i) := by
  obtain ⟨hR, hW⟩ := hinv i hi
  obtain ⟨w1, h1, v, t⟩ := forLoop_flush_view E NUMBER_OF_CDC w (fun j hj _ => halloc j hj)
  have hread : w1.app.Read_Index i = flushedRead w i := v.read_done i hi
  have hinv1 : CursorInv w1.app := by
    intro j hj
    rw [v.write, v.read_done j hj]
    obtain ⟨hRj, hWj⟩ := hinv j hj
    refine ⟨?_, hWj⟩
    unfold flushedRead
    split_ifs with hc
    · obtain ⟨-, -, -, -, h5⟩ := advanceRead_runLength _ _ hRj hWj hc.1
      rw [h5]
      unfold APP_RX_DATA_SIZE at *
      split_ifs <;> omega
    · exact hRj
  refine ⟨w1, h1, t, v.write, hinv1, ?_, ?_, ?_, ?_, ?_, ?_⟩
  · intro hp
    obtain ⟨a1, a2, a3, -, -⟩ := advanceRead_runLength _ _ hR hW hp
    refine ⟨a1, a2, ?_, ?_⟩
    · rw [a2]
      unfold APP_RX_DATA_SIZE at *
      split_ifs <;> omega
    · obtain ⟨h, hh⟩ := Option.isSome_iff_exists.mp (halloc i hi)
      have hc := v.class_done i hi
      rw [if_pos hp, hh] at hc
      exact ⟨_, hc, rfl, Nat.mod_eq_of_lt a3⟩
  · intro ev hev
    unfold flushEvents at hev
    split_ifs at hev with hc
    · obtain ⟨-, -, a3, -, -⟩ := advanceRead_runLength _ _ hR hW hc.1
      rw [Nat.mod_eq_of_lt a3] at hev
      exact ⟨hc.1, hc.2, List.mem_singleton.mp hev⟩
    · simp at hev
  · intro hp hidle
    obtain ⟨-, -, a3, a4, -⟩ := advanceRead_runLength _ _ hR hW hp
    constructor
    · unfold flushEvents
      rw [if_pos ⟨hp, hidle⟩, Nat.mod_eq_of_lt a3]
    · rw [hread]
      unfold flushedRead
      rw [if_pos ⟨hp, hidle⟩, a4]
  · intro hn
    rw [hread]
    unfold flushedRead
    rw [if_neg hn]
  · intro hidle hle
    rw [hread, v.write]
    unfold flushedRead
    split_ifs with hc
    · obtain ⟨-, -, -, -, a5⟩ := advanceRead_runLength _ _ hR hW hc.1
      rw [a5, if_neg (by omega)]
    · by_contra hne
      exact hc ⟨hne, hidle⟩
  · intro hidle w3 happ halloc3 hidle3
    obtain ⟨w4, h4, v4, -⟩ := forLoop_flush_view E NUMBER_OF_CDC w3
      (fun j hj _ => halloc3 j hj)
    refine ⟨w4, h4, by rw [v4.write, happ, v.write], ?_⟩
    rw [v4.read_done i hi, v4.write, happ, v.write]
    have hr3 : w3.app.Read_Index i = flushedRead w i := by rw [happ, hread]
    have hw3 : w3.app.Write_Index i = w.app.Write_Index i := by rw [happ, v.write]
    unfold flushedRead
    rw [hr3, hw3]
    by_cases hp : w.app.Read_Index i = w.app.Write_Index i
    · have h0 : flushedRead w i = w.app.Write_Index i := by
        unfold flushedRead
        rw [if_neg (by simp [hp]), hp]
      rw [h0]
      simp
    · obtain ⟨-, -, -, -, a5⟩ := advanceRead_runLength _ _ hR hW hp
      have h0 : flushedRead w i
          = (if w.app.Read_Index i > w.app.Write_Index i then 0 else w.app.Write_Index i) := by
        unfold flushedRead
        rw [if_pos ⟨hp, hidle⟩, a5]
      rw [h0]
      by_cases hgt : w.app.Read_Index i > w.app.Write_Index i
      · simp only [hgt, if_true]
        by_cases hz : (0 : Nat) = w.app.Write_Index i
        · rw [if_neg (by simp [hz]), hz]
        · obtain ⟨-, -, -, -, b5⟩ := advanceRead_runLength 0 _
            (by unfold APP_RX_DATA_SIZE; omega) hW hz
          rw [if_pos ⟨hz, hidle3⟩, b5, if_neg (by omega)]
      · simp [hgt]

/-- Witness for C24: channel 1 of the sample device, Idle and wrapped (read cursor 1000,
write cursor 10). -/
theorem C24_run_bounds_witness :
    ∃ w1, HAL_TIM_PeriodElapsedCallback sampleEndpoints sampleWorldWrapped = some w1 ∧
      sampleWorldWrapped.app.Read_Index 1 = 1000 ∧
      sampleWorldWrapped.app.Write_Index 1 = 10 ∧
      runLength (sampleWorldWrapped.app.Read_Index 1) (sampleWorldWrapped.app.Write_Index 1)
        = 24 ∧
      w1.app.Read_Index 1 = 0 ∧
      ∀ w3, w3.app = w1.app →
        (∀ j, j < NUMBER_OF_CDC → (w3.pdev.pClassDataCDC j).isSome) → w3.txIdle 1 = true →
        ∃ w4, HAL_TIM_PeriodElapsedCallback sampleEndpoints w3 = some w4 ∧
          w4.app.Read_Index 1 = w4.app.Write_Index 1 := by
  have hinv : CursorInv sampleWorldWrapped.app := by
    unfold CursorInv
    decide
  obtain ⟨w1, h1, -, -, -, -, -, hacc, -, -, htwo⟩ :=
    C24_run_bounds sampleEndpoints sampleWorldWrapped 1 (by decide) hinv (by decide)
  have hrun : runLength (sampleWorldWrapped.app.Read_Index 1)
      (sampleWorldWrapped.app.Write_Index 1) = 24 := by decide
  refine ⟨w1, h1, rfl, rfl, hrun, ?_, ?_⟩
  · rw [(hacc (by decide) (by decide)).2, hrun]
    rfl
  · intro w3 h3 ha hi3
    obtain ⟨w4, h4, -, h5⟩ := htwo (by decide) w3 h3 ha hi3
    exact ⟨w4, h4, h5⟩

/-! ## Interface numbers of the configuration descriptor -/

set_option maxRecDepth 8000 in
/-- The descriptor has 273 initialisers; the `bInterfaceNumber` bytes of the communication
interfaces are 0, 3, 5 and 7. -/
theorem USBD_CDC_CfgFSDesc_comm (E : EndpointIds) (M : DescriptorMacros) :
    (USBD_CDC_CfgFSDesc E M).length = 273 ∧
    (USBD_CDC_CfgFSDesc E M)[commInterfaceOffset 0]? = some 0 ∧
    (USBD_CDC_CfgFSDesc E M)[commInterfaceOffset 1]? = some 3 ∧
    (USBD_CDC_CfgFSDesc E M)[commInterfaceOffset 2]? = some 5 ∧
    (USBD_CDC_CfgFSDesc E M)[commInterfaceOffset 3]? = some 7 :=
  ⟨rfl, rfl, rfl, rfl, rfl⟩

/-- C25 on the code: whatever the macros stand for, `USBD_CDC_CfgFSDesc` has 273
initialisers and the `bInterfaceNumber` bytes of the four communication interfaces, at
offsets 19 + 66 i, are 0, 3, 5 and 7, not 0, 1, 2 and 3. `USBD_CDC_Setup` takes the low byte
of `wIndex` as the channel index: the `SET_LINE_CODING` request for interface 3, the
communication interface of channel 1, stashes its opcode and length in the record of channel
3 and leaves the record of channel 1 as it is; the interface numbers 5 and 7 of channels 2
and 3 are not below `NUMBER_OF_CDC`. -/
theorem C25_interface_numbers :
    (∀ (E : EndpointIds) (M : DescriptorMacros),
      (USBD_CDC_CfgFSDesc E M).length = 273 ∧
      (USBD_CDC_CfgFSDesc E M)[commInterfaceOffset 0]? = some 0 ∧
      (USBD_CDC_CfgFSDesc E M)[commInterfaceOffset 1]? = some 3 ∧
      (USBD_CDC_CfgFSDesc E M)[commInterfaceOffset 2]? = some 5 ∧
      (USBD_CDC_CfgFSDesc E M)[commInterfaceOffset 3]? = some 7) ∧
    (reqSetLineCodingItf3.wIndex = 3 ∧
      ∃ w1 h3, USBD_CDC_Setup reqSetLineCodingItf3 sampleWorld = some (USBD_OK, w1) ∧
        w1.pdev.pClassDataCDC 3 = some h3 ∧ h3.CmdOpCode = CDC_SET_LINE_CODING ∧
        h3.CmdLength = 7 ∧
        w1.pdev.pClassDataCDC 1 = sampleWorld.pdev.pClassDataCDC 1 ∧
        w1.trace = [Event.USBD_CtlPrepareRx (Ptr.data 3) 7]) ∧
    ¬ 5 < NUMBER_OF_CDC ∧ ¬ 7 < NUMBER_OF_CDC := by
  refine ⟨USBD_CDC_CfgFSDesc_comm, ⟨rfl, _, _, rfl, rfl, rfl, rfl, rfl, rfl⟩,
    by decide, by decide⟩

/-! ## Teardown is idempotent -/

/-- An iteration of `USBD_CDC_DeInit` completes when a capability set is registered or the
channel holds no record; it leaves the registration and the other channels' records alone. -/
theorem deinitChannel_some (E : EndpointIds) (i : Nat) (w : World)
    (hreg : (w.pdev.pClassDataCDC i).isSome → w.pdev.pUserDataCDC.isSome) :
    ∃ w1, deinitChannel E i w = some w1 ∧ w1.pdev.pUserDataCDC = w.pdev.pUserDataCDC ∧
      ∀ j, j ≠ i → w1.pdev.pClassDataCDC j = w.pdev.pClassDataCDC j := by
  rw [deinitChannel_eq]
  cases hc : w.pdev.pClassDataCDC i with
  | none => exact ⟨_, rfl, rfl, fun _ _ => rfl⟩
  | some hcdc =>
    obtain ⟨fops, hf⟩ := Option.isSome_iff_exists.mp (hreg (by simp [hc]))
    cases fops
    obtain ⟨r, hr⟩ := CDC_DeInit_FS_some i ((closeChannel E i w).emit [Event.DeInit i])
    obtain ⟨hp, -⟩ := CDC_DeInit_FS_pdev _ _ _ hr
    simp only [hf, ItfRef.DeInit, hr]
    refine ⟨_, rfl, ?_, ?_⟩
    · show r.2.pdev.pUserDataCDC = _
      rw [hp]; exact hf
    · intro j hj
      show Function.update r.2.pdev.pClassDataCDC i none j = _
      rw [Function.update_noteq hj, hp]; rfl

/-- The loop of `USBD_CDC_DeInit` completes when a capability set is registered or no
channel below `n` holds a record. -/
theorem forLoop_deinit_some (E : EndpointIds) (n : Nat) (w : World)
    (hreg : (∃ i, i < n ∧ (w.pdev.pClassDataCDC i).isSome) → w.pdev.pUserDataCDC.isSome) :
    ∃ w1, forLoop n (deinitChannel E) w = some w1 ∧
      w1.pdev.pUserDataCDC = w.pdev.pUserDataCDC ∧
      ∀ j, n ≤ j → w1.pdev.pClassDataCDC j = w.pdev.pClassDataCDC j := by
  induction n with
  | zero => exact ⟨w, rfl, rfl, fun _ _ => rfl⟩
  | succ n ih =>
    obtain ⟨w1, h1, u1, k1⟩ := ih (fun ⟨i, hi, ha⟩ => hreg ⟨i, by omega, ha⟩)
    obtain ⟨w2, h2, u2, k2⟩ := deinitChannel_some E n w1 (by
      intro ha
      rw [u1]
      rw [k1 n (le_refl n)] at ha
      exact hreg ⟨n, by omega, ha⟩)
    refine ⟨w2, by rw [forLoop_succ, h1]; exact h2, by rw [u2, u1], ?_⟩
    intro j hj
    rw [k2 j (by omega), k1 j (by omega)]

/-- One iteration of `USBD_CDC_EP0_RxReady` in full: the state it returns, for an allocated
channel whose pending command is not a `SET_LINE_CODING` on a channel without a UART. -/
theorem ep0RxReadyChannel_full (i : Nat) (w : World) (h : USBD_CDC_HandleTypeDef)
    (hreg : w.pdev.pUserDataCDC = some ItfRef.USBD_Interface_fops_FS)
    (hh : w.pdev.pClassDataCDC i = some h)
    (hb : h.CmdOpCode = CDC_SET_LINE_CODING → i ≤ 2) :
    ∃ w1, ep0RxReadyChannel i w = some w1 ∧
      w1.app = ep0App w i w.app ∧
      w1.pdev = { w.pdev with
        pClassDataCDC := Function.update w.pdev.pClassDataCDC i
          (some (if h.CmdOpCode ≠ 0xFF then
            { h with
              data := ((CDC_Control_FS i h.CmdOpCode h.data h.CmdLength w.app).map
                (fun r => r.pbuf)).getD h.data
              CmdOpCode := 0xFF }
            else h)) } ∧
      w1.trace = w.trace ++ ep0Events w i := by
  by_cases hop : h.CmdOpCode = 0xFF
  · refine ⟨w, by simp [ep0RxReadyChannel, hreg, hh, hop], by simp [ep0App, hh, hop], ?_,
      by simp [ep0Events, hh, hop]⟩
    simp only [hop, ne_eq, not_true_eq_false, if_false]
    rw [← hh, Function.update_eq_self]
  · obtain ⟨r, hr⟩ := CDC_Control_FS_isSome i h.CmdOpCode h.data h.CmdLength w.app hb
    refine ⟨_, by simp [ep0RxReadyChannel, hreg, hh, hop, ItfRef.Control, hr]; rfl, ?_, ?_, ?_⟩
    · simp [ep0App, hh, hop, hr]
    · simp [World.setHandle, World.emit, hop, hr]
    · simp [ep0Events, hh, hop]

theorem ep0AppUpTo_succ (w : World) (n : Nat) :
    ep0AppUpTo w (n + 1) = ep0App w n (ep0AppUpTo w n) := by
  simp [ep0AppUpTo, List.range_succ, List.foldl_append]

/-- The first `n` iterations of `USBD_CDC_EP0_RxReady` in full: application state, channel
records, the rest of the device handle, and the trace. -/
theorem forLoop_ep0_full (n : Nat) (w : World)
    (hreg : w.pdev.pUserDataCDC = some ItfRef.USBD_Interface_fops_FS)
    (halloc : ∀ i, i < n → (w.pdev.pClassDataCDC i).isSome)
    (hb : ∀ i h, i < n → w.pdev.pClassDataCDC i = some h →
      h.CmdOpCode = CDC_SET_LINE_CODING → i ≤ 2) :
    ∃ w1, forLoop n ep0RxReadyChannel w = some w1 ∧
      w1.app = ep0AppUpTo w n ∧
      w1.pdev = { w.pdev with
        pClassDataCDC := fun i =>
          if i < n then (w.pdev.pClassDataCDC i).map (ep0Handle w i)
          else w.pdev.pClassDataCDC i } ∧
      w1.trace = w.trace ++ (List.range n).flatMap (ep0Events w) := by
  induction n with
  | zero =>
    refine ⟨w, rfl, rfl, ?_, by simp⟩
    simp
  | succ n ih =>
    obtain ⟨w1, h1, a1, p1, t1⟩ :=
      ih (fun i hi => halloc i (by omega)) (fun i h hi => hb i h (by omega))
    obtain ⟨h, hh⟩ := Option.isSome_iff_exists.mp (halloc n (by omega))
    have hh1 : w1.pdev.pClassDataCDC n = some h := by
      rw [p1]
      simp [hh]
    have hreg1 : w1.pdev.pUserDataCDC = some ItfRef.USBD_Interface_fops_FS := by
      rw [p1]; exact hreg
    obtain ⟨w2, h2, a2, p2, t2⟩ :=
      ep0RxReadyChannel_full n w1 h hreg1 hh1 (hb n h (by omega) hh)
    have happ : ep0App w1 n w1.app = ep0App w n (ep0AppUpTo w n) := by
      simp [ep0App, hh, hh1, a1]
    have hev : ep0Events w1 n = ep0Events w n := by simp [ep0Events, hh, hh1]
    refine ⟨w2, by rw [forLoop_succ, h1]; exact h2, ?_, ?_, ?_⟩
    · rw [a2, happ, ep0AppUpTo_succ]
    · rw [p2, p1]
      simp only [USBD_HandleTypeDef.mk.injEq, true_and, and_true]
      funext j
      by_cases hjn : j = n
      · subst hjn
        simp [hh, ep0Handle, a1]
      · rw [Function.update_noteq hjn]
        by_cases hlt : j < n
        · simp [hlt, show j < n + 1 by omega]
        · simp [hlt, show ¬ j < n + 1 by omega]
    · rw [t2, t1, hev, List.range_succ, List.flatMap_append]
      simp

theorem ep0Handle_op (w : World) (i : Nat) (h : USBD_CDC_HandleTypeDef) :
    (ep0Handle w i h).CmdOpCode = 0xFF := by
  unfold ep0Handle
  split_ifs with hop
  · rfl
  · exact not_not.mp hop

/-- C10 (amended): on a device with the capability set registered and all channels
allocated, and with no `SET_LINE_CODING` pending on channel 3, the channel without a UART
handle, `USBD_CDC_EP0_RxReady` returns `USBD_OK` after calling
`Control(i, CmdOpCode_i, data_i, CmdLength_i)` exactly once for each channel i whose
`CmdOpCode` is not the sentinel 0xFF, in channel order, and for no other channel. The
application state on return is what these calls leave, each call acting on the state the
calls before it left; each dispatched channel's scratch buffer is as its call left it; every
channel's `CmdOpCode` is 0xFF; nothing else in the device handle changes. An immediately
repeated call returns `USBD_OK`, dispatches nothing and changes no state, trace included. -/
theorem C10_ep0_rxready (w : World)
    (hreg : w.pdev.pUserDataCDC = some ItfRef.USBD_Interface_fops_FS)
    (halloc : ∀ i, i < NUMBER_OF_CDC → (w.pdev.pClassDataCDC i).isSome)
    (hb : w.pendingOp 3 ≠ CDC_SET_LINE_CODING) :
    ∃ w1, USBD_CDC_EP0_RxReady w = some (USBD_OK, w1) ∧
      w1.trace = w.trace ++ (List.range NUMBER_OF_CDC).flatMap (ep0Events w) ∧
      w1.app = ep0AppUpTo w NUMBER_OF_CDC ∧
      (∀ i h, i < NUMBER_OF_CDC → w.pdev.pClassDataCDC i = some h →
        w1.pdev.pClassDataCDC i = some (ep0Handle w i h)) ∧
      (∀ i, NUMBER_OF_CDC ≤ i → w1.pdev.pClassDataCDC i = w.pdev.pClassDataCDC i) ∧
      w1.pdev = { w.pdev with pClassDataCDC := w1.pdev.pClassDataCDC } ∧
      (∀ i, i < NUMBER_OF_CDC → w1.pendingOp i = 0xFF) ∧
      USBD_CDC_EP0_RxReady w1 = some (USBD_OK, w1) := by
  obtain ⟨w1, h1, a1, p1, t1⟩ := forLoop_ep0_full NUMBER_OF_CDC w hreg halloc (by
    intro i h hi hh hop
    by_cases h3 : i = 3
    · subst h3
      exact absurd (by simp [World.pendingOp, hh, hop]) hb
    · unfold NUMBER_OF_CDC at hi
      omega)
  have hrec : ∀ i h, i < NUMBER_OF_CDC → w.pdev.pClassDataCDC i = some h →
      w1.pdev.pClassDataCDC i = some (ep0Handle w i h) := by
    intro i h hi hh
    rw [p1]
    simp [hi, hh]
  refine ⟨w1, by simp [USBD_CDC_EP0_RxReady, h1], t1, a1, hrec, ?_, ?_, ?_, ?_⟩
  · intro i hi
    rw [p1]
    simp [show ¬ i < NUMBER_OF_CDC by omega]
  · rw [p1]
  · intro i hi
    obtain ⟨h, hh⟩ := Option.isSome_iff_exists.mp (halloc i hi)
    simp [World.pendingOp, hrec i h hi hh, ep0Handle_op]
  · have hs : forLoop NUMBER_OF_CDC ep0RxReadyChannel w1 = some w1 :=
      forLoop_ep0_sentinel NUMBER_OF_CDC w1 (by
        intro i hi
        obtain ⟨h, hh⟩ := Option.isSome_iff_exists.mp (halloc i hi)
        exact ⟨_, hrec i h hi hh, ep0Handle_op w i h⟩)
    simp [USBD_CDC_EP0_RxReady, hs]

/-- Witness for C10: the sample device with `SET_LINE_CODING` pending on channels 0 (9600
baud) and 2 (zero rate, two stop bits, odd parity). The call dispatches exactly these two
commands, after it the line codings of channels 0 and 2 are the decoded payloads and the
two peripherals are configured, and a repeated call does nothing. -/
theorem C10_ep0_rxready_witness :
    ∃ w1, USBD_CDC_EP0_RxReady sampleWorldStashed = some (USBD_OK, w1) ∧
      w1.trace = [Event.Control 0 0x20 (Ptr.data 0) 7, Event.Control 2 0x20 (Ptr.data 2) 7] ∧
      w1.app.Line_Coding 0 = { bitrate := 9600, format := 0, paritytype := 0, datatype := 8 } ∧
      w1.app.Line_Coding 2
        = { bitrate := 115200, format := 2, paritytype := 1, datatype := 8 } ∧
      ((w1.app.huart huart1).applied.map (fun c => c.BaudRate)) = some 9600 ∧
      ((w1.app.huart huart3).applied.map (fun c => c.BaudRate)) = some 115200 ∧
      w1.app.Line_Coding 1 = sampleWorldStashed.app.Line_Coding 1 ∧
      (∀ i, i < NUMBER_OF_CDC → w1.pendingOp i = 0xFF) ∧
      USBD_CDC_EP0_RxReady w1 = some (USBD_OK, w1) := by
  obtain ⟨w1, h1, t1, a1, -, -, -, s1, r1⟩ :=
    C10_ep0_rxready sampleWorldStashed rfl (by decide) (by decide)
  refine ⟨w1, h1, ?_, ?_, ?_, ?_, ?_, ?_, s1, r1⟩
  · rw [t1]; decide
  · rw [a1]; decide
  · rw [a1]; decide
  · rw [a1]; decide
  · rw [a1]; decide
  · rw [a1]; decide

/-- C10 as stated fails when a `SET_LINE_CODING` is pending on channel 3: on the sample
device, with the capability set registered and all four channels allocated, the dispatched
call writes through the null UART handle and `USBD_CDC_EP0_RxReady` has no result, so it
does not return with every `CmdOpCode` at the sentinel. -/
theorem C10_channel3_counterexample :
    sampleWorldStashed3.pdev.pUserDataCDC = some ItfRef.USBD_Interface_fops_FS ∧
    (∀ i, i < NUMBER_OF_CDC → (sampleWorldStashed3.pdev.pClassDataCDC i).isSome) ∧
    sampleWorldStashed3.pendingOp 3 = CDC_SET_LINE_CODING ∧
    USBD_CDC_EP0_RxReady sampleWorldStashed3 = none :=
  ⟨rfl, by decide, by decide, rfl⟩

/-! ## Request dispatch: stalls and answers -/

/-- The capability call has a result exactly when it is not a `SET_LINE_CODING` on a channel
index above 2. -/
theorem CDC_Control_FS_some_iff (i cmd : Nat) (pbuf : Nat → Nat) (n : Nat) (s : AppState) :
    (∃ r, CDC_Control_FS i cmd pbuf n s = some r) ↔ (cmd = CDC_SET_LINE_CODING → i ≤ 2) := by
  constructor
  · rintro ⟨r, hr⟩ hc
    by_contra hi
    rw [hc, CDC_Control_FS_set_unbound i pbuf n s (by omega)] at hr
    exact absurd hr (by simp)
  · exact CDC_Control_FS_isSome i cmd pbuf n s

/-- When the class-request branch of `USBD_CDC_Setup` has a result. -/
theorem setupClass_some_iff (req : USBD_SetupReqTypedef) (w : World) :
    (∃ r, setupClass req w = some r) ↔
      ((req.wLength = 0 ∨ req.bmRequest &&& 0x80 ≠ 0) →
        w.pdev.pUserDataCDC.isSome ∧
          (req.bRequest = CDC_SET_LINE_CODING → req.wIndex % 256 ≤ 2)) ∧
      (req.wLength ≠ 0 → (w.pdev.pClassDataCDC (req.wIndex % 256)).isSome) := by
  unfold setupClass
  by_cases hl : req.wLength = 0
  · simp only [hl, ne_eq, not_true_eq_false, if_false, true_or, true_implies, false_implies,
      and_true]
    cases hu : w.pdev.pUserDataCDC with
    | none => simp
    | some f =>
      cases f
      simp only [ItfRef.Control, World.emit_app, Option.isSome_some, true_and]
      rw [← CDC_Control_FS_some_iff (req.wIndex % 256) req.bRequest (reqBytes req) 0 w.app]
      cases CDC_Control_FS (req.wIndex % 256) req.bRequest (reqBytes req) 0 w.app <;> simp
  · by_cases hd : req.bmRequest &&& 0x80 = 0
    · simp only [hl, hd, ne_eq, not_false_eq_true, if_true, not_true_eq_false, if_false,
        or_self, false_implies, true_and, true_implies]
      cases w.pdev.pClassDataCDC (req.wIndex % 256) <;> simp
    · simp only [hl, hd, ne_eq, not_false_eq_true, if_true, false_or, true_implies]
      cases hu : w.pdev.pUserDataCDC with
      | none => simp
      | some f =>
        cases f
        cases hc : w.pdev.pClassDataCDC (req.wIndex % 256) with
        | none => simp
        | some hcdc =>
          simp only [ItfRef.Control, World.emit_app, Option.isSome_some, true_and, and_true]
          rw [← CDC_Control_FS_some_iff (req.wIndex % 256) req.bRequest hcdc.data req.wLength
            w.app]
          cases CDC_Control_FS (req.wIndex % 256) req.bRequest hcdc.data req.wLength w.app <;>
            simp

/-- C18 (amended): for every host-to-device class request with a payload (`wLength ≠ 0`,
bit 7 of `bmRequest` clear) addressed to an allocated channel, `USBD_CDC_Setup` returns
`USBD_OK` and stashes in the channel record, unchanged otherwise, the opcode `bRequest` (as a
byte) and, as pending length, `wLength` modulo 256, `CmdLength` being 8 bits wide: the
pending length is `wLength` itself exactly for `wLength` in 1..255. If moreover the
capability set is registered, all channels are allocated, the channel index is below
`NUMBER_OF_CDC`, the stashed opcode is not the sentinel 0xFF and no `SET_LINE_CODING` is then
pending on channel 3, the channel without a UART handle, `USBD_CDC_EP0_RxReady` returns
`USBD_OK` and calls `Control` for that channel exactly once, with the stashed opcode and
with the stashed length, `wLength` modulo 256, as length argument. -/
theorem C18_pending_length (req : USBD_SetupReqTypedef) (w : World)
    (hclass : req.bmRequest &&& USB_REQ_TYPE_MASK = USB_REQ_TYPE_CLASS)
    (hlen : req.wLength ≠ 0) (hdir : req.bmRequest &&& 0x80 = 0)
    (hchan : (w.pdev.pClassDataCDC (req.wIndex % 256)).isSome) :
    ∃ w1 h h1, USBD_CDC_Setup req w = some (USBD_OK, w1) ∧
      w.pdev.pClassDataCDC (req.wIndex % 256) = some h ∧
      w1.pdev.pClassDataCDC (req.wIndex % 256) = some h1 ∧
      h1 = { h with CmdOpCode := req.bRequest % 256, CmdLength := req.wLength % 256 } ∧
      (req.bRequest < 256 → h1.CmdOpCode = req.bRequest) ∧
      (h1.CmdLength = req.wLength ↔ req.wLength < 256) ∧
      (w.pdev.pUserDataCDC = some ItfRef.USBD_Interface_fops_FS →
        (∀ i, i < NUMBER_OF_CDC → (w.pdev.pClassDataCDC i).isSome) →
        req.wIndex % 256 < NUMBER_OF_CDC → h1.CmdOpCode ≠ 0xFF →
        w1.pendingOp 3 ≠ CDC_SET_LINE_CODING →
        ∃ w2, USBD_CDC_EP0_RxReady w1 = some (USBD_OK, w2) ∧
          w2.trace = w1.trace ++ (List.range NUMBER_OF_CDC).flatMap (ep0Events w1) ∧
          ep0Events w1 (req.wIndex % 256)
            = [Event.Control (req.wIndex % 256) h1.CmdOpCode (Ptr.data (req.wIndex % 256))
                (req.wLength % 256)] ∧
          (∀ c p n, Event.Control (req.wIndex % 256) c p n
              ∈ (List.range NUMBER_OF_CDC).flatMap (ep0Events w1) →
            c = h1.CmdOpCode ∧ p = Ptr.data (req.wIndex % 256) ∧ n = req.wLength % 256)) := by
  obtain ⟨h, hh⟩ := Option.isSome_iff_exists.mp hchan
  have e1 : USBD_CDC_Setup req w = some (USBD_OK,
      (w.setHandle (req.wIndex % 256)
        { h with CmdOpCode := req.bRequest % 256, CmdLength := req.wLength % 256 }).emit
        [Event.USBD_CtlPrepareRx (Ptr.data (req.wIndex % 256)) req.wLength]) := by
    simp [USBD_CDC_Setup, hclass, setupClass, hlen, hdir, hh]
  generalize hw1 : (w.setHandle (req.wIndex % 256)
        { h with CmdOpCode := req.bRequest % 256, CmdLength := req.wLength % 256 }).emit
        [Event.USBD_CtlPrepareRx (Ptr.data (req.wIndex % 256)) req.wLength] = w1 at e1
  have hc1 : w1.pdev.pClassDataCDC (req.wIndex % 256)
      = some { h with CmdOpCode := req.bRequest % 256, CmdLength := req.wLength % 256 } := by
    subst hw1; simp
  have hco : ∀ j, j ≠ req.wIndex % 256 → w1.pdev.pClassDataCDC j = w.pdev.pClassDataCDC j := by
    intro j hj; subst hw1; simp [hj]
  refine ⟨w1, h, _, e1, hh, hc1, rfl, fun hb => Nat.mod_eq_of_lt hb, ?_, ?_⟩
  · show req.wLength % 256 = req.wLength ↔ _
    constructor
    · intro he
      rw [← he]
      exact Nat.mod_lt _ (by decide)
    · exact Nat.mod_eq_of_lt
  · intro hreg halloc hidx hop hb
    have hreg1 : w1.pdev.pUserDataCDC = some ItfRef.USBD_Interface_fops_FS := by
      subst hw1; simpa using hreg
    have halloc1 : ∀ i, i < NUMBER_OF_CDC → (w1.pdev.pClassDataCDC i).isSome := by
      intro i hi
      by_cases hii : i = req.wIndex % 256
      · rw [hii, hc1]; rfl
      · rw [hco i hii]; exact halloc i hi
    obtain ⟨w2, h2, -, -, t2⟩ := forLoop_ep0_full NUMBER_OF_CDC w1 hreg1 halloc1 (by
      intro i hx hi hhx hopx
      by_cases h3 : i = 3
      · subst h3
        exact absurd (by simp [World.pendingOp, hhx, hopx]) hb
      · unfold NUMBER_OF_CDC at hi
        omega)
    have hev : ep0Events w1 (req.wIndex % 256)
        = [Event.Control (req.wIndex % 256) (req.bRequest % 256) (Ptr.data (req.wIndex % 256))
            (req.wLength % 256)] := by
      have hop1 : ¬ req.bRequest % 256 = 255 := hop
      simp [ep0Events, hc1, hop1]
    refine ⟨w2, by simp [USBD_CDC_EP0_RxReady, h2], t2, hev, ?_⟩
    intro c p n hn
    obtain ⟨j, -, hj⟩ := List.mem_flatMap.mp hn
    unfold ep0Events at hj
    cases hcj : w1.pdev.pClassDataCDC j with
    | none => simp [hcj] at hj
    | some hx =>
      simp only [hcj] at hj
      split_ifs at hj with hne
      · simp only [List.mem_singleton, Event.Control.injEq] at hj
        obtain ⟨hji, hcc, hpp, hnn⟩ := hj
        rw [← hji, hc1] at hcj
        obtain rfl := Option.some.inj hcj
        exact ⟨hcc, by rw [hpp, hji], hnn⟩
      · simp at hj

/-- Witness for C18: `SET_LINE_CODING` with its 7-byte payload on the sample device: opcode
0x20 and length 7 are stashed, and `USBD_CDC_EP0_RxReady` then makes the one call
`Control(0, 0x20, data_0, 7)`. -/
theorem C18_pending_length_witness :
    ∃ w1 h1 w2, USBD_CDC_Setup reqSetLineCoding sampleWorld = some (USBD_OK, w1) ∧
      w1.pdev.pClassDataCDC 0 = some h1 ∧
      h1.CmdOpCode = 0x20 ∧ h1.CmdLength = 7 ∧
      USBD_CDC_EP0_RxReady w1 = some (USBD_OK, w2) ∧
      w2.trace = w1.trace ++ [Event.Control 0 0x20 (Ptr.data 0) 7] := by
  obtain ⟨w1, h, h1, e1, hh, hc1, hh1, -, -, hep⟩ :=
    C18_pending_length reqSetLineCoding sampleWorld (by decide) (by decide) (by decide)
      (by decide)
  have hw : w1 = ((USBD_CDC_Setup reqSetLineCoding sampleWorld).map Prod.snd).getD
      sampleWorld := by
    rw [e1]; rfl
  have hop : h1.CmdOpCode = 0x20 := by rw [hh1]; rfl
  have hl : h1.CmdLength = 7 := by rw [hh1]; rfl
  obtain ⟨w2, e2, t2, -, -⟩ := hep rfl (by decide) (by decide) (by rw [hop]; decide)
    (by rw [hw]; decide)
  refine ⟨w1, h1, w2, e1, hc1, hop, hl, e2, ?_⟩
  rw [t2, hw]
  decide

/-- C18 as stated fails for `wLength` = 263: the request is a host-to-device class request
with a payload length in 1..65535 addressed to the allocated channel 0 of the sample device,
and the pending length `USBD_CDC_Setup` stashes is 7, not 263. -/
theorem C18_truncation_counterexample :
    reqLongPayload.bmRequest &&& USB_REQ_TYPE_MASK = USB_REQ_TYPE_CLASS ∧
    reqLongPayload.bmRequest &&& 0x80 = 0 ∧
    1 ≤ reqLongPayload.wLength ∧ reqLongPayload.wLength ≤ 65535 ∧
    (sampleWorld.pdev.pClassDataCDC (reqLongPayload.wIndex % 256)).isSome ∧
    ∃ w1 h1, USBD_CDC_Setup reqLongPayload sampleWorld = some (USBD_OK, w1) ∧
      w1.pdev.pClassDataCDC 0 = some h1 ∧ h1.CmdLength = 7 ∧
      h1.CmdLength ≠ reqLongPayload.wLength := by
  refine ⟨by decide, by decide, by decide, by decide, by decide, _, _, rfl, rfl, rfl, ?_⟩
  decide


/-! ## Endpoint multiplexer -/

/-- A completed iteration of `USBD_CDC_Init` ran with a capability set registered and leaves
it registered. -/
theorem initChannel_registered (E : EndpointIds) (alloc : Nat → Option USBD_CDC_HandleTypeDef)
    (i : Nat) (st r : Nat × World) (h : initChannel E alloc i st = some r) :
    r.2.pdev.pUserDataCDC.isSome := by
  unfold initChannel at h
  simp only [] at h
  cases hu : st.2.pdev.pUserDataCDC with
  | none => simp [World.setClassPtr, World.setUsedIn, World.setUsedOut, World.emit, hu] at h
  | some f =>
    cases f
    simp only [World.setClassPtr, World.setUsedIn, World.setUsedOut, World.emit, hu,
      ItfRef.Init, CDC_Init_FS, USBD_CDC_SetRxBuffer, Function.update_same] at h
    cases ha : alloc i with
    | none => simp [ha] at h
    | some hcdc =>
      simp only [ha, HAL_TIM_Base_Start_IT, World.emit, World.setHandle, ne_eq,
        not_true_eq_false, if_false, Function.update_same, Option.some.injEq] at h
      subst h
      simp [hu]

/-- Every state `USBD_CDC_Init` returns has a capability set registered. -/
theorem USBD_CDC_Init_registered (E : EndpointIds)
    (alloc : Nat → Option USBD_CDC_HandleTypeDef) (cfgidx : Nat) (w : World) (r : Nat × World)
    (h : USBD_CDC_Init E alloc cfgidx w = some r) : r.2.pdev.pUserDataCDC.isSome := by
  unfold USBD_CDC_Init at h
  obtain ⟨st, -, hb⟩ := forLoop_succ_some 3 (initChannel E alloc) (0, w) r h
  exact initChannel_registered E alloc 3 st r hb

end CDC
